import Mathlib

/-!
The nrf52840-hal kernel: shallow embedding of the multitasking core.

The definitions below follow `kernel/src/multitask.c`, `kernel/src/mutex.c`,
`kernel/src/mpu.c`, `kernel/src/syscall.c`, `kernel/src/rtt.c`,
`kernel/include/thread.h`, `kernel/include/mutex.h`, `kernel/include/arm.h`,
`kernel/include/rtt.h` and `kernel/include/error.h`.

Conventions of the embedding.

* `uint32_t` and `uint8_t` values are natural numbers; every operation that can
  wrap is reduced modulo `2^32` or `2^8` explicitly.
* `float` values (`total_utilization`, `util_bound`) are IEEE 754 binary32
  values: a finite value is the rational it denotes, and every conversion and
  every `+`, `-`, `/` rounds to nearest, ties to even; infinities and NaN are
  kept.
* A pointer to a TCB is the index of the slot in `user_threads`, a pointer to a
  mutex is the index of the slot in `user_locks`; a null pointer is `none`.
* The two tables are total maps from indices to records.  An index outside the
  C array addresses memory outside the table; a store through such an index is
  kept apart from every slot of the table, a store through a null pointer
  changes no slot.
* `blocked_threads` of a mutex is the list of the first `num_blocked_threads`
  entries of the C array, so `num_blocked_threads` is its length; a list
  longer than the array records an overrun of the array.
* `set_pendsv` and `clr_pendsv` act on the field `pendsv`; interrupt masking,
  barriers, MPU registers and `printk` have no effect on the modelled state.
  A supervisor call that pends the switch and has code left to run
  (`syscall_lock`, `syscall_multitask_start`) stops at the pend: the caller
  is taken off the processor there and goes on when it is scheduled again.
  The calls of `syscall_unlock` made by the release loop of
  `syscall_thread_end` are run as one step.
-/

namespace Nrf52840

/-! ## Constants (`thread.h`, `error.h`) -/

/-- The value `0xFFFFFFFF`, used by the source as "no priority" and "no ceiling". -/
def UINT32_MAX : Nat := 0xFFFFFFFF

/-- `MAX_NUM_THREADS` of `thread.h`. -/
def MAX_NUM_THREADS : Nat := 14

/-- `MAX_USER_LOCKS` of `thread.h`. -/
def MAX_USER_LOCKS : Nat := 32

/-- `MAX_TOTAL_THREAD_STACK_SIZE` of `thread.h`. -/
def MAX_TOTAL_THREAD_STACK_SIZE : Nat := 32768

/-- `SYSTICK_BASE_FREQUENCY` of `systick.h`. -/
def SYSTICK_BASE_FREQUENCY : Nat := 64000000

def SUCCESS : Int := 0
def MULTITASK_START_INVALID_FREQ : Int := -7
def MULTITASK_START_WITHOUT_THREAD : Int := -8
def MULTITASK_REQUEST_INVALID_PARAMS : Int := -9
def MULTITASK_REQUEST_REPEATED : Int := -10
def THREAD_DEFINE_NO_TCB : Int := -11
def THREAD_DEFINE_DUPLICATE : Int := -12
def THREAD_DEFINE_INVALID_ARGS : Int := -13
def THREAD_DEFINE_UNSAFE_ADMISSION : Int := -14
def THREAD_MEMORY_OUT_OF_BOUNDS_ACCESS : Int := -15
def MAIN_MEMORY_OUT_OF_BOUNDS_ACCESS : Int := -16
def LOCK_SPECIFIES_NONEXISTENT_HIGHEST_LOCKER : Int := -17

/-! ## Machine arithmetic -/

/-- Reduction to a `uint32_t`. -/
def u32 (n : Nat) : Nat := n % 2 ^ 32

/-- Reduction to a `uint8_t`. -/
def u8 (n : Nat) : Nat := n % 2 ^ 8

/-- The C expression `a - b` on `uint32_t` operands. -/
def u32_sub (a b : Nat) : Nat := (a % 2 ^ 32 + 2 ^ 32 - b % 2 ^ 32) % 2 ^ 32

/-- The C expression `a - b` stored to a `uint8_t`. -/
def u8_sub (a b : Nat) : Nat := (a % 2 ^ 8 + 2 ^ 8 - b % 2 ^ 8) % 2 ^ 8

/-- The macro `MIN` of `arm.h`. -/
def MIN (a b : Nat) : Nat := if a < b then a else b

/-- A store `table[i] = v`. -/
def store {α : Type} (table : Nat → α) (i : Nat) (v : α) : Nat → α :=
  fun j => if j = i then v else table j

/-! ## Single-precision arithmetic (the C type `float`) -/

/-- The number of binary digits of `n`; `fuel` bounds the number of halvings. -/
def bit_length : Nat → Nat → Nat
  | 0, _ => 0
  | fuel + 1, n => if n = 0 then 0 else bit_length fuel (n / 2) + 1

/-- The exponent `e` with `2^e ≤ num/den < 2^(e+1)`, for positive `num` and `den`. -/
def floor_log2 (num den : Nat) : Int :=
  let e0 : Int := (bit_length num num : Int) - (bit_length den den : Int)
  if (if 0 ≤ e0 then 2 ^ e0.toNat * den ≤ num else den ≤ num * 2 ^ (-e0).toNat)
  then e0 else e0 - 1

/-- The integer nearest to `N/D`, the even one of the two when `N/D` lies half way. -/
def round_half_even (N D : Nat) : Nat :=
  if 2 * (N % D) < D then N / D
  else if D < 2 * (N % D) then N / D + 1
  else if (N / D) % 2 = 0 then N / D else N / D + 1

/-- Rounding to nearest, ties to even, in the binary format with `p` digits of
precision and least exponent `emin` (IEEE 754 `roundTiesToEven`, subnormal numbers
included, the exponent unbounded above): `q` is rounded to a multiple of `2^g`,
`g = max ⌊log2 |q|⌋ emin - (p - 1)`. -/
def round_binary (p : Nat) (emin : Int) (q : ℚ) : ℚ :=
  if q = 0 then 0
  else
    let g : Int := max (floor_log2 q.num.natAbs q.den) emin - ((p : Int) - 1)
    let n := round_half_even (q.num.natAbs * 2 ^ (-g).toNat) (q.den * 2 ^ g.toNat)
    let v : ℚ := ((n * 2 ^ g.toNat : Nat) : ℚ) / ((2 ^ (-g).toNat : Nat) : ℚ)
    if q < 0 then -v else v

/-- A value of the C type `float` (IEEE 754 binary32), finite values by the rational
they denote.  The sign of a zero is not kept: the program never divides by a zero
other than a converted `uint32_t`, which is `+0`, and no other operation it uses
tells the two zeros apart. -/
inductive float where
  | finite (q : ℚ)
  | inf (negative : Bool)
  | nan
  deriving DecidableEq

/-- The binary32 result of an operation whose exact result is `q`: rounded to nearest
with 24 digits and least exponent -126, an infinity when the rounded magnitude
reaches `2^128`. -/
def float_round (q : ℚ) : float :=
  let v := round_binary 24 (-126) q
  if 2 ^ 128 ≤ v then float.inf false
  else if v ≤ -(2 ^ 128) then float.inf true
  else float.finite v

/-- The conversion `(float)n` of a `uint32_t`. -/
def float_of_uint32 (n : Nat) : float := float_round (n : ℚ)

/-- The value given to a `float` by a decimal literal without suffix: the literal is a
`double` constant (53 digits, least exponent -1022), which is then converted to
`float`.  The literals of the program are far below the overflow thresholds. -/
def float_of_literal (q : ℚ) : ℚ := round_binary 24 (-126) (round_binary 53 (-1022) q)

/-- The operation `x + y` on `float`. -/
def float_add : float → float → float
  | float.nan, _ => float.nan
  | _, float.nan => float.nan
  | float.inf a, float.inf b => if a = b then float.inf a else float.nan
  | float.inf a, float.finite _ => float.inf a
  | float.finite _, float.inf b => float.inf b
  | float.finite x, float.finite y => float_round (x + y)

/-- The operation `-x` on `float`. -/
def float_neg : float → float
  | float.nan => float.nan
  | float.inf a => float.inf (!a)
  | float.finite x => float.finite (-x)

/-- The operation `x - y` on `float`. -/
def float_sub (x y : float) : float := float_add x (float_neg y)

/-- The operation `x / y` on `float`; a zero divisor is `+0`. -/
def float_div : float → float → float
  | float.nan, _ => float.nan
  | _, float.nan => float.nan
  | float.inf _, float.inf _ => float.nan
  | float.inf a, float.finite y => float.inf (a != decide (y < 0))
  | float.finite _, float.inf _ => float.finite 0
  | float.finite x, float.finite y =>
    if y = 0 then (if x = 0 then float.nan else float.inf (decide (x < 0)))
    else float_round (x / y)

/-- The comparison `x <= y` on `float`: false when an operand is a NaN. -/
def float_le : float → float → Bool
  | float.nan, _ => false
  | _, float.nan => false
  | float.inf a, float.inf b => a || !b
  | float.inf a, float.finite _ => a
  | float.finite _, float.inf b => !b
  | float.finite x, float.finite y => decide (x ≤ y)

/-! ## Data model (`thread.h`, `mutex.h`, `mpu.h`) -/

/-- The enum `thread_state`. -/
inductive thread_state
  | ThreadRunning
  | ThreadReady
  | ThreadWaiting
  | ThreadBlocked
  | ThreadDefunct
  deriving DecidableEq, Repr

open thread_state

/-- The enum `mpu_mode`. -/
inductive mpu_mode
  | KERNEL_PROTECT
  | THREAD_PROTECT
  deriving DecidableEq, Repr

/-- The struct `tcb_t`. -/
structure tcb_t where
  id : Nat
  base_process_stack : Nat
  base_main_stack : Nat
  limit_process_stack : Nat
  limit_main_stack : Nat
  psp : Nat
  msp : Nat
  state : thread_state
  c : Nat
  t : Nat
  static_priority : Nat
  dynamic_priority : Nat
  active_time : Nat
  remaining_work : Nat
  time_until_release : Nat
  svc_status : Nat
  deriving DecidableEq, Repr

/-- The struct `mutex_t`; `blocked_threads` holds the first
`num_blocked_threads` entries of the C array. -/
structure mutex_t where
  s : Nat
  current_locker : Option Nat
  blocked_threads : List Nat
  priority_ceiling : Nat
  highest_locker_id : Nat
  deriving DecidableEq, Repr

/-- The field `num_blocked_threads` of `mutex_t`. -/
def mutex_t.num_blocked_threads (m : mutex_t) : Nat := m.blocked_threads.length

/-- The global variables of `multitask.c`, with the PendSV pending bit. -/
structure Kernel where
  user_threads : Nat → tcb_t
  num_user_threads : Nat
  num_active_threads : Nat
  active_thread_index : Nat
  global_timeslot_counter : Nat
  total_utilization : float
  protection_status : mpu_mode
  user_locks : Nat → mutex_t
  num_user_locks : Nat
  num_defined_locks : Nat
  global_priority_ceiling : Nat
  highest_priority_lock : Option Nat
  preemption_flag : Nat
  multitask_request_called : Nat
  thread_define_called : Nat
  pendsv : Bool

/-- A zero-filled `tcb_t` (state `ThreadRunning` is the enum value 0). -/
def tcb_zero : tcb_t :=
  { id := 0, base_process_stack := 0, base_main_stack := 0, limit_process_stack := 0,
    limit_main_stack := 0, psp := 0, msp := 0, state := ThreadRunning, c := 0, t := 0,
    static_priority := 0, dynamic_priority := 0, active_time := 0, remaining_work := 0,
    time_until_release := 0, svc_status := 0 }

/-- A zero-filled `mutex_t`. -/
def mutex_zero : mutex_t :=
  { s := 0, current_locker := none, blocked_threads := [], priority_ceiling := 0,
    highest_locker_id := 0 }

/-- The kernel variables as the initialisers of `multitask.c` leave them. -/
def boot : Kernel :=
  { user_threads := fun _ => tcb_zero, num_user_threads := 0, num_active_threads := 0,
    active_thread_index := 0, global_timeslot_counter := 0,
    total_utilization := float.finite 0,
    protection_status := mpu_mode.KERNEL_PROTECT, user_locks := fun _ => mutex_zero,
    num_user_locks := 0, num_defined_locks := 0, global_priority_ceiling := 0xFFFFFFFF,
    highest_priority_lock := none, preemption_flag := 0, multitask_request_called := 0,
    thread_define_called := 0, pendsv := false }

/-! ## Mutex primitives (`mutex.c`) -/

/-- The function `mutex_init`. -/
def mutex_init (_m : mutex_t) : mutex_t :=
  { s := 1, current_locker := none, blocked_threads := [], priority_ceiling := 0xFFFFFFFF,
    highest_locker_id := 0xFFFFFFFF }

/-- The function `mutex_try`: `0` and the semaphore taken when it was non-zero, `1`
otherwise.  The exclusive store succeeds: the callers run with interrupts masked. -/
def mutex_try (m : mutex_t) : Nat × mutex_t :=
  if m.s = 0 then (1, m) else (0, { m with s := 0 })

/-- The function `mutex_is_locked`: the negation of the semaphore word. -/
def mutex_is_locked (m : mutex_t) : Bool := m.s == 0

/-- The function `mutex_unlock`. -/
def mutex_unlock (m : mutex_t) : mutex_t := { m with s := 1 }

/-! ## Scheduler and context switch (`multitask.c`) -/

/-- The function `active_thread_holds_locks`. -/
def active_thread_holds_locks (k : Kernel) : Nat :=
  if (List.range k.num_defined_locks).any
      (fun index => (k.user_locks index).current_locker == some k.active_thread_index)
  then 1 else 0

/-- One iteration of the loop of `schedule_rms` at `index`; the accumulator is the
table with `highest_priority` and `next_index`. -/
def schedule_rms_step (flag : Nat) (acc : (Nat → tcb_t) × Nat × Nat) (index : Nat) :
    (Nat → tcb_t) × Nat × Nat :=
  let th := acc.1
  let tcb := th index
  if tcb.state = ThreadDefunct then acc
  else
    let sel : Nat × Nat :=
      if tcb.state = ThreadReady ∧ tcb.dynamic_priority < acc.2.1
      then (tcb.dynamic_priority, index) else acc.2
    if flag ≠ 0 then
      let tur := u32_sub tcb.time_until_release 1
      if tur = 0 then
        (store th index { tcb with time_until_release := tcb.t, remaining_work := tcb.c,
                                   state := ThreadReady }, sel)
      else (store th index { tcb with time_until_release := tur }, sel)
    else (th, sel)

/-- The function `schedule_rms`: the returned slot and the kernel after the
bookkeeping of the pass. -/
def schedule_rms (k : Kernel) : Nat × Kernel :=
  if k.num_active_threads = 0 then (k.num_user_threads + 1, k)
  else
    let r := (List.range k.num_user_threads).foldl (schedule_rms_step k.preemption_flag)
      (k.user_threads, 0xFFFFFFFF, k.num_user_threads)
    (r.2.2, { k with user_threads := r.1 })

/-- The tick accounting at the head of `PendSV_C_Handler` (the branch taken when
`preemption_flag` is set). -/
def charge_tick (k : Kernel) : Kernel :=
  let a := k.active_thread_index
  let tcb := k.user_threads a
  let tcb1 := { tcb with active_time := u32 (tcb.active_time + 1) }
  let tcb2 := if a ≠ k.num_user_threads
    then { tcb1 with remaining_work := u32_sub tcb1.remaining_work 1 } else tcb1
  let tcb3 := if tcb2.remaining_work = 0
    then { tcb2 with state := ThreadWaiting } else { tcb2 with state := ThreadReady }
  { k with global_timeslot_counter := u32 (k.global_timeslot_counter + 1),
           user_threads := store k.user_threads a tcb3 }

/-- The store `user_threads[a].state = ThreadRunning`. -/
def mark_running (th : Nat → tcb_t) (a : Nat) : Nat → tcb_t :=
  store th a { th a with state := ThreadRunning }

/-- The three stores of `PendSV_C_Handler` that save the context of slot `a`. -/
def save_context (th : Nat → tcb_t) (a msp frame_psp svc : Nat) : Nat → tcb_t :=
  store th a { th a with psp := frame_psp, msp := msp, svc_status := svc }

/-- The part of `PendSV_C_Handler` after the scheduler pass: the selected slot is
marked Running, after the context of the previous slot is saved when the two differ.
Returns the main stack pointer handed back to the assembly handler. -/
def switch_to (k : Kernel) (next_index msp frame_psp svc : Nat) : Nat × Kernel :=
  if next_index = k.active_thread_index then
    (msp, { k with user_threads := mark_running k.user_threads k.active_thread_index })
  else
    let th1 := save_context k.user_threads k.active_thread_index msp frame_psp svc
    let a1 := u8 next_index
    let th2 := mark_running th1 a1
    ((th2 a1).msp, { k with user_threads := th2, active_thread_index := a1 })

/-- The function `PendSV_C_Handler`.  `msp` is the argument, `frame_psp` the word
`frame->psp` found at `msp`, `svc` the value of `get_svc_status()`.  Returns the
main stack pointer handed back to the assembly handler and the new kernel state. -/
def PendSV_C_Handler (k : Kernel) (msp frame_psp svc : Nat) : Nat × Kernel :=
  let k0 := { k with pendsv := false }
  let k1 := if k0.preemption_flag ≠ 0 then charge_tick k0 else k0
  let r := schedule_rms k1
  switch_to { r.2 with preemption_flag := 0 } r.1 msp frame_psp svc

/-! ## Setup (`multitask.c`, `arm.h`) -/

/-- The loop of `ceil_log2`: `fuel` bounds the shift count by 31. -/
def ceil_log2_loop : Nat → Nat → Nat → Option Nat
  | 0, _, _ => none
  | fuel + 1, n, cl2n =>
    if n > 2 ^ cl2n then ceil_log2_loop fuel n (cl2n + 1) else some cl2n

/-- The function `ceil_log2` of `arm.h`.  For `n > 2^31` the loop reaches the shift
`1u << 32`, which has no defined value: the result is `none`. -/
def ceil_log2 (n : Nat) : Option Nat := ceil_log2_loop 32 n 0

/-- The function `thread_function_define`: the two initial frames are built just
below the bases (8 and 10 words) and the saved stack pointers point at them. -/
def thread_function_define (th : Nat → tcb_t) (_fn _arg : Nat) (index : Nat) : Nat → tcb_t :=
  store th index { th index with psp := u32_sub (th index).base_process_stack 32,
                                 msp := u32_sub (th index).base_main_stack 40 }

/-- The local `dummy_tcb` of `syscall_multitask_request`; the fields the source
leaves unassigned (`c`, `t`) keep the values of `junk`. -/
def dummy_tcb (junk : tcb_t) (psp msp aligned : Nat) : tcb_t :=
  { junk with id := 0, base_process_stack := psp, base_main_stack := msp,
              limit_process_stack := u32_sub psp aligned,
              limit_main_stack := u32_sub msp aligned, psp := psp, msp := msp,
              state := ThreadDefunct, static_priority := 0xFFFFFFFF,
              dynamic_priority := 0xFFFFFFFF, active_time := 0, remaining_work := 0,
              time_until_release := 0, svc_status := 0 }

/-- The local `main_tcb` of `syscall_multitask_request`; unassigned fields keep the
values of `junk`. -/
def main_tcb (junk : tcb_t) : tcb_t :=
  { junk with id := 0, psp := 0, msp := 0, state := ThreadRunning, active_time := 0,
              remaining_work := 1, time_until_release := 0, svc_status := 0 }

/-- The function `syscall_multitask_request`.  `user_base` and `kernel_base` are the
linker symbols `__thread_user_stacks_base` and `__thread_kernel_stacks_base`,
`default_idle` the address of the default idle function, `junk` the content of the
uninitialised locals.  `none` when `ceil_log2` has no value. -/
def syscall_multitask_request (k : Kernel) (user_base kernel_base default_idle : Nat)
    (junk : tcb_t) (num_threads stack_bytes idle_function : Nat) (mpu_protect : mpu_mode)
    (num_locks : Nat) : Option (Int × Kernel) :=
  if k.multitask_request_called ≠ 0 then some (MULTITASK_REQUEST_REPEATED, k)
  else
    match ceil_log2 stack_bytes with
    | none => none
    | some l =>
      let stack_bytes_aligned := u32 (2 ^ l)
      let num_threads_plus_idle := u32 (num_threads + 1)
      if num_threads > MAX_NUM_THREADS ∨ num_threads = 0 ∨
          u32 (stack_bytes_aligned * num_threads_plus_idle) > MAX_TOTAL_THREAD_STACK_SIZE ∨
          num_locks > MAX_USER_LOCKS then
        some (MULTITASK_REQUEST_INVALID_PARAMS, k)
      else
        let th1 := (List.range num_threads_plus_idle).foldl
          (fun th thread_index =>
            store th thread_index
              (dummy_tcb junk (u32_sub user_base (u32 (thread_index * stack_bytes_aligned)))
                (u32_sub kernel_base (u32 (thread_index * stack_bytes_aligned)))
                stack_bytes_aligned))
          k.user_threads
        let th2 := store th1 num_threads_plus_idle (main_tcb junk)
        let th3 := store th2 num_threads
          { th2 num_threads with id := 0xFFFFFFFF, c := 1, t := 1, state := ThreadReady,
                                 static_priority := 0xFFFFFFFF,
                                 dynamic_priority := 0xFFFFFFFF, remaining_work := 1,
                                 time_until_release := 0 }
        let th4 := if idle_function = 0
          then thread_function_define th3 default_idle 0 num_threads
          else thread_function_define th3 idle_function 0 num_threads
        some (SUCCESS,
          { k with user_threads := th4, num_user_threads := u8 num_threads,
                   active_thread_index := u8 num_threads_plus_idle,
                   protection_status := mpu_protect, num_user_locks := u8 num_locks,
                   multitask_request_called := 1 })

/-- The initialisers of `util_bound`, as the decimals written in the source. -/
def util_bound_literals : List ℚ :=
  [0, 1, 8284 / 10000, 7798 / 10000, 7568 / 10000, 7435 / 10000, 7348 / 10000,
   7286 / 10000, 7241 / 10000, 7205 / 10000, 7177 / 10000, 7155 / 10000, 7136 / 10000,
   7119 / 10000, 7106 / 10000, 7094 / 10000]

/-- The table `util_bound`: the values its sixteen `float` entries hold, each the
binary32 value of its initialiser (all of them finite). -/
def util_bound : List ℚ := util_bound_literals.map float_of_literal

/-- The first loop of `order_absolute_priorities`: every user slot loses its
priorities. -/
def order_clear (n : Nat) (th : Nat → tcb_t) : Nat → tcb_t :=
  (List.range n).foldl
    (fun th assignment_index =>
      store th assignment_index { th assignment_index with static_priority := 0xFFFFFFFF,
                                                           dynamic_priority := 0xFFFFFFFF })
    th

/-- One iteration of the inner loop of `order_absolute_priorities`; the accumulator
is `(highest_priority_index, highest_priority_id, highest_priority_period)`. -/
def order_scan_step (th : Nat → tcb_t) (acc : Nat × Nat × Nat) (thread_index : Nat) :
    Nat × Nat × Nat :=
  let tcb := th thread_index
  if tcb.static_priority ≠ 0xFFFFFFFF ∨ tcb.state = ThreadDefunct then acc
  else if tcb.t < acc.2.2 ∨ (tcb.t ≤ acc.2.2 ∧ tcb.id < acc.2.1) then
    (thread_index, tcb.id, tcb.t)
  else acc

/-- One iteration of the outer loop of `order_absolute_priorities`. -/
def order_assign_step (n : Nat) (th : Nat → tcb_t) (assignment_index : Nat) : Nat → tcb_t :=
  let r := (List.range n).foldl (order_scan_step th) (0xFFFFFFFF, 0xFFFFFFFF, 0xFFFFFFFF)
  store th r.1 { th r.1 with static_priority := assignment_index,
                             dynamic_priority := assignment_index }

/-- The function `order_absolute_priorities`. -/
def order_absolute_priorities (k : Kernel) : Kernel :=
  let th := (List.range k.num_active_threads).foldl (order_assign_step k.num_user_threads)
    (order_clear k.num_user_threads k.user_threads)
  { k with user_threads := th }

/-- One iteration of the search loop of `syscall_thread_define`; the accumulator is
(duplicate found, `tcb_index`). -/
def define_search_step (th : Nat → tcb_t) (id : Nat) (acc : Bool × Nat) (index : Nat) :
    Bool × Nat :=
  if acc.1 then acc
  else if (th index).id = id ∧ (th index).state ≠ ThreadDefunct then (true, acc.2)
  else if (th index).state = ThreadDefunct then (false, index)
  else acc

/-- The function `syscall_thread_define`.  `none` when the read of `util_bound` is
outside the sixteen entries of the table. -/
def syscall_thread_define (k : Kernel) (id fn arg c t : Nat) : Option (Int × Kernel) :=
  if fn = 0 ∨ c = 0 ∨ t = 0 ∨ c > t then some (THREAD_DEFINE_INVALID_ARGS, k)
  else if k.multitask_request_called = 0 then some (THREAD_DEFINE_NO_TCB, k)
  else
    let r := (List.range k.num_user_threads).foldl (define_search_step k.user_threads id)
      (false, k.num_user_threads)
    if r.1 then some (THREAD_DEFINE_DUPLICATE, k)
    else
      let tcb_index := r.2
      if tcb_index = k.num_user_threads then some (THREAD_DEFINE_NO_TCB, k)
      else
        let new_utilization : float :=
          float_add (float_div (float_of_uint32 c) (float_of_uint32 t)) k.total_utilization
        match util_bound[k.num_active_threads + 1]? with
        | none => none
        | some bound =>
          if float_le new_utilization (float.finite bound) = true then
            let th1 := store k.user_threads tcb_index
              { k.user_threads tcb_index with id := id, c := c, t := t, state := ThreadReady,
                                              active_time := 0, remaining_work := c,
                                              time_until_release := u32_sub t 1,
                                              svc_status := 0 }
            let th2 := thread_function_define th1 fn arg tcb_index
            some (SUCCESS,
              order_absolute_priorities
                { k with total_utilization := new_utilization, user_threads := th2,
                         num_active_threads := u8 (k.num_active_threads + 1),
                         thread_define_called := 1 })
          else some (THREAD_DEFINE_UNSAFE_ADMISSION, k)

/-- The inner search of `validate_ceiling_id`: the static priority of the first
non-Defunct user TCB whose id is `id`. -/
def find_ceiling (th : Nat → tcb_t) (n id : Nat) : Option Nat :=
  ((List.range n).find? (fun thread_index =>
      decide ((th thread_index).state ≠ ThreadDefunct ∧ (th thread_index).id = id))).map
    (fun thread_index => (th thread_index).static_priority)

/-- One iteration of the outer loop of `validate_ceiling_id`; the flag of the
accumulator is cleared once the function has returned 0. -/
def validate_ceiling_step (th : Nat → tcb_t) (n : Nat) (acc : Bool × (Nat → mutex_t))
    (lock_index : Nat) : Bool × (Nat → mutex_t) :=
  if acc.1 then
    match find_ceiling th n (acc.2 lock_index).highest_locker_id with
    | some p => (true, store acc.2 lock_index { acc.2 lock_index with priority_ceiling := p })
    | none => (false, acc.2)
  else acc

/-- The function `validate_ceiling_id`: its result (1 or 0) and the lock table as
it leaves it. -/
def validate_ceiling_id (k : Kernel) : Nat × Kernel :=
  let r := (List.range k.num_defined_locks).foldl
    (validate_ceiling_step k.user_threads k.num_user_threads) (true, k.user_locks)
  (if r.1 then 1 else 0, { k with user_locks := r.2 })

/-- The function `syscall_multitask_start` up to the point where it pends the
switch.  `systick_rv` is the value returned by `systick_configure` (its source is
not part of the repository files at hand).  The code `SUCCESS` is the one the caller
receives once the bootstrap task is scheduled again. -/
def syscall_multitask_start (k : Kernel) (freq : Nat) (systick_rv : Int) : Int × Kernel :=
  if freq > SYSTICK_BASE_FREQUENCY then (MULTITASK_START_INVALID_FREQ, k)
  else if k.thread_define_called = 0 then (MULTITASK_START_WITHOUT_THREAD, k)
  else
    let v := validate_ceiling_id k
    if v.1 = 0 then (LOCK_SPECIFIES_NONEXISTENT_HIGHEST_LOCKER, v.2)
    else
      let k2 := { v.2 with global_priority_ceiling := 0xFFFFFFFF, highest_priority_lock := none }
      if freq > 0 ∧ systick_rv ≠ 0 then (systick_rv, k2)
      else (SUCCESS, { k2 with global_timeslot_counter := 0, pendsv := true })

/-! ## Task lifecycle and locking (`multitask.c`) -/

/-- The function `syscall_thread_yield`. -/
def syscall_thread_yield (k : Kernel) : Kernel :=
  let a := k.active_thread_index
  let th := if a ≠ k.num_user_threads
    then store k.user_threads a { k.user_threads a with state := ThreadWaiting }
    else k.user_threads
  { k with user_threads := th, pendsv := true }

/-- One iteration of the wake-up loop of `syscall_unlock`. -/
def wake_one (th : Nat → tcb_t) (p : Nat) : Nat → tcb_t :=
  store th p { th p with state := ThreadReady }

/-- The wake-up loop of `syscall_unlock`: every entry of the blocked list becomes
Ready. -/
def wake_blocked (th : Nat → tcb_t) (blocked : List Nat) : Nat → tcb_t :=
  blocked.foldl wake_one th

/-- One iteration of the innermost loop of `syscall_unlock`: the caller `a` takes
the minimum of its dynamic priority and that of the waiter `p`. -/
def inherit_from (a : Nat) (th : Nat → tcb_t) (p : Nat) : Nat → tcb_t :=
  store th a { th a with dynamic_priority := MIN (th a).dynamic_priority (th p).dynamic_priority }

/-- The innermost loop of `syscall_unlock` over the blocked list of one mutex. -/
def reinherit (th : Nat → tcb_t) (a : Nat) (blocked : List Nat) : Nat → tcb_t :=
  blocked.foldl (inherit_from a) th

/-- One iteration of the loop of `syscall_unlock` over the defined locks; the
accumulator is the TCB table with `new_global_ceiling` and `new_highest_lock`. -/
def unlock_scan_step (locks : Nat → mutex_t) (a : Nat)
    (acc : (Nat → tcb_t) × Nat × Option Nat) (lock_index : Nat) :
    (Nat → tcb_t) × Nat × Option Nat :=
  if mutex_is_locked (locks lock_index) then
    let sel : Nat × Option Nat :=
      if (locks lock_index).priority_ceiling < acc.2.1
      then ((locks lock_index).priority_ceiling, some lock_index) else acc.2
    if (locks lock_index).current_locker = some a then
      (reinherit acc.1 a (locks lock_index).blocked_threads, sel)
    else (acc.1, sel)
  else acc

/-- The loop of `syscall_unlock` over the first `n` locks, started from
`new_global_ceiling = 0xFFFFFFFF` and a null `new_highest_lock`. -/
def unlock_scan (locks : Nat → mutex_t) (a n : Nat) (th : Nat → tcb_t) :
    (Nat → tcb_t) × Nat × Option Nat :=
  (List.range n).foldl (unlock_scan_step locks a) (th, 0xFFFFFFFF, none)

/-- The three stores of `syscall_unlock` that release the mutex: `mutex_unlock`, the
blocked count set to 0 and the holder set to null. -/
def release_mutex (m : mutex_t) : mutex_t :=
  { mutex_unlock m with blocked_threads := [], current_locker := none }

/-- The store of `syscall_unlock` that puts the caller back to its static priority. -/
def reset_priority (th : Nat → tcb_t) (a : Nat) : Nat → tcb_t :=
  store th a { th a with dynamic_priority := (th a).static_priority }

/-- The function `syscall_unlock` on the mutex in slot `m` of `user_locks`. -/
def syscall_unlock (k : Kernel) (m : Nat) : Kernel :=
  if mutex_is_locked (k.user_locks m) = false then k
  else
    let th1 := wake_blocked k.user_threads (k.user_locks m).blocked_threads
    let locks1 := store k.user_locks m (release_mutex (k.user_locks m))
    let a := k.active_thread_index
    let r := unlock_scan locks1 a k.num_defined_locks (reset_priority th1 a)
    let th3 := store r.1 a { r.1 a with state := ThreadReady }
    { k with user_threads := th3, user_locks := locks1, global_priority_ceiling := r.2.1,
             highest_priority_lock := r.2.2, pendsv := true }

/-- One iteration of the loop of `syscall_thread_end` over the lock table. -/
def thread_end_release (k : Kernel) (index : Nat) : Kernel :=
  if (k.user_locks index).current_locker = some k.active_thread_index
  then syscall_unlock k index else k

/-- The function `syscall_thread_end`. -/
def syscall_thread_end (k : Kernel) : Kernel :=
  if k.active_thread_index = k.num_user_threads then k
  else
    let k1 := (List.range k.num_user_locks).foldl thread_end_release k
    let a := k1.active_thread_index
    let tcb := k1.user_threads a
    { k1 with total_utilization := float_sub k1.total_utilization
                (float_div (float_of_uint32 tcb.c) (float_of_uint32 tcb.t)),
              user_threads := store k1.user_threads a { tcb with state := ThreadDefunct },
              num_active_threads := u8_sub k1.num_active_threads 1, pendsv := true }

/-- The function `syscall_lock_init`: the handle (slot of the new mutex) or null. -/
def syscall_lock_init (k : Kernel) (prio : Nat) : Option Nat × Kernel :=
  if k.num_defined_locks ≥ k.num_user_locks ∨ k.active_thread_index ≠ k.num_user_threads + 1
  then (none, k)
  else
    let n := k.num_defined_locks
    let locks := store k.user_locks n
      { mutex_init (k.user_locks n) with highest_locker_id := prio }
    (some n, { k with user_locks := locks, num_defined_locks := u8 (n + 1) })

/-- How control leaves `syscall_lock`, or where it stops inside it: it returns at once
(`AlreadyHeld`), returns holding the mutex (`Acquired`), pends the switch in the loop
body (`Pended`), or pends it in `syscall_thread_end` (`Ended`). -/
inductive lock_exit
  | AlreadyHeld
  | Acquired
  | Pended
  | Ended
  deriving DecidableEq, Repr

/-- The check of `syscall_lock` that the caller does not hold `m` already: the exit
taken, or `none` when control goes on to the loop. -/
def lock_held_check (k : Kernel) (m : Nat) : Option lock_exit × Kernel :=
  if (k.user_locks m).current_locker = some k.active_thread_index
  then (some lock_exit.AlreadyHeld, k) else (none, k)

/-- The head of `syscall_lock` before its loop.  A caller that ranks above the ceiling
of `m` is ended by `syscall_thread_end`, whose `set_pendsv()` takes the caller off the
processor: control stops there (`Ended`).  Only for the idle task does
`syscall_thread_end` return at once, and control goes on.  Then comes the check that
the caller does not hold `m` already.  `none`: control reaches the loop. -/
def syscall_lock_entry (k : Kernel) (m : Nat) : Option lock_exit × Kernel :=
  if (k.user_threads k.active_thread_index).static_priority < (k.user_locks m).priority_ceiling
  then
    if k.active_thread_index = k.num_user_threads
    then lock_held_check (syscall_thread_end k) m
    else (some lock_exit.Ended, syscall_thread_end k)
  else lock_held_check k m

/-- The TCB that `highest_priority_lock->current_locker` points to; with a null
`highest_priority_lock` the word compared is not the address of a TCB. -/
def ceiling_holder (k : Kernel) : Option Nat :=
  match k.highest_priority_lock with
  | some h => (k.user_locks h).current_locker
  | none => none

/-- The first conjunct of the loop condition of `syscall_lock`. -/
def may_try (k : Kernel) : Bool :=
  decide ((k.user_threads k.active_thread_index).dynamic_priority < k.global_priority_ceiling)
    || decide (ceiling_holder k = some k.active_thread_index)

/-- The store `blocked_threads[num_blocked_threads] = &user_threads[a]` with the
increment of `num_blocked_threads`, on the mutex in slot `j`.  The list is the content
of the C array as long as it has at most `MAX_NUM_THREADS` entries.  A fifteenth store
falls outside the array, on the word `num_blocked_threads` itself, which then holds
the address of the TCB, incremented: from there on the list only records that the
array was overrun, and its length is not the value of the C field. -/
def enqueue (locks : Nat → mutex_t) (j a : Nat) : Nat → mutex_t :=
  store locks j { locks j with blocked_threads := (locks j).blocked_threads ++ [a] }

/-- The store that marks the caller `a` Blocked. -/
def block_caller (th : Nat → tcb_t) (a : Nat) : Nat → tcb_t :=
  store th a { th a with state := ThreadBlocked }

/-- The body of the loop of `syscall_lock`, run when the attempt failed. -/
def lock_blocked (k : Kernel) (m : Nat) : Kernel :=
  let a := k.active_thread_index
  let th1 := block_caller k.user_threads a
  let locks1 :=
    if mutex_is_locked (k.user_locks m) then enqueue k.user_locks m a
    else
      match k.highest_priority_lock with
      | some h => enqueue k.user_locks h a
      | none => k.user_locks
  let th2 :=
    match (locks1 m).current_locker with
    | some l => inherit_from l th1 a
    | none => th1
  { k with user_threads := th2, user_locks := locks1, pendsv := true }

/-- The code after the loop of `syscall_lock`, run once `mutex_try` has taken `m`. -/
def lock_acquired (k : Kernel) (m : Nat) : Kernel :=
  let locks1 := store k.user_locks m
    { k.user_locks m with current_locker := some k.active_thread_index }
  if (locks1 m).priority_ceiling < k.global_priority_ceiling then
    { k with user_locks := locks1, global_priority_ceiling := (locks1 m).priority_ceiling,
             highest_priority_lock := some m }
  else { k with user_locks := locks1 }

/-- One evaluation of the loop condition of `syscall_lock` together with what
follows it: `Acquired` when the caller leaves the loop holding `m`, `Pended` when it
runs the loop body and pends the switch (it evaluates the condition again when it
is next scheduled). -/
def syscall_lock_attempt (k : Kernel) (m : Nat) : lock_exit × Kernel :=
  if may_try k then
    let r := mutex_try (k.user_locks m)
    let k1 := { k with user_locks := store k.user_locks m r.2 }
    if r.1 = 0 then (lock_exit.Acquired, lock_acquired k1 m)
    else (lock_exit.Pended, lock_blocked k1 m)
  else (lock_exit.Pended, lock_blocked k m)

/-- The loop body of `syscall_lock` stores through `m->current_locker`, and through
`highest_priority_lock` when `m` is free; this tells whether one of the two
pointers is null when a failed attempt on `m` reaches those stores. -/
def lock_blocked_null_store (k : Kernel) (m : Nat) : Bool :=
  ((k.user_locks m).current_locker).isNone
    || (!mutex_is_locked (k.user_locks m) && k.highest_priority_lock.isNone)

/-- The function `syscall_lock` from its entry to the first time it either returns
or pends the switch, in its loop or in `syscall_thread_end`. -/
def syscall_lock (k : Kernel) (m : Nat) : lock_exit × Kernel :=
  match syscall_lock_entry k m with
  | (some e, k1) => (e, k1)
  | (none, k1) => syscall_lock_attempt k1 m

/-- The code of `syscall_lock` that follows the call of `syscall_thread_end`: where a
caller stopped there goes on if it is run again.  The source has no `return` after
the call. -/
def syscall_lock_resume (k : Kernel) (m : Nat) : lock_exit × Kernel :=
  match lock_held_check k m with
  | (some e, k1) => (e, k1)
  | (none, k1) => syscall_lock_attempt k1 m

/-! ## Memory faults (`mpu.c`, `syscall.c`) -/

/-- How control leaves `MemFault_C_Handler`: through `syscall_exit`, which never
returns, or by returning after `syscall_thread_end`. -/
inductive fault_outcome
  | Exited (status : Int)
  | Ended (k : Kernel)

/-- The status the application was exited with, if it was. -/
def fault_outcome.status : fault_outcome → Option Int
  | fault_outcome.Exited status => some status
  | fault_outcome.Ended _ => none

/-- The kernel state the handler returns with, if it returns. -/
def fault_outcome.kernel : fault_outcome → Option Kernel
  | fault_outcome.Exited _ => none
  | fault_outcome.Ended k => some k

/-- The function `syscall_exit`: it prints the status, lights the error LED, disables
interrupts and stays in `while (1)`; no kernel variable is written. -/
def syscall_exit (status : Int) : fault_outcome := fault_outcome.Exited status

/-- The function `MemFault_C_Handler` after its diagnostic prints.  `psp` is the
argument, `user_process_stack_base` and `user_process_stack_limit` are the linker
symbols `__user_process_stack_base` and `__user_process_stack_limit`. -/
def MemFault_C_Handler (k : Kernel)
    (psp user_process_stack_base user_process_stack_limit : Nat) : fault_outcome :=
  let a := k.active_thread_index
  if a < k.num_user_threads + 1 ∧ psp ≥ (k.user_threads a).base_process_stack then
    syscall_exit THREAD_MEMORY_OUT_OF_BOUNDS_ACCESS
  else if a < k.num_user_threads + 1 ∧ psp < (k.user_threads a).limit_process_stack then
    syscall_exit THREAD_MEMORY_OUT_OF_BOUNDS_ACCESS
  else if a = k.num_user_threads + 1 ∧ psp ≥ user_process_stack_base then
    syscall_exit MAIN_MEMORY_OUT_OF_BOUNDS_ACCESS
  else if a = k.num_user_threads + 1 ∧ psp < user_process_stack_limit then
    syscall_exit MAIN_MEMORY_OUT_OF_BOUNDS_ACCESS
  else fault_outcome.Ended (syscall_thread_end k)

/-! ## Heap break (`syscall.c`) -/

/-- The function `syscall_sbrk`.  `current_system_break` is the static variable,
`heap_limit` the address of the linker symbol `__heap_limit`, `incr` the `int`
argument; the result is the returned pointer (`(void *)-1` is `0xFFFFFFFF`) and the
new value of the static variable. -/
def syscall_sbrk (current_system_break heap_limit : Nat) (incr : Int) : Nat × Nat :=
  if incr < 0 then (0xFFFFFFFF, current_system_break)
  else
    let new_system_break := u32 (current_system_break + (incr % 2 ^ 32).toNat)
    if new_system_break > heap_limit then (0xFFFFFFFF, current_system_break)
    else (current_system_break, new_system_break)

/-! ## Trace rings (`rtt.c`, `rtt.h`) -/

/-- The size of the up buffer. -/
def RTT_UP_BUFFER_SIZE : Nat := 256

/-- The size of the down buffer. -/
def RTT_DOWN_BUFFER_SIZE : Nat := 16

/-- One ring of the control block: the byte array `p`, its size and the two
indices. -/
structure rtt_buffer where
  p : Nat → Nat
  buffer_size : Nat
  w_idx : Nat
  r_idx : Nat

/-- The index after `i` in a ring of size `buffer_size`, as both loops compute it:
`(i + 1) >= buffer_size ? 0 : i + 1`. -/
def next_index (buffer_size i : Nat) : Nat := if i + 1 ≥ buffer_size then 0 else i + 1

/-- One iteration of the loop of `rtt_write` for the byte `b`.  `none` when the busy
loop `BUSY_LOOP(r_idx == conflict_index)` is entered with its condition true: the
writer spins until the reader moves. -/
def rtt_write_step (rb : rtt_buffer) (b : Nat) : Option rtt_buffer :=
  let conflict_index := next_index rb.buffer_size rb.w_idx
  if rb.r_idx = conflict_index then none
  else some { rb with p := store rb.p rb.w_idx b, w_idx := conflict_index }

/-- The loop of `rtt_write` over the bytes of `src`, on one ring. -/
def rtt_write : rtt_buffer → List Nat → Option rtt_buffer
  | rb, [] => some rb
  | rb, b :: src =>
    match rtt_write_step rb b with
    | none => none
    | some rb1 => rtt_write rb1 src

/-- One iteration of the loop of `rtt_read`: the byte read and the ring after it.
`none` when the busy loop `BUSY_LOOP(w_idx == read_index)` is entered with its
condition true. -/
def rtt_read_step (rb : rtt_buffer) : Option (Nat × rtt_buffer) :=
  if rb.w_idx = rb.r_idx then none
  else some (rb.p rb.r_idx, { rb with r_idx := next_index rb.buffer_size rb.r_idx })

/-- The loop of `rtt_read` for `len` bytes, on one ring: the bytes copied to `dst`
and the ring after them. -/
def rtt_read : rtt_buffer → Nat → Option (List Nat × rtt_buffer)
  | rb, 0 => some ([], rb)
  | rb, len + 1 =>
    match rtt_read_step rb with
    | none => none
    | some (b, rb1) =>
      match rtt_read rb1 len with
      | none => none
      | some (dst, rb2) => some (b :: dst, rb2)

/-- The function `rtt_peek`, on one ring. -/
def rtt_peek (rb : rtt_buffer) : Nat :=
  if rb.w_idx ≥ rb.r_idx then u32_sub rb.w_idx rb.r_idx
  else u32 (u32_sub rb.buffer_size rb.r_idx + rb.w_idx)

/-! ## Events outside `multitask.c` and derived quantities -/

/-- Modelled from the spec: the SysTick handler (`systick.c`, absent from the files at
hand) "pends the context-switch interrupt"; `multitask.h` documents `preemption_flag`
as "asserted when scheduling is performed from systick timer". -/
def systick_tick (k : Kernel) : Kernel := { k with preemption_flag := 1, pendsv := true }

/-- One run of the PendSV handler, the stack words ignored. -/
def context_switch (k : Kernel) : Kernel := (PendSV_C_Handler k 0 0 0).2

/-- A SysTick interrupt followed by the PendSV handler. -/
def tick (k : Kernel) : Kernel := context_switch (systick_tick k)

/-- The kernel after `n` further ticks. -/
def ticks (k : Kernel) : Nat → Kernel
  | 0 => k
  | n + 1 => tick (ticks k n)

/-- The kernel in timeslot `i`: the PendSV handler is run once for the switch pended
by `multitask_start`, then once for every tick. -/
def run_ticks (k : Kernel) : Nat → Kernel
  | 0 => context_switch k
  | i + 1 => tick (run_ticks k i)

/-- The slot selected for timeslot `i`. -/
def selected_slot (k : Kernel) (i : Nat) : Nat := (run_ticks k i).active_thread_index

/-- The id of the task selected for timeslot `i`. -/
def selected_id (k : Kernel) (i : Nat) : Nat :=
  ((run_ticks k i).user_threads (run_ticks k i).active_thread_index).id

/-- The slots below `n` whose TCB is not Defunct. -/
def live_slots (th : Nat → tcb_t) (n : Nat) : List Nat :=
  (List.range n).filter (fun i => decide ((th i).state ≠ ThreadDefunct))

/-- The number of user TCBs that are not Defunct. -/
def active_count (k : Kernel) : Nat := (live_slots k.user_threads k.num_user_threads).length

/-- The kernel after a successful `syscall_multitask_request` from `boot`, with stacks
of 256 bytes, the default idle function and per-thread protection. -/
def after_request (n locks : Nat) : Kernel :=
  match syscall_multitask_request boot 0x20010000 0x20020000 1 tcb_zero n 256 0
      mpu_mode.THREAD_PROTECT locks with
  | some r => r.2
  | none => boot

/-- The kernel after `syscall_thread_define k id fn arg c t` with a non-null `fn`. -/
def after_define (k : Kernel) (id c t : Nat) : Kernel :=
  match syscall_thread_define k id 1 0 c t with
  | some r => r.2
  | none => k

/-- The kernel at the point where `syscall_multitask_start` pends the first switch. -/
def after_start (k : Kernel) : Kernel := (syscall_multitask_start k 1 0).2

/-! ## Scenarios -/

/-- Scenario S2 of the specification: three tasks admitted with total utilization
0.72 and one free slot. -/
def scenario_S2 : Kernel :=
  after_define (after_define (after_define (after_request 4 0) 1 6 25) 2 6 25) 3 6 25

/-- One task `(id 1, c 13, t 41)` admitted, one user slot free. -/
def near_bound_state : Kernel := after_define (after_request 2 0) 1 13 41

/-- Two tasks `(c 1, t 4)` admitted, one user slot free. -/
def half_load_state : Kernel :=
  after_define (after_define (after_request 3 0) 1 1 4) 2 1 4

/-- Tasks `(c 7796, t 10000)` and `(c 1, t 10000)` admitted, one user slot free. -/
def decimal_load_state : Kernel :=
  after_define (after_define (after_request 3 0) 1 7796 10000) 2 1 10000

/-- A task is defined and the bootstrap task then calls `thread_end`. -/
def bootstrap_end_state : Kernel :=
  syscall_thread_end (after_define (after_request 1 0) 1 1 2)

/-- Tasks A `(id 7, c 1, t 2)` and B `(id 2, c 1, t 5)` started; A ran during the
first timeslot and the first tick has just been charged to it. -/
def release_state : Kernel :=
  charge_tick
    { systick_tick (context_switch
        (after_start (after_define (after_define (after_request 2 0) 7 1 2) 2 1 5)))
      with pendsv := false }

/-- One user slot; the task defined has id `0xFFFFFFFF` and period `0xFFFFFFFF`. -/
def sentinel_state : Kernel := after_define (after_request 1 0) 0xFFFFFFFF 1 0xFFFFFFFF

/-- Tasks H `(id 1, c 1, t 2)` in slot 1 and L `(id 2, c 1, t 4)` in slot 0 and two
mutexes whose highest locker is H, before `multitask_start`. -/
def two_task_setup : Kernel :=
  (syscall_lock_init (syscall_lock_init
    (after_define (after_define (after_request 2 2) 1 1 2) 2 1 4) 1).2 1).2

/-- From `two_task_setup`: H ran the first timeslot, L the second and took mutex 0;
after the next tick H runs again. -/
def ceiling_block_state : Kernel :=
  tick (syscall_lock (tick (context_switch (after_start two_task_setup))) 0).2

/-- Tasks H `(id 1, c 1, t 4)`, M `(id 2, c 1, t 5)` and L `(id 3, c 3, t 20)` in
slots 2, 1, 0 (static priorities 0, 1, 2) and two mutexes whose highest locker is H.
L takes mutex 0 in timeslot 2; in timeslot 4 H runs again, M is Ready and L, Ready,
has one tick of work left. -/
def inversion_ready : Kernel :=
  ticks (syscall_lock (run_ticks (after_start (syscall_lock_init (syscall_lock_init
    (after_define (after_define (after_define (after_request 3 2) 1 1 4) 2 1 5) 3 3 20)
    1).2 1).2) 2) 0).2 2

/-- From `inversion_ready`: H has called `lock` on the free mutex 1. -/
def inversion_state : Kernel := (syscall_lock inversion_ready 1).2

/-- Tasks with ids 1, 2, 3 `(c 1; t 3, 4, 6)` in slots 2, 1, 0, all started, and one
mutex whose highest locker is task 1. -/
def foreign_start : Kernel :=
  after_start (syscall_lock_init
    (after_define (after_define (after_define (after_request 3 1) 1 1 3) 2 1 4) 3 1 6) 1).2

/-- From `foreign_start`: slot 0 takes the mutex and slot 2 blocks on it, so that
slot 0 inherits priority 0; slot 1 is then running. -/
def inherit_state : Kernel :=
  context_switch (syscall_lock (tick
    (syscall_lock (tick (tick (context_switch foreign_start))) 0).2) 0).2

/-- From `inherit_state`: slot 1 calls `unlock` on the mutex held by slot 0. -/
def foreign_unlock_state : Kernel := syscall_unlock inherit_state 0

/-- One task `(id 1, c 1, t 2)` and three mutexes whose highest locker it is (equal
ceilings 0); the task runs in the first timeslot and has taken mutex 1. -/
def one_lock_state : Kernel :=
  (syscall_lock (context_switch (after_start
    (syscall_lock_init (syscall_lock_init (syscall_lock_init
      (after_define (after_request 1 3) 1 1 2) 1).2 1).2 1).2)) 1).2

/-- From `one_lock_state`: the task has also taken mutex 0, of the same ceiling, so
that `highest_priority_lock` still points to mutex 1. -/
def equal_ceiling_state : Kernel := (syscall_lock one_lock_state 0).2

/-- Tasks H `(id 1, c 2, t 4)` in slot 1 and L `(id 2, c 1, t 8)` in slot 0 (static
priorities 0 and 1) and one mutex whose highest locker is L (ceiling 1); H runs in
the first timeslot and is about to call `lock` on the free mutex. -/
def ceiling_violation_state : Kernel :=
  context_switch (after_start (syscall_lock_init
    (after_define (after_define (after_request 2 1) 1 2 4) 2 1 8) 2).2)

/-- From `ceiling_violation_state`: H has called `lock`, which stopped in
`syscall_thread_end` with the switch pended. -/
def violation_ended_state : Kernel := (syscall_lock ceiling_violation_state 0).2

/-- From `violation_ended_state`: a SysTick interrupt arrives before the pended switch
runs, and the PendSV handler runs. -/
def violation_revived_state : Kernel := context_switch (systick_tick violation_ended_state)

/-- A single task `(id 1, c, t)`, started. -/
def single_task_start (c t : Nat) : Kernel :=
  after_start (after_define (after_request 1 0) 1 c t)

/-- Scenario S1 of the specification: tasks A `(id 7, c 1, t 3)` and B
`(id 2, c 1, t 5)`, defined in that order after a two-task request, started. -/
def scenario_S1 : Kernel :=
  after_start (after_define (after_define (after_request 2 0) 7 1 3) 2 1 5)

/-- Tasks H `(id 1, c 1, t 3)` in slot 2, M `(id 2, c 1, t 5)` in slot 1 and L
`(id 3, c 1, t 8)` in slot 0 (static priorities 0, 1, 2) and the mutex K whose
highest locker is H, started. -/
def scenario_S4_start : Kernel :=
  after_start (syscall_lock_init
    (after_define (after_define (after_define (after_request 3 1) 1 1 3) 2 1 5) 3 1 8) 1).2

/-- Scenario S4 of the specification at the point where H calls `lock(K)`: L took K
in timeslot 2 and has kept it since; in timeslot 24 H runs while M and L, both
released again, are Ready. -/
def scenario_S4 : Kernel :=
  ticks (syscall_lock (run_ticks scenario_S4_start 2) 0).2 22

/-- Scenario S5 of the specification: stacks of 1024 bytes below `0x20010400`; the
task `(id 2, c 1, t 2)` in slot 0 has the process-stack band
`[0x20010000, 0x20010400)` and runs, the task `(id 1, c 1, t 4)` in slot 1 is
Ready. -/
def scenario_S5 : Kernel :=
  match syscall_multitask_request boot 0x20010400 0x20020000 1 tcb_zero 2 1024 0
      mpu_mode.THREAD_PROTECT 0 with
  | some r => context_switch (after_start (after_define (after_define r.2 1 1 4) 2 1 2))
  | none => boot

/-- Tasks H `(id 1, c 1, t 2)` in slot 1 and L `(id 2, c 1, t 4)` in slot 0 (static
priorities 0 and 1), started; H runs in the first timeslot. -/
def rank_gap_start : Kernel :=
  context_switch (after_start (after_define (after_define (after_request 2 0) 1 1 2) 2 1 4))

/-- Tasks H `(id 1, c 1, t 3)` in slot 1 and L `(id 9, c 6, t 20)` in slot 0 and a
mutex whose highest locker is H.  L takes the mutex in timeslot 1, H blocks on it in
timeslot 3 (L inherits priority 0) and is released again by the tick before
timeslot 5; the state is the one `schedule_rms` is entered with at the tick before
timeslot 6. -/
def tie_state : Kernel :=
  charge_tick
    { systick_tick (tick (tick (context_switch (syscall_lock (tick (tick
        (syscall_lock (run_ticks (after_start (syscall_lock_init
          (after_define (after_define (after_request 2 1) 1 1 3) 9 6 20) 1).2) 1) 0).2))
        0).2)))
      with pendsv := false }

/-- A request for three threads with stacks of `2^30` bytes, on the kernel as
booted: the return code, if the call has one. -/
def huge_stack_request : Option Int :=
  (syscall_multitask_request boot 0x20010000 0x20020000 1 tcb_zero 3 (2 ^ 30) 0
    mpu_mode.THREAD_PROTECT 0).map Prod.fst

/-- One task (id 1) and two mutexes: the highest locker of mutex 0 is task 1, that of
mutex 1 is a task 5 that is never defined; `multitask_start` is about to be
called. -/
def partial_validate_setup : Kernel :=
  (syscall_lock_init (syscall_lock_init (after_define (after_request 1 2) 1 1 2) 1).2 5).2

/-- A task `(id 1, c 2, t 3)` that runs in the first timeslot and calls
`thread_yield`. -/
def yield_state : Kernel := syscall_thread_yield (run_ticks (single_task_start 2 3) 0)

/-- Tasks H `(id 1, c 2, t 4)` in slot 1 and L `(id 2, c 1, t 8)` in slot 0 and a
mutex whose highest locker is H.  L takes the mutex in timeslot 2; H, released again,
runs in timeslot 4 and calls `lock` on it: it is Blocked and the switch is pended. -/
def block_state : Kernel :=
  (syscall_lock (ticks (syscall_lock (run_ticks (after_start (syscall_lock_init
    (after_define (after_define (after_request 2 1) 1 2 4) 2 1 8) 1).2) 2) 0).2 2) 0).2

/-- A request for one thread with `stack_bytes = 0`, on the kernel as booted, and the
definition of a task in the only user slot. -/
def zero_stack_state : Kernel :=
  match syscall_multitask_request boot 0x20010000 0x20020000 1 tcb_zero 1 0 0
      mpu_mode.THREAD_PROTECT 0 with
  | some r => after_define r.2 1 1 2
  | none => boot

/-- Tasks H `(id 1, c 1, t 3)` in slot 1 and L `(id 2, c 1, t 100)` in slot 0 and a
mutex whose highest locker is H.  L takes the mutex in timeslot 1 and keeps it; H
blocks on it in timeslot 3. -/
def waiting_state : Kernel :=
  (syscall_lock (ticks (syscall_lock (run_ticks (after_start (syscall_lock_init
    (after_define (after_define (after_request 2 1) 1 1 3) 2 1 100) 1).2) 1) 0).2 2) 0).2

/-- From a state in which H is inside the loop of `syscall_lock`: the pended switch,
three ticks (the third one lets H run again, released by the one before), and H
evaluating the loop condition again. -/
def retry_round (k : Kernel) : Kernel :=
  (syscall_lock_attempt (ticks (context_switch k) 3) 0).2

/-- The state after `n` such rounds. -/
def retry_rounds (k : Kernel) : Nat → Kernel
  | 0 => k
  | n + 1 => retry_round (retry_rounds k n)

/-- The down ring (16 bytes), empty, with both indices at 14. -/
def down_ring_at_14 : rtt_buffer :=
  { p := fun _ => 0, buffer_size := RTT_DOWN_BUFFER_SIZE, w_idx := 14, r_idx := 14 }

/-- The single task `(id 1, c 2, t 3)` has called `thread_end` in timeslot 0; the
switch it pended has not run yet. -/
def ended_state : Kernel := syscall_thread_end (run_ticks (single_task_start 2 3) 0)

/-- A SysTick interrupt arrives before that switch, the handler runs, and a second
SysTick interrupt arrives. -/
def revived_state : Kernel := systick_tick (context_switch (systick_tick ended_state))

/-! ## State predicates -/

/-- The global ceiling is the least `priority_ceiling` of the defined mutexes whose
semaphore is held, `highest_priority_lock` points to a held mutex with that
ceiling; with no mutex held the ceiling is `0xFFFFFFFF` and the pointer is null. -/
def ceiling_inv (k : Kernel) : Prop :=
  (∀ m, m < k.num_defined_locks → mutex_is_locked (k.user_locks m) = true →
    k.global_priority_ceiling ≤ (k.user_locks m).priority_ceiling) ∧
  ((∃ m, m < k.num_defined_locks ∧ mutex_is_locked (k.user_locks m) = true) →
    ∃ h, k.highest_priority_lock = some h ∧ h < k.num_defined_locks ∧
      mutex_is_locked (k.user_locks h) = true ∧
      (k.user_locks h).priority_ceiling = k.global_priority_ceiling) ∧
  ((¬ ∃ m, m < k.num_defined_locks ∧ mutex_is_locked (k.user_locks m) = true) →
    k.global_priority_ceiling = 0xFFFFFFFF ∧ k.highest_priority_lock = none)

/-- Every defined mutex has a priority ceiling below `0xFFFFFFFF`, as
`validate_ceiling_id` leaves it when the static priorities are ranks. -/
def ceilings_resolved (k : Kernel) : Prop :=
  ∀ m, m < k.num_defined_locks → (k.user_locks m).priority_ceiling < 0xFFFFFFFF

/-- The TCB in slot `i` is the `current_locker` of no defined mutex. -/
def holds_none (k : Kernel) (i : Nat) : Prop :=
  ∀ m, m < k.num_defined_locks → (k.user_locks m).current_locker ≠ some i

/-- Every user TCB has `dynamic_priority ≤ static_priority`, with equality when it
holds no mutex. -/
def priority_inv (k : Kernel) : Prop :=
  ∀ i, i < k.num_user_threads →
    (k.user_threads i).dynamic_priority ≤ (k.user_threads i).static_priority ∧
    (holds_none k i →
      (k.user_threads i).dynamic_priority = (k.user_threads i).static_priority)

/-- A defined mutex whose semaphore is free has a null `current_locker`. -/
def free_unowned (k : Kernel) : Prop :=
  ∀ m, m < k.num_defined_locks → mutex_is_locked (k.user_locks m) = false →
    (k.user_locks m).current_locker = none

/-- The bookkeeping of the task count: `num_active_threads` is the number of live
user TCBs, there are at most `MAX_NUM_THREADS` user slots, and no mutex has an
owner. -/
def active_count_inv (k : Kernel) : Prop :=
  active_count k = k.num_active_threads ∧
  k.num_user_threads ≤ MAX_NUM_THREADS ∧
  ∀ j, (k.user_locks j).current_locker = none

/-! ## Reachability -/

/-- The kernel entry points a running system goes through: the lock, unlock, end and
yield supervisor calls of the active task on defined mutexes, the resumption of a
task inside `syscall_lock` (`lock_retry`: the loop condition is evaluated again,
after a pend in the loop body or, for a caller that was ended and is run again, after
the pend in `syscall_thread_end`), the SysTick interrupt and the PendSV handler. -/
inductive kernel_step : Kernel → Kernel → Prop
  | lock (k : Kernel) (m : Nat) (hm : m < k.num_defined_locks) :
      kernel_step k (syscall_lock k m).2
  | lock_retry (k : Kernel) (m : Nat) (hm : m < k.num_defined_locks) :
      kernel_step k (syscall_lock_attempt k m).2
  | unlock (k : Kernel) (m : Nat) (hm : m < k.num_defined_locks) :
      kernel_step k (syscall_unlock k m)
  | thread_end (k : Kernel) : kernel_step k (syscall_thread_end k)
  | thread_yield (k : Kernel) : kernel_step k (syscall_thread_yield k)
  | systick (k : Kernel) : kernel_step k (systick_tick k)
  | pendsv (k : Kernel) (msp frame_psp svc : Nat) :
      kernel_step k (PendSV_C_Handler k msp frame_psp svc).2

/-- The steps of `kernel_step` in which `unlock` is only called on a mutex by the
task recorded as its `current_locker`. -/
inductive owner_step : Kernel → Kernel → Prop
  | lock (k : Kernel) (m : Nat) (hm : m < k.num_defined_locks) :
      owner_step k (syscall_lock k m).2
  | lock_retry (k : Kernel) (m : Nat) (hm : m < k.num_defined_locks) :
      owner_step k (syscall_lock_attempt k m).2
  | unlock (k : Kernel) (m : Nat) (hm : m < k.num_defined_locks)
      (hown : (k.user_locks m).current_locker = some k.active_thread_index) :
      owner_step k (syscall_unlock k m)
  | thread_end (k : Kernel) : owner_step k (syscall_thread_end k)
  | thread_yield (k : Kernel) : owner_step k (syscall_thread_yield k)
  | systick (k : Kernel) : owner_step k (systick_tick k)
  | pendsv (k : Kernel) (msp frame_psp svc : Nat) :
      owner_step k (PendSV_C_Handler k msp frame_psp svc).2

/-- The calls that admit and retire tasks: `thread_define` with any arguments,
`thread_end` issued by the idle task or by a user task that is not Defunct, and the
PendSV handler run for a switch that was not pended by the tick. -/
inductive admission_step : Kernel → Kernel → Prop
  | define (k : Kernel) (id fn arg c t : Nat) (r : Int) (k' : Kernel)
      (h : syscall_thread_define k id fn arg c t = some (r, k')) : admission_step k k'
  | thread_end (k : Kernel) (ha : k.active_thread_index ≤ k.num_user_threads)
      (hs : (k.user_threads k.active_thread_index).state ≠ ThreadDefunct) :
      admission_step k (syscall_thread_end k)
  | pendsv (k : Kernel) (msp frame_psp svc : Nat) (hf : k.preemption_flag = 0) :
      admission_step k (PendSV_C_Handler k msp frame_psp svc).2

/-! ## Theorems -/

/-! ### Single-precision rounding -/

/-- The digits of a positive `n` below `2^fuel`: `2^(b-1) ≤ n < 2^b`. -/
theorem bit_length_spec (fuel n : Nat) (hn : 0 < n) (hf : n < 2 ^ fuel) :
    0 < bit_length fuel n ∧ 2 ^ (bit_length fuel n - 1) ≤ n ∧ n < 2 ^ bit_length fuel n := by
  induction fuel generalizing n with
  | zero => simp at hf; omega
  | succ f ih =>
    unfold bit_length
    rw [if_neg (by omega)]
    by_cases h1 : n / 2 = 0
    · have hn1 : n = 1 := by omega
      subst hn1
      cases f with
      | zero => simp [bit_length]
      | succ f' => simp [bit_length]
    · have hpos : 0 < n / 2 := Nat.pos_of_ne_zero h1
      have hlt : n / 2 < 2 ^ f := by
        rw [pow_succ] at hf
        omega
      obtain ⟨i1, i2, i3⟩ := ih (n / 2) hpos hlt
      refine ⟨by omega, ?_, ?_⟩
      · have : bit_length f (n / 2) + 1 - 1 = (bit_length f (n / 2) - 1) + 1 := by omega
        rw [this, pow_succ]
        omega
      · rw [pow_succ]
        omega

theorem bit_length_self (n : Nat) (hn : 0 < n) :
    0 < bit_length n n ∧ 2 ^ (bit_length n n - 1) ≤ n ∧ n < 2 ^ bit_length n n :=
  bit_length_spec n n hn (Nat.lt_two_pow n)

/-- A power of two with an integer exponent, as a quotient of two natural powers. -/
theorem two_zpow_split (e : Int) :
    (2 : ℚ) ^ e = ((2 ^ e.toNat : Nat) : ℚ) / ((2 ^ (-e).toNat : Nat) : ℚ) := by
  rcases le_or_lt 0 e with h | h
  · have h1 : (-e).toNat = 0 := Int.toNat_eq_zero.mpr (by omega)
    have h2 : ((e.toNat : Nat) : Int) = e := Int.toNat_of_nonneg h
    rw [h1]
    simp only [pow_zero, Nat.cast_one, div_one, Nat.cast_pow, Nat.cast_ofNat]
    rw [← zpow_natCast, h2]
  · have h1 : e.toNat = 0 := Int.toNat_eq_zero.mpr (by omega)
    have h2 : (((-e).toNat : Nat) : Int) = -e := Int.toNat_of_nonneg (by omega)
    rw [h1]
    simp only [pow_zero, Nat.cast_one, one_div, Nat.cast_pow, Nat.cast_ofNat]
    rw [← zpow_natCast, h2, zpow_neg, inv_inv]

/-- The exponent computed by `floor_log2` is not above the binary logarithm. -/
theorem floor_log2_le (num den : Nat) (hn : 0 < num) (hd : 0 < den) :
    (2 : ℚ) ^ floor_log2 num den ≤ (num : ℚ) / (den : ℚ) := by
  have hdq : (0 : ℚ) < (den : ℚ) := by exact_mod_cast hd
  obtain ⟨n1, n2, _⟩ := bit_length_self num hn
  obtain ⟨d1, _, d3⟩ := bit_length_self den hd
  have hlow : (2 : ℚ) ^ (((bit_length num num : Int) - (bit_length den den : Int)) - 1)
      ≤ (num : ℚ) / (den : ℚ) := by
    have he : ((bit_length num num : Int) - (bit_length den den : Int)) - 1
        = ((bit_length num num - 1 : Nat) : Int) - ((bit_length den den : Nat) : Int) := by
      omega
    rw [he, zpow_sub₀ (by norm_num : (2 : ℚ) ≠ 0), zpow_natCast, zpow_natCast]
    have hp : (0 : ℚ) < (2 : ℚ) ^ bit_length den den := by positivity
    rw [div_le_div_iff₀ hp hdq]
    have a1 : ((2 : ℚ) ^ (bit_length num num - 1)) ≤ (num : ℚ) := by exact_mod_cast n2
    have a2 : (den : ℚ) ≤ (2 : ℚ) ^ bit_length den den := by exact_mod_cast (le_of_lt d3)
    have a4 : (0 : ℚ) ≤ (num : ℚ) := by positivity
    calc (2 : ℚ) ^ (bit_length num num - 1) * (den : ℚ)
        ≤ (num : ℚ) * (den : ℚ) := mul_le_mul_of_nonneg_right a1 (le_of_lt hdq)
      _ ≤ (num : ℚ) * (2 : ℚ) ^ bit_length den den := mul_le_mul_of_nonneg_left a2 a4
  unfold floor_log2
  simp only
  split_ifs with hc h0 h0
  · rw [two_zpow_split]
    have h1 : (-((bit_length num num : Int) - (bit_length den den : Int))).toNat = 0 :=
      Int.toNat_eq_zero.mpr (by omega)
    rw [h1]
    simp only [pow_zero, Nat.cast_one, div_one]
    rw [le_div_iff₀ hdq]
    exact_mod_cast h0
  · exact hlow
  · rw [two_zpow_split]
    have h1 : ((bit_length num num : Int) - (bit_length den den : Int)).toNat = 0 :=
      Int.toNat_eq_zero.mpr (by omega)
    rw [h1]
    simp only [pow_zero, Nat.cast_one]
    have hp : (0 : ℚ) < ((2 ^ (-((bit_length num num : Int)
        - (bit_length den den : Int))).toNat : Nat) : ℚ) := by positivity
    rw [div_le_div_iff₀ hp hdq]
    simp only [one_mul]
    exact_mod_cast h0
  · exact hlow

/-- The integer chosen by `round_half_even` is within one half of `N/D`. -/
theorem round_half_even_error (N D : Nat) (hD : 0 < D) :
    |((round_half_even N D : Nat) : ℚ) - (N : ℚ) / (D : ℚ)| ≤ 1 / 2 := by
  have hDq : (0 : ℚ) < (D : ℚ) := by exact_mod_cast hD
  have hdm : (N : ℚ) = (D : ℚ) * ((N / D : Nat) : ℚ) + ((N % D : Nat) : ℚ) := by
    exact_mod_cast (Nat.div_add_mod N D).symm
  have hr : ((N % D : Nat) : ℚ) < (D : ℚ) := by exact_mod_cast Nat.mod_lt N hD
  have hr0 : (0 : ℚ) ≤ ((N % D : Nat) : ℚ) := by positivity
  have hq : (N : ℚ) / (D : ℚ) = ((N / D : Nat) : ℚ) + ((N % D : Nat) : ℚ) / (D : ℚ) := by
    rw [hdm]
    field_simp
    ring
  have hfrac_nonneg : (0 : ℚ) ≤ ((N % D : Nat) : ℚ) / (D : ℚ) := by positivity
  have hup : ∀ (c : Prop), (D : ℚ) ≤ 2 * ((N % D : Nat) : ℚ) →
      |(((N / D + 1 : Nat)) : ℚ) - (N : ℚ) / (D : ℚ)| ≤ 1 / 2 := by
    intro _ h
    rw [hq, abs_le]
    have h1 : ((N % D : Nat) : ℚ) / (D : ℚ) < 1 := by rw [div_lt_one hDq]; exact hr
    have h2 : (1 : ℚ) / 2 ≤ ((N % D : Nat) : ℚ) / (D : ℚ) := by
      rw [div_le_div_iff₀ (by norm_num) hDq]
      linarith
    push_cast
    constructor <;> linarith
  have hdown : 2 * ((N % D : Nat) : ℚ) ≤ (D : ℚ) →
      |(((N / D : Nat)) : ℚ) - (N : ℚ) / (D : ℚ)| ≤ 1 / 2 := by
    intro h
    rw [hq, abs_le]
    have h2 : ((N % D : Nat) : ℚ) / (D : ℚ) ≤ 1 / 2 := by
      rw [div_le_div_iff₀ hDq (by norm_num)]
      linarith
    constructor <;> linarith
  unfold round_half_even
  split_ifs with h1 h2 h3
  · apply hdown
    have : ((2 * (N % D) : Nat) : ℚ) < (D : ℚ) := by exact_mod_cast h1
    push_cast at this
    linarith
  · apply hup True
    have : ((D : Nat) : ℚ) < ((2 * (N % D) : Nat) : ℚ) := by exact_mod_cast h2
    push_cast at this
    linarith
  · apply hdown
    have : ((2 * (N % D) : Nat) : ℚ) ≤ (D : ℚ) := by exact_mod_cast (Nat.le_of_not_lt h2)
    push_cast at this
    linarith
  · apply hup True
    have : ((D : Nat) : ℚ) ≤ ((2 * (N % D) : Nat) : ℚ) := by exact_mod_cast (Nat.le_of_not_lt h1)
    push_cast at this
    linarith

/-- The error of `round_binary` on a positive `q` below `2^(E+1)`, for an exponent `E`
of the format: at most half a unit in the last place, `2^(E-p)`. -/
theorem round_binary_error (p : Nat) (emin E : Int) (q : ℚ) (hq : 0 < q)
    (hE : q < (2 : ℚ) ^ (E + 1)) (hmin : emin ≤ E) :
    |round_binary p emin q - q| ≤ (2 : ℚ) ^ (E - (p : Int)) := by
  have hnum : 0 < q.num := Rat.num_pos.mpr hq
  have hnat : 0 < q.num.natAbs := Int.natAbs_pos.mpr (ne_of_gt hnum)
  have hden : 0 < q.den := q.den_pos
  have hqeq : ((q.num.natAbs : Nat) : ℚ) / ((q.den : Nat) : ℚ) = q := by
    have h1 : ((q.num.natAbs : Nat) : ℚ) = ((q.num : Int) : ℚ) := by
      rw [Nat.cast_natAbs, abs_of_pos hnum]
    rw [h1]
    exact Rat.num_div_den q
  have he := floor_log2_le q.num.natAbs q.den hnat hden
  rw [hqeq] at he
  have helt : floor_log2 q.num.natAbs q.den < E + 1 := by
    by_contra hcon
    have hge : E + 1 ≤ floor_log2 q.num.natAbs q.den := by omega
    have : (2 : ℚ) ^ (E + 1) ≤ (2 : ℚ) ^ floor_log2 q.num.natAbs q.den :=
      zpow_le_zpow_right₀ (by norm_num) hge
    linarith
  unfold round_binary
  rw [if_neg (ne_of_gt hq)]
  simp only
  rw [if_neg (not_lt.mpr (le_of_lt hq))]
  generalize hg : max (floor_log2 q.num.natAbs q.den) emin - ((p : Int) - 1) = g
  have hgle : g ≤ E - ((p : Int) - 1) := by
    rw [← hg]
    have : max (floor_log2 q.num.natAbs q.den) emin ≤ E := max_le (by omega) hmin
    omega
  have h2g : (0 : ℚ) < (2 : ℚ) ^ g := by positivity
  have hsplit := two_zpow_split g
  have hpn : (0 : ℚ) < ((2 ^ g.toNat : Nat) : ℚ) := by positivity
  have hpd : (0 : ℚ) < ((2 ^ (-g).toNat : Nat) : ℚ) := by positivity
  have hD : 0 < q.den * 2 ^ g.toNat := Nat.mul_pos hden (by positivity)
  have hr := round_half_even_error (q.num.natAbs * 2 ^ (-g).toNat) (q.den * 2 ^ g.toNat) hD
  generalize round_half_even (q.num.natAbs * 2 ^ (-g).toNat) (q.den * 2 ^ g.toNat) = n at hr
  have hND : ((q.num.natAbs * 2 ^ (-g).toNat : Nat) : ℚ) / ((q.den * 2 ^ g.toNat : Nat) : ℚ)
      = q / (2 : ℚ) ^ g := by
    rw [hsplit]
    rw [Nat.cast_mul, Nat.cast_mul]
    have hdq : ((q.den : Nat) : ℚ) ≠ 0 := by exact_mod_cast (ne_of_gt hden)
    generalize ((q.num.natAbs : Nat) : ℚ) = A at hqeq ⊢
    generalize ((q.den : Nat) : ℚ) = B at hqeq hdq ⊢
    rw [← hqeq]
    field_simp
  rw [hND] at hr
  have hv : ((n * 2 ^ g.toNat : Nat) : ℚ) / ((2 ^ (-g).toNat : Nat) : ℚ) = (n : ℚ) * (2 : ℚ) ^ g := by
    rw [hsplit, Nat.cast_mul]
    field_simp
  rw [hv]
  have hfac : (n : ℚ) * (2 : ℚ) ^ g - q = ((n : ℚ) - q / (2 : ℚ) ^ g) * (2 : ℚ) ^ g := by
    field_simp
  rw [hfac, abs_mul, abs_of_pos h2g]
  have hpow : (2 : ℚ) ^ g ≤ (2 : ℚ) ^ (E - ((p : Int) - 1)) :=
    zpow_le_zpow_right₀ (by norm_num) hgle
  have hhalf : (2 : ℚ) ^ (E - ((p : Int) - 1)) = 2 * (2 : ℚ) ^ (E - (p : Int)) := by
    have : E - ((p : Int) - 1) = (E - (p : Int)) + 1 := by omega
    rw [this, zpow_add₀ (by norm_num : (2 : ℚ) ≠ 0), zpow_one]
    ring
  have hpos : (0 : ℚ) ≤ |(n : ℚ) - q / (2 : ℚ) ^ g| := abs_nonneg _
  calc |(n : ℚ) - q / (2 : ℚ) ^ g| * (2 : ℚ) ^ g
      ≤ (1 / 2) * (2 : ℚ) ^ g := mul_le_mul_of_nonneg_right hr (le_of_lt h2g)
    _ ≤ (1 / 2) * (2 : ℚ) ^ (E - ((p : Int) - 1)) :=
        mul_le_mul_of_nonneg_left hpow (by norm_num)
    _ = (2 : ℚ) ^ (E - (p : Int)) := by rw [hhalf]; ring

/-- Rounding keeps the sign of a number that is not negative. -/
theorem round_binary_nonneg (p : Nat) (emin : Int) (q : ℚ) (hq : 0 ≤ q) :
    0 ≤ round_binary p emin q := by
  unfold round_binary
  split_ifs with h0 hneg
  · exact le_refl 0
  · exact absurd hneg (not_lt.mpr hq)
  · positivity

/-- A natural number below `2^24` is a binary32 value: its conversion is exact. -/
theorem round_binary_nat (n : Nat) (hn : n < 2 ^ 24) :
    round_binary 24 (-126) (n : ℚ) = (n : ℚ) := by
  rcases Nat.eq_zero_or_pos n with h0 | hpos
  · subst h0
    simp [round_binary]
  · have hq : (0 : ℚ) < (n : ℚ) := by exact_mod_cast hpos
    have he := floor_log2_le n 1 hpos Nat.one_pos
    simp only [Nat.cast_one, div_one] at he
    have helt : floor_log2 n 1 < 24 := by
      by_contra hcon
      have hge : (24 : Int) ≤ floor_log2 n 1 := by omega
      have h1 : (2 : ℚ) ^ (24 : Int) ≤ (2 : ℚ) ^ floor_log2 n 1 :=
        zpow_le_zpow_right₀ (by norm_num) hge
      have h2 : (n : ℚ) < (2 : ℚ) ^ (24 : Int) := by
        have : (n : ℚ) < ((2 ^ 24 : Nat) : ℚ) := by exact_mod_cast hn
        norm_num at this ⊢
        exact this
      linarith
    unfold round_binary
    rw [if_neg (ne_of_gt hq)]
    simp only [Rat.num_natCast, Int.natAbs_ofNat, Rat.den_natCast]
    rw [if_neg (not_lt.mpr (le_of_lt hq))]
    generalize hg : max (floor_log2 n 1) (-126) - (((24 : Nat) : Int) - 1) = g
    have hgle : g ≤ 0 := by
      rw [← hg]
      have : max (floor_log2 n 1) (-126) ≤ 23 := max_le (by omega) (by norm_num)
      push_cast
      omega
    have h1 : g.toNat = 0 := Int.toNat_eq_zero.mpr hgle
    rw [h1]
    have hrh : round_half_even (n * 2 ^ (-g).toNat) (1 * 2 ^ 0) = n * 2 ^ (-g).toNat := by
      unfold round_half_even
      simp [Nat.mod_one]
    rw [hrh]
    have hp : ((2 ^ (-g).toNat : Nat) : ℚ) ≠ 0 := by positivity
    push_cast
    field_simp

/-- The conversion to `float` of a `uint32_t` below `2^24` is exact. -/
theorem float_of_uint32_exact (n : Nat) (hn : n < 2 ^ 24) :
    float_of_uint32 n = float.finite (n : ℚ) := by
  unfold float_of_uint32 float_round
  simp only
  rw [round_binary_nat n hn]
  have h1 : (n : ℚ) < 2 ^ 24 := by exact_mod_cast hn
  have h0 : (0 : ℚ) ≤ (n : ℚ) := by positivity
  rw [if_neg (by linarith [show (2 : ℚ) ^ 24 < 2 ^ 128 by norm_num]),
    if_neg (by linarith [show (0 : ℚ) < 2 ^ 128 by norm_num])]

/-- The binary32 result of an operation whose exact result `q` lies in `[0, 2^(E+1))`,
`-126 ≤ E ≤ 127`: finite and within `2^(E-24)` of `q`. -/
theorem float_round_error (E : Int) (q : ℚ) (hq : 0 ≤ q) (hE : q < (2 : ℚ) ^ (E + 1))
    (hmin : -126 ≤ E) (hmax : E ≤ 126) :
    ∃ v, float_round q = float.finite v ∧ |v - q| ≤ (2 : ℚ) ^ (E - 24) ∧ 0 ≤ v := by
  have hb : |round_binary 24 (-126) q - q| ≤ (2 : ℚ) ^ (E - 24) := by
    rcases eq_or_lt_of_le hq with h0 | hpos
    · rw [← h0]
      simp only [round_binary, if_true, sub_zero, abs_zero]
      positivity
    · exact round_binary_error 24 (-126) E q hpos hE hmin
  refine ⟨round_binary 24 (-126) q, ?_, hb, round_binary_nonneg 24 (-126) q hq⟩
  have h1 : (2 : ℚ) ^ (E - 24) ≤ (2 : ℚ) ^ (102 : Int) :=
    zpow_le_zpow_right₀ (by norm_num) (by omega)
  have h2 : (2 : ℚ) ^ (E + 1) ≤ (2 : ℚ) ^ (127 : Int) :=
    zpow_le_zpow_right₀ (by norm_num) (by omega)
  have h3 : (2 : ℚ) ^ (102 : Int) + (2 : ℚ) ^ (127 : Int) < 2 ^ 128 := by norm_num
  have h4 := abs_le.mp hb
  unfold float_round
  simp only
  rw [if_neg (by linarith [h4.2]), if_neg (by linarith [h4.1])]

/-- The value the admission test of `syscall_thread_define` compares with the table:
for `0 < c ≤ t < 2^24` and a finite total `U` in `[0, 1]` it is finite and within
`3/2^24` of `U + c/t`. -/
theorem admission_sum_error (c t : Nat) (U : ℚ) (hc : 0 < c) (hct : c ≤ t)
    (ht : t < 2 ^ 24) (hU0 : 0 ≤ U) (hU1 : U ≤ 1) :
    ∃ s, float_add (float_div (float_of_uint32 c) (float_of_uint32 t)) (float.finite U)
        = float.finite s ∧
      |s - (U + (c : ℚ) / (t : ℚ))| ≤ 3 / 2 ^ 24 := by
  have hcq : (0 : ℚ) < (c : ℚ) := by exact_mod_cast hc
  have htq : (0 : ℚ) < (t : ℚ) := by exact_mod_cast (lt_of_lt_of_le hc hct)
  have hle : (c : ℚ) ≤ (t : ℚ) := by exact_mod_cast hct
  have hx0 : (0 : ℚ) < (c : ℚ) / (t : ℚ) := div_pos hcq htq
  have hx1 : (c : ℚ) / (t : ℚ) ≤ 1 := (div_le_one htq).mpr hle
  rw [float_of_uint32_exact c (by omega), float_of_uint32_exact t ht]
  obtain ⟨x, ex, hx, hxn⟩ := float_round_error 0 ((c : ℚ) / (t : ℚ)) (le_of_lt hx0)
    (by norm_num; linarith) (by norm_num) (by norm_num)
  have hdiv : float_div (float.finite (c : ℚ)) (float.finite (t : ℚ)) = float.finite x := by
    simp only [float_div, if_neg (ne_of_gt htq)]
    exact ex
  rw [hdiv]
  have hx' := abs_le.mp hx
  norm_num at hx'
  obtain ⟨s, es, hs, _⟩ := float_round_error 1 (x + U) (by linarith)
    (by norm_num; linarith [hx'.2]) (by norm_num) (by norm_num)
  have hadd : float_add (float.finite x) (float.finite U) = float.finite s := by
    simp only [float_add]
    exact es
  refine ⟨s, hadd, ?_⟩
  have hs' := abs_le.mp hs
  norm_num at hs'
  rw [abs_le]
  constructor <;> norm_num <;> linarith [hs'.1, hs'.2, hx'.1, hx'.2]

/-- The search loop of `syscall_thread_define` when no live TCB carries `id`: no
duplicate is reported and `tcb_index` is a user slot exactly when one is Defunct. -/
theorem define_search_spec (th : Nat → tcb_t) (id N n : Nat)
    (hid : ∀ i < n, (th i).state ≠ ThreadDefunct → (th i).id ≠ id) :
    ((List.range n).foldl (define_search_step th id) (false, N)).1 = false ∧
    ((∃ i < n, (th i).state = ThreadDefunct) →
      ((List.range n).foldl (define_search_step th id) (false, N)).2 < n) ∧
    ((¬ ∃ i < n, (th i).state = ThreadDefunct) →
      ((List.range n).foldl (define_search_step th id) (false, N)).2 = N) := by
  induction n with
  | zero => simp
  | succ n ih =>
    have ih1 := ih (fun i hi => hid i (Nat.lt_succ_of_lt hi))
    obtain ⟨h1, h2, h3⟩ := ih1
    rw [List.range_succ, List.foldl_append]
    simp only [List.foldl_cons, List.foldl_nil]
    generalize (List.range n).foldl (define_search_step th id) (false, N) = r at h1 h2 h3
    obtain ⟨r1, r2⟩ := r
    simp only at h1 h2 h3
    subst h1
    by_cases hd : (th n).state = ThreadDefunct
    · have : define_search_step th id (false, r2) n = (false, n) := by
        simp [define_search_step, hd]
      rw [this]
      refine ⟨rfl, fun _ => Nat.lt_succ_self n, fun h => ?_⟩
      exact absurd ⟨n, Nat.lt_succ_self n, hd⟩ h
    · have hne : (th n).id ≠ id := hid n (Nat.lt_succ_self n) hd
      have : define_search_step th id (false, r2) n = (false, r2) := by
        simp [define_search_step, hd, hne]
      rw [this]
      refine ⟨rfl, ?_, ?_⟩
      · rintro ⟨i, hi, hdi⟩
        have hi' : i < n := by
          rcases Nat.lt_succ_iff_lt_or_eq.mp hi with h | h
          · exact h
          · subst h; exact absurd hdi hd
        exact Nat.lt_succ_of_lt (h2 ⟨i, hi', hdi⟩)
      · intro h
        apply h3
        rintro ⟨i, hi, hdi⟩
        exact h ⟨i, Nat.lt_succ_of_lt hi, hdi⟩

/-- The values held by the sixteen entries of `util_bound`. -/
theorem util_bound_values :
    util_bound = [0, 1, 6949123 / 8388608, 13082873 / 16777216, 12696997 / 16777216,
      3118465 / 4194304, 6163949 / 8388608, 1527985 / 2097152, 6074191 / 8388608,
      755499 / 1048576, 752563 / 1048576, 6002049 / 8388608, 11972221 / 16777216,
      2985925 / 4194304, 5960945 / 8388608, 11901757 / 16777216] := by
  decide!

/-- The table `util_bound` has an entry for every admissible task count. -/
theorem util_bound_get (n : Nat) (hn : n ≤ MAX_NUM_THREADS) :
    ∃ b, util_bound[n + 1]? = some b := by
  have h : n + 1 < util_bound.length := by
    simp [util_bound, util_bound_literals, MAX_NUM_THREADS] at *; omega
  exact ⟨util_bound[n + 1], List.getElem?_eq_getElem h⟩

/-- The result of `syscall_thread_define` once the argument, duplicate and slot checks
are passed: it is decided by the comparison of the two `float` values. -/
theorem define_decision (k : Kernel) (id fn arg c t : Nat) (bound : ℚ)
    (hreq : k.multitask_request_called ≠ 0) (hfn : fn ≠ 0) (hc : 0 < c) (hct : c ≤ t)
    (hid : ∀ i < k.num_user_threads,
      (k.user_threads i).state ≠ ThreadDefunct → (k.user_threads i).id ≠ id)
    (hslot : ∃ i < k.num_user_threads, (k.user_threads i).state = ThreadDefunct)
    (hb : util_bound[k.num_active_threads + 1]? = some bound) :
    (float_le (float_add (float_div (float_of_uint32 c) (float_of_uint32 t))
        k.total_utilization) (float.finite bound) = true →
      ∃ k', syscall_thread_define k id fn arg c t = some (SUCCESS, k')) ∧
    (float_le (float_add (float_div (float_of_uint32 c) (float_of_uint32 t))
        k.total_utilization) (float.finite bound) ≠ true →
      syscall_thread_define k id fn arg c t = some (THREAD_DEFINE_UNSAFE_ADMISSION, k)) := by
  obtain ⟨s1, s2, _⟩ := define_search_spec k.user_threads id k.num_user_threads
    k.num_user_threads hid
  have hlt := s2 hslot
  have ht : t ≠ 0 := by omega
  have hc0 : c ≠ 0 := by omega
  have hct' : ¬ c > t := by omega
  constructor
  · intro hu
    simp [syscall_thread_define, hfn, hc0, ht, hct', hreq, s1, Nat.ne_of_lt hlt, hb, hu]
  · intro hu
    simp [syscall_thread_define, hfn, hc0, ht, hct', hreq, s1, Nat.ne_of_lt hlt, hb, hu]

/-- C1.  Admission decision of `thread_define`: after a successful
`multitask_request`, for a non-null `fn`, `0 < c ≤ t`, an id carried by no live TCB
and a Defunct user slot, the call returns 0 exactly when the `float` value of
`((float)c / (float)t) + total_utilization`, each conversion and operation rounded to
binary32, is at most the `float` entry `util_bound[num_active_threads + 1]`;
otherwise it returns `THREAD_DEFINE_UNSAFE_ADMISSION` and the kernel state is
unchanged.  For `t < 2^24` and a finite total `U` in `[0, 1]` the decision is that of
the exact comparison whenever `U + c/t` is farther than `2^-22` from the entry: it is
admitted when `U + c/t + 2^-22 ≤ entry` and refused when `entry + 2^-22 < U + c/t`.
With a NaN total every such call is refused. -/
theorem C1_admission_decision (k : Kernel) (id fn arg c t : Nat)
    (hreq : k.multitask_request_called ≠ 0) (hfn : fn ≠ 0) (hc : 0 < c) (hct : c ≤ t)
    (hid : ∀ i < k.num_user_threads,
      (k.user_threads i).state ≠ ThreadDefunct → (k.user_threads i).id ≠ id)
    (hslot : ∃ i < k.num_user_threads, (k.user_threads i).state = ThreadDefunct)
    (hn : k.num_active_threads ≤ MAX_NUM_THREADS) :
    ∃ bound, util_bound[k.num_active_threads + 1]? = some bound ∧
      ((∃ k', syscall_thread_define k id fn arg c t = some (SUCCESS, k')) ↔
        float_le (float_add (float_div (float_of_uint32 c) (float_of_uint32 t))
          k.total_utilization) (float.finite bound) = true) ∧
      (float_le (float_add (float_div (float_of_uint32 c) (float_of_uint32 t))
          k.total_utilization) (float.finite bound) ≠ true →
        syscall_thread_define k id fn arg c t = some (THREAD_DEFINE_UNSAFE_ADMISSION, k)) ∧
      (∀ U : ℚ, k.total_utilization = float.finite U → 0 ≤ U → U ≤ 1 → t < 2 ^ 24 →
        (U + (c : ℚ) / (t : ℚ) + 1 / 2 ^ 22 ≤ bound →
          ∃ k', syscall_thread_define k id fn arg c t = some (SUCCESS, k')) ∧
        (bound + 1 / 2 ^ 22 < U + (c : ℚ) / (t : ℚ) →
          syscall_thread_define k id fn arg c t
            = some (THREAD_DEFINE_UNSAFE_ADMISSION, k))) ∧
      (k.total_utilization = float.nan →
        syscall_thread_define k id fn arg c t = some (THREAD_DEFINE_UNSAFE_ADMISSION, k)) := by
  obtain ⟨b, hb⟩ := util_bound_get k.num_active_threads hn
  obtain ⟨d1, d2⟩ := define_decision k id fn arg c t b hreq hfn hc hct hid hslot hb
  refine ⟨b, hb, ⟨fun ⟨k', hk'⟩ => ?_, d1⟩, d2, ?_, ?_⟩
  · by_contra hu
    rw [d2 hu] at hk'
    simp [THREAD_DEFINE_UNSAFE_ADMISSION, SUCCESS] at hk'
  · intro U hU hU0 hU1 ht
    obtain ⟨s, es, hs⟩ := admission_sum_error c t U hc hct ht hU0 hU1
    have hs' := abs_le.mp hs
    rw [hU] at d1 d2
    rw [es] at d1 d2
    constructor
    · intro hle
      apply d1
      simp only [float_le, decide_eq_true_eq]
      norm_num at hs' hle ⊢
      linarith [hs'.1, hs'.2]
    · intro hlt
      apply d2
      simp only [float_le, decide_eq_true_eq]
      norm_num at hs' hlt ⊢
      linarith [hs'.1, hs'.2]
  · intro hnan
    apply d2
    rw [hnan]
    cases float_div (float_of_uint32 c) (float_of_uint32 t) <;> simp [float_add, float_le]

/-- C1 at two states.  In `near_bound_state` (one task `13/41` admitted) the request
`(c = 158, t = 309)` is admitted: the `float` sum equals the `float` entry
`util_bound[2]`.  In scenario S2 (three tasks `6/25`) the request `(c = 1, t = 2)` is
refused, the exact sum being more than `2^-22` above the entry `util_bound[4]`. -/
theorem C1_admission_decision_witness :
    near_bound_state.num_active_threads = 1 ∧
    near_bound_state.total_utilization = float.finite (5319605 / 16777216) ∧
    (∃ k', syscall_thread_define near_bound_state 2 1 0 158 309 = some (SUCCESS, k')) ∧
    scenario_S2.num_active_threads = 3 ∧
    scenario_S2.total_utilization = float.finite (12079595 / 16777216) ∧
    syscall_thread_define scenario_S2 9 1 0 1 2
      = some (THREAD_DEFINE_UNSAFE_ADMISSION, scenario_S2) := by
  have hu : scenario_S2.total_utilization = float.finite (12079595 / 16777216) := by decide!
  have hna : scenario_S2.num_active_threads = 3 := by decide!
  have hna1 : near_bound_state.num_active_threads = 1 := by decide!
  refine ⟨hna1, by decide!, ?_, hna, hu, ?_⟩
  · obtain ⟨b, hb, hiff, _⟩ := C1_admission_decision near_bound_state 2 1 0 158 309
      (by decide!) (by decide) (by decide) (by decide) (by decide!)
      ⟨0, by decide!, by decide!⟩ (by decide!)
    apply hiff.mpr
    rw [hna1, util_bound_values] at hb
    simp only [List.getElem?_cons_succ, List.getElem?_cons_zero, Option.some.injEq] at hb
    rw [← hb]
    decide!
  · obtain ⟨b, hb, _, _, hsand, _⟩ := C1_admission_decision scenario_S2 9 1 0 1 2
      (by decide!) (by decide) (by decide) (by decide) (by decide!)
      ⟨0, by decide!, by decide!⟩ (by decide!)
    apply (hsand (12079595 / 16777216) hu (by norm_num) (by norm_num) (by norm_num)).2
    rw [hna, util_bound_values] at hb
    simp only [List.getElem?_cons_succ, List.getElem?_cons_zero, Option.some.injEq] at hb
    rw [← hb]
    norm_num

/-- C1, counterexample.  In `near_bound_state` the total is the `float` nearest to
`13/41` and the request `(c = 158, t = 309)` is admitted, although the sum of the total
and `158/309` (and the sum `13/41 + 158/309`) exceeds the entry `util_bound[2]`, as the
decimal `.8284` written in the source and as the `float` it is stored as.  In
`half_load_state` the total is `1/2` and the request
`(c = 306976410, t = 1097127996)` is refused, although the sum of the total and `c/t`
is below the entry `util_bound[3]`, as the decimal `.7798` and as the stored `float`.
In `decimal_load_state` (tasks `7796/10000` and `1/10000`) the request
`(c = 1, t = 10000)` is refused, although the three quotients add up to the decimal
`.7798` exactly. -/
theorem C1_counterexample :
    near_bound_state.num_active_threads = 1 ∧
    near_bound_state.total_utilization = float.finite (5319605 / 16777216) ∧
    util_bound_literals[2]? = some (8284 / 10000) ∧
    util_bound[2]? = some (6949123 / 8388608) ∧
    (8284 / 10000 : ℚ) < 5319605 / 16777216 + 158 / 309 ∧
    (6949123 / 8388608 : ℚ) < 5319605 / 16777216 + 158 / 309 ∧
    (8284 / 10000 : ℚ) < 13 / 41 + 158 / 309 ∧
    (syscall_thread_define near_bound_state 2 1 0 158 309).map Prod.fst = some SUCCESS ∧
    half_load_state.num_active_threads = 2 ∧
    half_load_state.total_utilization = float.finite (1 / 2) ∧
    util_bound_literals[3]? = some (7798 / 10000) ∧
    util_bound[3]? = some (13082873 / 16777216) ∧
    (1 / 2 + 306976410 / 1097127996 : ℚ) ≤ 7798 / 10000 ∧
    (1 / 2 + 306976410 / 1097127996 : ℚ) ≤ 13082873 / 16777216 ∧
    (syscall_thread_define half_load_state 3 1 0 306976410 1097127996).map Prod.fst
      = some THREAD_DEFINE_UNSAFE_ADMISSION ∧
    decimal_load_state.num_active_threads = 2 ∧
    (7796 / 10000 + 1 / 10000 + 1 / 10000 : ℚ) ≤ 7798 / 10000 ∧
    (syscall_thread_define decimal_load_state 3 1 0 1 10000).map Prod.fst
      = some THREAD_DEFINE_UNSAFE_ADMISSION := by
  decide!

/-- C2, evaluation at the failing input: after `multitask_request` for one thread,
one `thread_define` and a `thread_end` issued by the bootstrap task, one user TCB is
still live while `num_active_threads` is 0. -/
theorem C2_bootstrap_end_breaks_count :
    (after_request 1 0).active_thread_index = (after_request 1 0).num_user_threads + 1 ∧
    (syscall_thread_define (after_request 1 0) 1 1 0 1 2).map Prod.fst = some SUCCESS ∧
    active_count bootstrap_end_state = 1 ∧
    bootstrap_end_state.num_active_threads = 0 ∧
    (bootstrap_end_state.user_threads 0).state = ThreadReady := by
  decide!

/-- A `thread_end` issued by the bootstrap task subtracts the quotient of the `c` and
`t` of the bootstrap TCB, here `0/0`, from `total_utilization`: the total is a NaN
from then on, and a later `thread_define` of a task `(c 1, t 100)` into the free slot
is refused. -/
theorem bootstrap_end_total_nan :
    ((after_define (after_request 2 0) 1 1 2).user_threads 3).c = 0 ∧
    ((after_define (after_request 2 0) 1 1 2).user_threads 3).t = 0 ∧
    (after_define (after_request 2 0) 1 1 2).active_thread_index = 3 ∧
    (after_define (after_request 2 0) 1 1 2).total_utilization = float.finite (1 / 2) ∧
    (syscall_thread_end (after_define (after_request 2 0) 1 1 2)).total_utilization
      = float.nan ∧
    (syscall_thread_define (syscall_thread_end (after_define (after_request 2 0) 1 1 2))
      2 1 0 1 100).map Prod.fst = some THREAD_DEFINE_UNSAFE_ADMISSION := by
  decide!

/-- C3, evaluation: the entries 0 and 1 of `util_bound` are 0 and 1, the entries for
n = 2, 4, 7, 9, 10, 13, 15 are below the Liu-Layland bound, and the entries for
n = 3, 5, 6, 8, 11, 12, 14 exceed it: `(1 + util_bound[n]/n)^n > 2`.  This holds for
the `float` values the table holds and for the decimals written in the source. -/
theorem C3_table_exceeds_bound :
    util_bound[0]? = some 0 ∧ util_bound[1]? = some 1 ∧
    (∀ n : Nat, n ∈ [1, 2, 4, 7, 9, 10, 13, 15] → ∀ u : ℚ, util_bound[n]? = some u →
      (1 + u / (n : ℚ)) ^ n ≤ 2) ∧
    (∀ n : Nat, n ∈ [3, 5, 6, 8, 11, 12, 14] → ∀ u : ℚ, util_bound[n]? = some u →
      2 < (1 + u / (n : ℚ)) ^ n) ∧
    util_bound_literals[0]? = some 0 ∧ util_bound_literals[1]? = some 1 ∧
    (∀ n : Nat, n ∈ [1, 2, 4, 7, 9, 10, 13, 15] → ∀ u : ℚ,
      util_bound_literals[n]? = some u → (1 + u / (n : ℚ)) ^ n ≤ 2) ∧
    (∀ n : Nat, n ∈ [3, 5, 6, 8, 11, 12, 14] → ∀ u : ℚ,
      util_bound_literals[n]? = some u → 2 < (1 + u / (n : ℚ)) ^ n) := by
  rw [util_bound_values]
  refine ⟨by simp, by simp, ?_, ?_, by simp [util_bound_literals],
    by simp [util_bound_literals], ?_, ?_⟩
  · intro n hn u hu
    simp only [List.mem_cons, List.mem_singleton, List.not_mem_nil, or_false] at hn
    rcases hn with h | h | h | h | h | h | h | h <;> subst h <;>
      simp at hu <;> subst hu <;> norm_num
  · intro n hn u hu
    simp only [List.mem_cons, List.mem_singleton, List.not_mem_nil, or_false] at hn
    rcases hn with h | h | h | h | h | h | h <;> subst h <;>
      simp at hu <;> subst hu <;> norm_num
  · intro n hn u hu
    simp only [List.mem_cons, List.mem_singleton, List.not_mem_nil, or_false] at hn
    rcases hn with h | h | h | h | h | h | h | h <;> subst h <;>
      simp [util_bound_literals] at hu <;> subst hu <;> norm_num
  · intro n hn u hu
    simp only [List.mem_cons, List.mem_singleton, List.not_mem_nil, or_false] at hn
    rcases hn with h | h | h | h | h | h | h <;> subst h <;>
      simp [util_bound_literals] at hu <;> subst hu <;> norm_num

/-- The pass of `schedule_rms` over the first `n` slots: slots from `n` on are
untouched, and the selection is the first slot of least dynamic priority among those
Ready in the table the pass started from. -/
theorem schedule_rms_fold_spec (flag : Nat) (th0 : Nat → tcb_t) (N n : Nat) :
    (∀ j, n ≤ j →
      ((List.range n).foldl (schedule_rms_step flag) (th0, 0xFFFFFFFF, N)).1 j = th0 j) ∧
    (((∀ i < n, ¬ ((th0 i).state = ThreadReady ∧ (th0 i).dynamic_priority < 0xFFFFFFFF)) ∧
        ((List.range n).foldl (schedule_rms_step flag) (th0, 0xFFFFFFFF, N)).2 = (0xFFFFFFFF, N)) ∨
      (((List.range n).foldl (schedule_rms_step flag) (th0, 0xFFFFFFFF, N)).2.2 < n ∧
        (th0 ((List.range n).foldl (schedule_rms_step flag) (th0, 0xFFFFFFFF, N)).2.2).state
          = ThreadReady ∧
        ((List.range n).foldl (schedule_rms_step flag) (th0, 0xFFFFFFFF, N)).2.1 < 0xFFFFFFFF ∧
        ((List.range n).foldl (schedule_rms_step flag) (th0, 0xFFFFFFFF, N)).2.1 =
          (th0 ((List.range n).foldl (schedule_rms_step flag) (th0, 0xFFFFFFFF, N)).2.2).dynamic_priority ∧
        ∀ i < n, (th0 i).state = ThreadReady →
          (((List.range n).foldl (schedule_rms_step flag) (th0, 0xFFFFFFFF, N)).2.1
              ≤ (th0 i).dynamic_priority ∧
           (i < ((List.range n).foldl (schedule_rms_step flag) (th0, 0xFFFFFFFF, N)).2.2 →
              ((List.range n).foldl (schedule_rms_step flag) (th0, 0xFFFFFFFF, N)).2.1
                < (th0 i).dynamic_priority)))) := by
  induction n with
  | zero => simp
  | succ n ih =>
    obtain ⟨hframe, hsel⟩ := ih
    rw [List.range_succ, List.foldl_append]
    simp only [List.foldl_cons, List.foldl_nil]
    generalize (List.range n).foldl (schedule_rms_step flag) (th0, 0xFFFFFFFF, N) = r
      at hframe hsel
    obtain ⟨th, hp, nx⟩ := r
    simp only at hframe hsel
    have hn : th n = th0 n := hframe n (Nat.le_refl n)
    -- the table part of the step
    have hstep1 : ∀ j, n + 1 ≤ j → (schedule_rms_step flag (th, hp, nx) n).1 j = th0 j := by
      intro j hj
      have hjn : j ≠ n := by omega
      have hj' : th j = th0 j := hframe j (by omega)
      unfold schedule_rms_step
      simp only
      split_ifs <;> simp [store, hjn, hj']
    -- the selection part of the step
    have hstep2 : (schedule_rms_step flag (th, hp, nx) n).2 =
        if (th0 n).state = ThreadReady ∧ (th0 n).dynamic_priority < hp
        then ((th0 n).dynamic_priority, n) else (hp, nx) := by
      unfold schedule_rms_step
      simp only [hn]
      by_cases hd : (th0 n).state = ThreadDefunct
      · simp [hd]
      · simp only [hd, if_false]
        split_ifs <;> rfl
    refine ⟨hstep1, ?_⟩
    rw [hstep2]
    rcases hsel with ⟨hnone, hacc⟩ | ⟨hlt, hready, hpl, hdyn, hmin⟩
    · -- nothing selected so far
      simp only [Prod.mk.injEq] at hacc
      obtain ⟨hhp, hnx⟩ := hacc
      subst hhp
      by_cases hc : (th0 n).state = ThreadReady ∧ (th0 n).dynamic_priority < 0xFFFFFFFF
      · right
        rw [if_pos hc]
        refine ⟨Nat.lt_succ_self n, hc.1, hc.2, rfl, ?_⟩
        intro i hi hri
        rcases Nat.lt_succ_iff_lt_or_eq.mp hi with h | h
        · have := hnone i h
          have hge : ¬ (th0 i).dynamic_priority < 0xFFFFFFFF := fun hh => this ⟨hri, hh⟩
          constructor
          · have := hc.2; omega
          · intro _; have := hc.2; omega
        · subst h
          exact ⟨Nat.le_refl _, fun h => absurd h (Nat.lt_irrefl _)⟩
      · left
        rw [if_neg hc]
        refine ⟨?_, by rw [hnx]⟩
        intro i hi
        rcases Nat.lt_succ_iff_lt_or_eq.mp hi with h | h
        · exact hnone i h
        · subst h; exact hc
    · right
      by_cases hc : (th0 n).state = ThreadReady ∧ (th0 n).dynamic_priority < hp
      · rw [if_pos hc]
        refine ⟨Nat.lt_succ_self n, hc.1, by omega, rfl, ?_⟩
        intro i hi hri
        rcases Nat.lt_succ_iff_lt_or_eq.mp hi with h | h
        · have := (hmin i h hri).1
          constructor
          · have := hc.2; omega
          · intro _; have := hc.2; omega
        · subst h
          exact ⟨Nat.le_refl _, fun h => absurd h (Nat.lt_irrefl _)⟩
      · rw [if_neg hc]
        refine ⟨Nat.lt_succ_of_lt hlt, hready, hpl, hdyn, ?_⟩
        intro i hi hri
        rcases Nat.lt_succ_iff_lt_or_eq.mp hi with h | h
        · exact hmin i h hri
        · subst h
          have hge : hp ≤ (th0 i).dynamic_priority := by
            by_contra hh
            exact hc ⟨hri, by omega⟩
          exact ⟨hge, fun h => absurd h (by omega)⟩

/-- Without `preemption_flag` the pass of `schedule_rms` leaves the table alone. -/
theorem schedule_rms_fold_noflag (th0 : Nat → tcb_t) (N n : Nat) :
    ((List.range n).foldl (schedule_rms_step 0) (th0, 0xFFFFFFFF, N)).1 = th0 := by
  induction n with
  | zero => simp
  | succ n ih =>
    rw [List.range_succ, List.foldl_append]
    simp only [List.foldl_cons, List.foldl_nil]
    generalize (List.range n).foldl (schedule_rms_step 0) (th0, 0xFFFFFFFF, N) = r at ih
    obtain ⟨th, hp, nx⟩ := r
    simp only at ih
    subst ih
    simp only [schedule_rms_step, ne_eq, not_true_eq_false, if_false]
    split_ifs <;> rfl

/-- C4 (amended).  `schedule_rms` returns the bootstrap slot when
`num_active_threads` is 0; otherwise it returns the first slot of least dynamic
priority among the user TCBs that are Ready on entry, the idle slot exactly when no
user TCB is Ready on entry with a dynamic priority below `0xFFFFFFFF`; with
`preemption_flag` clear the kernel state is unchanged by the pass. -/
theorem C4_scheduler_selection (k : Kernel) :
    (k.num_active_threads = 0 → (schedule_rms k).1 = k.num_user_threads + 1) ∧
    (k.num_active_threads ≠ 0 →
      ((schedule_rms k).1 = k.num_user_threads ↔
        ∀ i < k.num_user_threads,
          ¬ ((k.user_threads i).state = ThreadReady ∧
             (k.user_threads i).dynamic_priority < 0xFFFFFFFF)) ∧
      ((schedule_rms k).1 ≠ k.num_user_threads →
        (schedule_rms k).1 < k.num_user_threads ∧
        (k.user_threads (schedule_rms k).1).state = ThreadReady ∧
        ∀ i < k.num_user_threads, (k.user_threads i).state = ThreadReady →
          (k.user_threads (schedule_rms k).1).dynamic_priority
              ≤ (k.user_threads i).dynamic_priority ∧
          (i < (schedule_rms k).1 →
            (k.user_threads (schedule_rms k).1).dynamic_priority
              < (k.user_threads i).dynamic_priority))) ∧
    (k.preemption_flag = 0 → (schedule_rms k).2 = k) := by
  refine ⟨fun h0 => by simp [schedule_rms, h0], fun hne => ?_, fun hf => ?_⟩
  · obtain ⟨_, hsel⟩ := schedule_rms_fold_spec k.preemption_flag k.user_threads
      k.num_user_threads k.num_user_threads
    have hret : (schedule_rms k).1 =
        ((List.range k.num_user_threads).foldl (schedule_rms_step k.preemption_flag)
          (k.user_threads, 0xFFFFFFFF, k.num_user_threads)).2.2 := by
      simp [schedule_rms, hne]
    rw [hret]
    generalize (List.range k.num_user_threads).foldl (schedule_rms_step k.preemption_flag)
      (k.user_threads, 0xFFFFFFFF, k.num_user_threads) = r at hsel
    rcases hsel with ⟨hnone, hacc⟩ | ⟨hlt, hready, hpl, hdyn, hmin⟩
    · have h2 : r.2.2 = k.num_user_threads := by rw [hacc]
      refine ⟨⟨fun _ => hnone, fun _ => h2⟩, fun h => absurd h2 h⟩
    · refine ⟨⟨fun h => absurd h (Nat.ne_of_lt hlt), fun h => ?_⟩, fun _ => ⟨hlt, hready, ?_⟩⟩
      · exact absurd ⟨hready, by rw [← hdyn]; exact hpl⟩ (h _ hlt)
      · intro i hi hri
        rw [← hdyn]
        exact hmin i hi hri
  · by_cases h0 : k.num_active_threads = 0
    · simp [schedule_rms, h0]
    · cases k
      simp only at hf h0
      subst hf
      simp [schedule_rms, h0, schedule_rms_fold_noflag]

/-- C6.  A caller that does not rank above the ceiling of `m` and does not hold `m`
reaches the loop of `syscall_lock`, and one evaluation of the loop condition acquires
`m` exactly when the semaphore of `m` is not 0 (free) and either the caller's dynamic
priority is below `global_priority_ceiling` or `highest_priority_lock` points to a
mutex whose `current_locker` is the caller; the semaphore then is 0, the caller is the
holder, the global ceiling is the minimum of the old one and the ceiling of `m`, and
`highest_priority_lock` is `m` when that ceiling is below the old one and is
unchanged otherwise. -/
theorem C6_lock_acquisition_rule (k : Kernel) (m : Nat) :
    ((¬ (k.user_threads k.active_thread_index).static_priority
          < (k.user_locks m).priority_ceiling) →
      (k.user_locks m).current_locker ≠ some k.active_thread_index →
      syscall_lock k m = syscall_lock_attempt k m) ∧
    ((syscall_lock_attempt k m).1 = lock_exit.Acquired ↔
      ((k.user_locks m).s ≠ 0 ∧
        ((k.user_threads k.active_thread_index).dynamic_priority < k.global_priority_ceiling ∨
          ∃ h, k.highest_priority_lock = some h ∧
            (k.user_locks h).current_locker = some k.active_thread_index))) ∧
    ((syscall_lock_attempt k m).1 = lock_exit.Acquired →
      ((syscall_lock_attempt k m).2.user_locks m).s = 0 ∧
      ((syscall_lock_attempt k m).2.user_locks m).current_locker = some k.active_thread_index ∧
      (syscall_lock_attempt k m).2.global_priority_ceiling =
        MIN (k.user_locks m).priority_ceiling k.global_priority_ceiling ∧
      (syscall_lock_attempt k m).2.highest_priority_lock =
        (if (k.user_locks m).priority_ceiling < k.global_priority_ceiling
         then some m else k.highest_priority_lock)) := by
  have hholder : ceiling_holder k = some k.active_thread_index ↔
      ∃ h, k.highest_priority_lock = some h ∧
        (k.user_locks h).current_locker = some k.active_thread_index := by
    unfold ceiling_holder
    cases hp : k.highest_priority_lock with
    | none => simp
    | some h => simp
  have hmay : may_try k = true ↔
      ((k.user_threads k.active_thread_index).dynamic_priority < k.global_priority_ceiling ∨
        ∃ h, k.highest_priority_lock = some h ∧
          (k.user_locks h).current_locker = some k.active_thread_index) := by
    rw [← hholder]
    simp [may_try]
  refine ⟨fun hrank hheld => ?_, ?_⟩
  · unfold syscall_lock syscall_lock_entry lock_held_check
    simp only [if_neg hrank, if_neg hheld]
  rw [← hmay]
  by_cases hm : may_try k = true
  · by_cases hs : (k.user_locks m).s = 0
    · have h1 : (syscall_lock_attempt k m).1 = lock_exit.Pended := by
        simp [syscall_lock_attempt, hm, mutex_try, hs]
      refine ⟨⟨fun h => ?_, fun h => ?_⟩, fun h => ?_⟩
      · rw [h1] at h; cases h
      · exact absurd hs h.1
      · rw [h1] at h; cases h
    · have h1 : syscall_lock_attempt k m =
          (lock_exit.Acquired,
            lock_acquired { k with user_locks := store k.user_locks m { k.user_locks m with s := 0 } } m) := by
        simp [syscall_lock_attempt, hm, mutex_try, hs]
      rw [h1]
      refine ⟨⟨fun _ => ⟨hs, hm⟩, fun _ => rfl⟩, fun _ => ?_⟩
      unfold lock_acquired
      simp only [store, if_true]
      split_ifs with hlt <;> simp [store, MIN, hlt]
  · have hm' : may_try k = false := by simpa using hm
    have h1 : (syscall_lock_attempt k m).1 = lock_exit.Pended := by
      simp [syscall_lock_attempt, hm']
    refine ⟨⟨fun h => ?_, fun h => ?_⟩, fun h => ?_⟩
    · rw [h1] at h; cases h
    · exact absurd h.2 hm
    · rw [h1] at h; cases h

/-- C6 at two states.  In `one_lock_state` the task (slot 0, dynamic priority 0) is not
below the global ceiling 0 but holds the ceiling-owning mutex 1: it reaches the loop
and acquires the free mutex 0.  In `ceiling_block_state` the caller (slot 1) is not
below the ceiling and the ceiling-owning mutex 0 is held by slot 0: the attempt on the
free mutex 1 does not acquire it. -/
theorem C6_lock_acquisition_rule_witness :
    one_lock_state.global_priority_ceiling = 0 ∧
    (one_lock_state.user_threads one_lock_state.active_thread_index).dynamic_priority = 0 ∧
    syscall_lock one_lock_state 0 = syscall_lock_attempt one_lock_state 0 ∧
    (syscall_lock_attempt one_lock_state 0).1 = lock_exit.Acquired ∧
    ((syscall_lock_attempt one_lock_state 0).2.user_locks 0).current_locker
      = some one_lock_state.active_thread_index ∧
    (ceiling_block_state.user_locks 1).s = 1 ∧
    (syscall_lock_attempt ceiling_block_state 1).1 ≠ lock_exit.Acquired :=
  ⟨by decide!, by decide!,
    (C6_lock_acquisition_rule one_lock_state 0).1 (by decide!) (by decide!),
    (C6_lock_acquisition_rule one_lock_state 0).2.1.mpr
      ⟨by decide!, Or.inr ⟨1, by decide!, by decide!⟩⟩,
    ((C6_lock_acquisition_rule one_lock_state 0).2.2
      ((C6_lock_acquisition_rule one_lock_state 0).2.1.mpr
        ⟨by decide!, Or.inr ⟨1, by decide!, by decide!⟩⟩)).2.1,
    by decide!,
    fun hacq => by
      rcases ((C6_lock_acquisition_rule ceiling_block_state 1).2.1.mp hacq).2 with h | ⟨h, h1, h2⟩
      · exact absurd h (by decide!)
      · have e : ceiling_block_state.highest_priority_lock = some 0 := by decide!
        rw [e] at h1
        cases h1
        exact absurd h2 (by decide!)⟩

/-- C4, counterexample: in `release_state` the pass returns slot 0 (task B, dynamic
priority 1) although slot 1 (task A, dynamic priority 0) is Ready when `schedule_rms`
returns: A is released by this very pass, after its slot was examined. -/
theorem C4_counterexample :
    release_state.num_active_threads ≠ 0 ∧
    (schedule_rms release_state).1 = 0 ∧
    ¬ (∀ i < (schedule_rms release_state).2.num_user_threads,
        ((schedule_rms release_state).2.user_threads i).state = ThreadReady →
        ((schedule_rms release_state).2.user_threads (schedule_rms release_state).1).dynamic_priority
          ≤ ((schedule_rms release_state).2.user_threads i).dynamic_priority) := by
  decide!

/-- C5, evaluation at the failing input: a task with id `0xFFFFFFFF` and period
`0xFFFFFFFF` is admitted as the only task, and after the successful `thread_define`
its static and dynamic priority are `0xFFFFFFFF` instead of 0. -/
theorem C5_sentinel_task_unranked :
    (syscall_thread_define (after_request 1 0) 0xFFFFFFFF 1 0 1 0xFFFFFFFF).map Prod.fst
      = some SUCCESS ∧
    active_count sentinel_state = 1 ∧
    (sentinel_state.user_threads 0).state = ThreadReady ∧
    (sentinel_state.user_threads 0).static_priority = 0xFFFFFFFF ∧
    (sentinel_state.user_threads 0).dynamic_priority = 0xFFFFFFFF := by
  decide!

/-- C7, evaluation at the failing input: in `ceiling_block_state` task H (slot 1,
dynamic priority 0) calls `lock` on the free mutex 1 while L (slot 0) holds the
ceiling-owning mutex 0.  H becomes Blocked and is appended to the blocked list of
mutex 0, the loop body meets a null `m->current_locker`, and the dynamic priority
of L stays 1 instead of `MIN 1 0`. -/
theorem C7_ceiling_block_no_inheritance :
    ceiling_block_state.active_thread_index = 1 ∧
    (ceiling_block_state.user_threads 1).static_priority = 0 ∧
    (ceiling_block_state.user_locks 1).priority_ceiling = 0 ∧
    mutex_is_locked (ceiling_block_state.user_locks 1) = false ∧
    ceiling_block_state.highest_priority_lock = some 0 ∧
    (ceiling_block_state.user_locks 0).current_locker = some 0 ∧
    (ceiling_block_state.user_threads 0).dynamic_priority = 1 ∧
    (syscall_lock ceiling_block_state 1).1 = lock_exit.Pended ∧
    lock_blocked_null_store (syscall_lock_entry ceiling_block_state 1).2 1 = true ∧
    ((syscall_lock ceiling_block_state 1).2.user_threads 1).state = ThreadBlocked ∧
    ((syscall_lock ceiling_block_state 1).2.user_locks 0).blocked_threads = [1] ∧
    ((syscall_lock ceiling_block_state 1).2.user_threads 1).dynamic_priority = 0 ∧
    ((syscall_lock ceiling_block_state 1).2.user_threads 0).dynamic_priority = 1 := by
  decide!

/-- C8, evaluation at the failing input.  In `inversion_ready` L (slot 0) holds mutex
0, whose ceiling 0 is the global ceiling, and H (slot 2, dynamic priority 0) calls
`lock` on the free mutex 1.  Its priority is not below the ceiling: H is Blocked and
appended to the blocked list of mutex 0, and nothing is inherited.  Mutex 0 is then
held by L at dynamic priority 2 with the waiter H at dynamic priority 0, and the
switch pended by H selects M (slot 1) although L is Ready. -/
theorem C8_ceiling_waiter_above_holder :
    inversion_ready.active_thread_index = 2 ∧
    inversion_ready.global_priority_ceiling = 0 ∧
    inversion_ready.highest_priority_lock = some 0 ∧
    (inversion_ready.user_locks 0).current_locker = some 0 ∧
    (inversion_ready.user_locks 1).priority_ceiling = 0 ∧
    (inversion_ready.user_locks 1).s = 1 ∧
    (inversion_ready.user_threads 2).static_priority = 0 ∧
    (syscall_lock inversion_ready 1).1 = lock_exit.Pended ∧
    (inversion_state.user_locks 0).s = 0 ∧
    (inversion_state.user_locks 0).current_locker = some 0 ∧
    (inversion_state.user_locks 0).blocked_threads = [2] ∧
    (inversion_state.user_threads 2).state = ThreadBlocked ∧
    (inversion_state.user_threads 2).dynamic_priority = 0 ∧
    (inversion_state.user_threads 0).dynamic_priority = 2 ∧
    (context_switch inversion_state).active_thread_index = 1 ∧
    ((context_switch inversion_state).user_threads 1).dynamic_priority = 1 ∧
    ((context_switch inversion_state).user_threads 0).state = ThreadReady := by
  decide!


theorem store_same {α : Type} (f : Nat → α) (i : Nat) (v : α) : store f i v i = v := by
  simp [store]

theorem store_other {α : Type} (f : Nat → α) (i j : Nat) (v : α) (h : j ≠ i) :
    store f i v j = f j := by
  simp [store, h]

theorem store_self {α : Type} (f : Nat → α) (i : Nat) : store f i (f i) = f := by
  funext j
  by_cases h : j = i
  · subst h; simp [store]
  · simp [store, h]

/-- The ceiling invariant only reads the lock table, the number of defined locks and
the two ceiling variables. -/
theorem ceiling_inv_congr (k k' : Kernel) (hl : k'.user_locks = k.user_locks)
    (hn : k'.num_defined_locks = k.num_defined_locks)
    (hc : k'.global_priority_ceiling = k.global_priority_ceiling)
    (hh : k'.highest_priority_lock = k.highest_priority_lock) (h : ceiling_inv k) :
    ceiling_inv k' := by
  unfold ceiling_inv at *
  rw [hl, hn, hc, hh]
  exact h

theorem ceilings_resolved_congr (k k' : Kernel) (hl : k'.user_locks = k.user_locks)
    (hn : k'.num_defined_locks = k.num_defined_locks) (h : ceilings_resolved k) :
    ceilings_resolved k' := by
  unfold ceilings_resolved at *
  rw [hl, hn]
  exact h

theorem unlock_scan_succ (locks : Nat → mutex_t) (a n : Nat) (th : Nat → tcb_t) :
    unlock_scan locks a (n + 1) th = unlock_scan_step locks a (unlock_scan locks a n th) n := by
  unfold unlock_scan
  rw [List.range_succ, List.foldl_append]
  rfl

/-- The selection part of the scan of `syscall_unlock` over the first `n` locks. -/
theorem unlock_scan_sel (locks : Nat → mutex_t) (a : Nat) (th : Nat → tcb_t) (n : Nat) :
    (∀ j, j < n → mutex_is_locked (locks j) = true →
      (unlock_scan locks a n th).2.1
        ≤ (locks j).priority_ceiling) ∧
    ((unlock_scan locks a n th).2.2 = none →
      (unlock_scan locks a n th).2.1 = 0xFFFFFFFF ∧
      ∀ j, j < n → mutex_is_locked (locks j) = true →
        ¬ (locks j).priority_ceiling < 0xFFFFFFFF) ∧
    (∀ h, (unlock_scan locks a n th).2.2 = some h →
      h < n ∧ mutex_is_locked (locks h) = true ∧
      (locks h).priority_ceiling =
        (unlock_scan locks a n th).2.1) := by
  induction n with
  | zero => simp [unlock_scan]
  | succ n ih =>
    rw [unlock_scan_succ]
    generalize unlock_scan locks a n th = r at ih
    obtain ⟨t, g, h⟩ := r
    simp only at ih
    obtain ⟨h1, h2, h3⟩ := ih
    have hsel : (unlock_scan_step locks a (t, g, h) n).2 =
        if mutex_is_locked (locks n) = true then
          (if (locks n).priority_ceiling < g then ((locks n).priority_ceiling, some n) else (g, h))
        else (g, h) := by
      unfold unlock_scan_step
      simp only
      split_ifs <;> rfl
    rw [hsel]
    by_cases hl : mutex_is_locked (locks n) = true
    · rw [if_pos hl]
      by_cases hc : (locks n).priority_ceiling < g
      · rw [if_pos hc]
        refine ⟨?_, ?_, ?_⟩
        · intro j hj hjl
          rcases Nat.lt_succ_iff_lt_or_eq.mp hj with hh | hh
          · have := h1 j hh hjl; simp only; omega
          · subst hh; exact Nat.le_refl _
        · intro hnone; cases hnone
        · intro x hx
          simp only [Option.some.injEq] at hx
          subst hx
          exact ⟨Nat.lt_succ_self _, hl, rfl⟩
      · rw [if_neg hc]
        refine ⟨?_, ?_, ?_⟩
        · intro j hj hjl
          rcases Nat.lt_succ_iff_lt_or_eq.mp hj with hh | hh
          · exact h1 j hh hjl
          · subst hh; simp only; omega
        · intro hnone
          obtain ⟨hg, hall⟩ := h2 hnone
          refine ⟨hg, ?_⟩
          intro j hj hjl
          rcases Nat.lt_succ_iff_lt_or_eq.mp hj with hh | hh
          · exact hall j hh hjl
          · subst hh
            have hg' : g = 0xFFFFFFFF := hg
            omega
        · intro x hx
          obtain ⟨hx1, hx2, hx3⟩ := h3 x hx
          exact ⟨Nat.lt_succ_of_lt hx1, hx2, hx3⟩
    · rw [if_neg hl]
      refine ⟨?_, ?_, ?_⟩
      · intro j hj hjl
        rcases Nat.lt_succ_iff_lt_or_eq.mp hj with hh | hh
        · exact h1 j hh hjl
        · subst hh; exact absurd hjl hl
      · intro hnone
        obtain ⟨hg, hall⟩ := h2 hnone
        refine ⟨hg, ?_⟩
        intro j hj hjl
        rcases Nat.lt_succ_iff_lt_or_eq.mp hj with hh | hh
        · exact hall j hh hjl
        · subst hh; exact absurd hjl hl
      · intro x hx
        obtain ⟨hx1, hx2, hx3⟩ := h3 x hx
        exact ⟨Nat.lt_succ_of_lt hx1, hx2, hx3⟩

theorem unlock_free (k : Kernel) (m : Nat) (h : mutex_is_locked (k.user_locks m) = false) :
    syscall_unlock k m = k := by
  simp [syscall_unlock, h]

theorem unlock_num_defined (k : Kernel) (m : Nat) :
    (syscall_unlock k m).num_defined_locks = k.num_defined_locks := by
  unfold syscall_unlock; split_ifs <;> rfl

theorem unlock_num_user_locks (k : Kernel) (m : Nat) :
    (syscall_unlock k m).num_user_locks = k.num_user_locks := by
  unfold syscall_unlock; split_ifs <;> rfl

theorem unlock_active (k : Kernel) (m : Nat) :
    (syscall_unlock k m).active_thread_index = k.active_thread_index := by
  unfold syscall_unlock; split_ifs <;> rfl

theorem unlock_num_user_threads (k : Kernel) (m : Nat) :
    (syscall_unlock k m).num_user_threads = k.num_user_threads := by
  unfold syscall_unlock; split_ifs <;> rfl

theorem unlock_locks (k : Kernel) (m : Nat) (h : mutex_is_locked (k.user_locks m) = true) :
    (syscall_unlock k m).user_locks = store k.user_locks m (release_mutex (k.user_locks m)) := by
  unfold syscall_unlock
  rw [if_neg (by simp [h])]

/-- `syscall_unlock` leaves every priority ceiling as it was. -/
theorem unlock_ceiling (k : Kernel) (m j : Nat) :
    ((syscall_unlock k m).user_locks j).priority_ceiling = (k.user_locks j).priority_ceiling := by
  by_cases h : mutex_is_locked (k.user_locks m) = true
  · rw [unlock_locks k m h]
    by_cases hj : j = m
    · subst hj; simp [store, mutex_unlock, release_mutex]
    · simp [store, hj]
  · have h' : mutex_is_locked (k.user_locks m) = false := by simpa using h
    rw [unlock_free k m h']

theorem unlock_resolved (k : Kernel) (m : Nat) (h : ceilings_resolved k) :
    ceilings_resolved (syscall_unlock k m) := by
  intro j hj
  rw [unlock_ceiling]
  rw [unlock_num_defined] at hj
  exact h j hj

theorem unlock_ceiling_vars (k : Kernel) (m : Nat)
    (h : mutex_is_locked (k.user_locks m) = true) :
    ∃ th,
      (syscall_unlock k m).global_priority_ceiling =
        (unlock_scan (store k.user_locks m (release_mutex (k.user_locks m)))
          k.active_thread_index k.num_defined_locks th).2.1 ∧
      (syscall_unlock k m).highest_priority_lock =
        (unlock_scan (store k.user_locks m (release_mutex (k.user_locks m)))
          k.active_thread_index k.num_defined_locks th).2.2 := by
  unfold syscall_unlock
  rw [if_neg (by simp [h])]
  exact ⟨_, rfl, rfl⟩

/-- `syscall_unlock` on a held mutex recomputes the two ceiling variables from
scratch. -/
theorem unlock_establishes_ceiling (k : Kernel) (m : Nat) (hres : ceilings_resolved k)
    (h : mutex_is_locked (k.user_locks m) = true) : ceiling_inv (syscall_unlock k m) := by
  have hlocks := unlock_locks k m h
  have hnd := unlock_num_defined k m
  obtain ⟨th, hg, hh⟩ := unlock_ceiling_vars k m h
  obtain ⟨s1, s2, s3⟩ := unlock_scan_sel
    (store k.user_locks m (release_mutex (k.user_locks m)))
    k.active_thread_index th k.num_defined_locks
  have hres' := unlock_resolved k m hres
  unfold ceiling_inv
  rw [hnd]
  refine ⟨?_, ?_, ?_⟩
  · intro j hj hjl
    rw [hlocks] at hjl ⊢
    rw [hg]
    exact s1 j hj hjl
  · rintro ⟨j, hj, hjl⟩
    rw [hlocks] at hjl
    cases hq : (syscall_unlock k m).highest_priority_lock with
    | none =>
      rw [hh] at hq
      have := (s2 hq).2 j hj hjl
      have hr := hres' j (by rw [hnd]; exact hj)
      rw [hlocks] at hr
      exact absurd hr this
    | some x =>
      rw [hh] at hq
      obtain ⟨x1, x2, x3⟩ := s3 x hq
      refine ⟨x, rfl, x1, ?_, ?_⟩
      · rw [hlocks]; exact x2
      · rw [hlocks, hg]; exact x3
  · intro hno
    cases hq : (syscall_unlock k m).highest_priority_lock with
    | none =>
      rw [hh] at hq
      refine ⟨?_, rfl⟩
      rw [hg]
      exact (s2 hq).1
    | some x =>
      rw [hh] at hq
      obtain ⟨x1, x2, _⟩ := s3 x hq
      exfalso
      apply hno
      refine ⟨x, x1, ?_⟩
      rw [hlocks]; exact x2

theorem unlock_preserves_ceiling (k : Kernel) (m : Nat)
    (h : ceilings_resolved k ∧ ceiling_inv k) :
    ceilings_resolved (syscall_unlock k m) ∧ ceiling_inv (syscall_unlock k m) := by
  refine ⟨unlock_resolved k m h.1, ?_⟩
  by_cases hl : mutex_is_locked (k.user_locks m) = true
  · exact unlock_establishes_ceiling k m h.1 hl
  · have h' : mutex_is_locked (k.user_locks m) = false := by simpa using hl
    rw [unlock_free k m h']
    exact h.2

/-- The ceiling invariant only reads the semaphores and ceilings of the lock table,
the number of defined locks and the two ceiling variables. -/
theorem ceiling_inv_transfer (k k' : Kernel)
    (hs : ∀ j, mutex_is_locked (k'.user_locks j) = mutex_is_locked (k.user_locks j))
    (hp : ∀ j, (k'.user_locks j).priority_ceiling = (k.user_locks j).priority_ceiling)
    (hn : k'.num_defined_locks = k.num_defined_locks)
    (hc : k'.global_priority_ceiling = k.global_priority_ceiling)
    (hh : k'.highest_priority_lock = k.highest_priority_lock)
    (h : ceilings_resolved k ∧ ceiling_inv k) :
    ceilings_resolved k' ∧ ceiling_inv k' := by
  obtain ⟨hres, h1, h2, h3⟩ := h
  refine ⟨?_, ?_, ?_, ?_⟩
  · intro j hj
    rw [hp]; rw [hn] at hj; exact hres j hj
  · intro j hj hjl
    rw [hn] at hj; rw [hs] at hjl; rw [hc, hp]
    exact h1 j hj hjl
  · rintro ⟨j, hj, hjl⟩
    rw [hn] at hj; rw [hs] at hjl
    obtain ⟨x, x1, x2, x3, x4⟩ := h2 ⟨j, hj, hjl⟩
    refine ⟨x, by rw [hh]; exact x1, by rw [hn]; exact x2, by rw [hs]; exact x3, ?_⟩
    rw [hp, hc]; exact x4
  · intro hno
    have : ¬ ∃ m, m < k.num_defined_locks ∧ mutex_is_locked (k.user_locks m) = true := by
      rintro ⟨j, hj, hjl⟩
      exact hno ⟨j, by rw [hn]; exact hj, by rw [hs]; exact hjl⟩
    obtain ⟨y1, y2⟩ := h3 this
    exact ⟨by rw [hc]; exact y1, by rw [hh]; exact y2⟩

theorem thread_end_release_ceiling (k : Kernel) (index : Nat)
    (h : ceilings_resolved k ∧ ceiling_inv k) :
    ceilings_resolved (thread_end_release k index) ∧ ceiling_inv (thread_end_release k index) := by
  unfold thread_end_release
  split_ifs
  · exact unlock_preserves_ceiling k index h
  · exact h

theorem thread_end_release_num_defined (k : Kernel) (index : Nat) :
    (thread_end_release k index).num_defined_locks = k.num_defined_locks := by
  unfold thread_end_release
  split_ifs
  · exact unlock_num_defined k index
  · rfl

theorem thread_end_fold_ceiling (n : Nat) (k : Kernel)
    (h : ceilings_resolved k ∧ ceiling_inv k) :
    (ceilings_resolved ((List.range n).foldl thread_end_release k) ∧
      ceiling_inv ((List.range n).foldl thread_end_release k)) ∧
    ((List.range n).foldl thread_end_release k).num_defined_locks = k.num_defined_locks := by
  induction n with
  | zero => exact ⟨h, rfl⟩
  | succ n ih =>
    rw [List.range_succ, List.foldl_append]
    simp only [List.foldl_cons, List.foldl_nil]
    exact ⟨thread_end_release_ceiling _ n ih.1,
      by rw [thread_end_release_num_defined]; exact ih.2⟩

theorem thread_end_ceiling (k : Kernel) (h : ceilings_resolved k ∧ ceiling_inv k) :
    (ceilings_resolved (syscall_thread_end k) ∧ ceiling_inv (syscall_thread_end k)) ∧
    (syscall_thread_end k).num_defined_locks = k.num_defined_locks := by
  unfold syscall_thread_end
  split_ifs
  · exact ⟨h, rfl⟩
  · obtain ⟨hf, hn⟩ := thread_end_fold_ceiling k.num_user_locks k h
    refine ⟨?_, hn⟩
    exact ceiling_inv_transfer _ _ (fun _ => rfl) (fun _ => rfl) rfl rfl rfl hf

theorem enqueue_fields (locks : Nat → mutex_t) (j a i : Nat) :
    (enqueue locks j a i).s = (locks i).s ∧
    (enqueue locks j a i).priority_ceiling = (locks i).priority_ceiling ∧
    (enqueue locks j a i).current_locker = (locks i).current_locker := by
  unfold enqueue
  by_cases h : i = j
  · subst h; simp [store]
  · simp [store, h]

/-- The loop body of `syscall_lock` changes no semaphore, no ceiling and no holder. -/
theorem lock_blocked_locks (k : Kernel) (m j : Nat) :
    mutex_is_locked ((lock_blocked k m).user_locks j) = mutex_is_locked (k.user_locks j) ∧
    ((lock_blocked k m).user_locks j).priority_ceiling = (k.user_locks j).priority_ceiling ∧
    ((lock_blocked k m).user_locks j).current_locker = (k.user_locks j).current_locker := by
  have e : (lock_blocked k m).user_locks =
      if mutex_is_locked (k.user_locks m) = true then enqueue k.user_locks m k.active_thread_index
      else
        match k.highest_priority_lock with
        | some h => enqueue k.user_locks h k.active_thread_index
        | none => k.user_locks := rfl
  rw [e]
  split_ifs
  · obtain ⟨a1, a2, a3⟩ := enqueue_fields k.user_locks m k.active_thread_index j
    exact ⟨by simp [mutex_is_locked, a1], a2, a3⟩
  · cases k.highest_priority_lock with
    | none => exact ⟨rfl, rfl, rfl⟩
    | some x =>
      obtain ⟨a1, a2, a3⟩ := enqueue_fields k.user_locks x k.active_thread_index j
      exact ⟨by simp [mutex_is_locked, a1], a2, a3⟩

/-- The loop body of `syscall_lock` keeps the ceiling invariant. -/
theorem lock_blocked_ceiling (k : Kernel) (m : Nat) (h : ceilings_resolved k ∧ ceiling_inv k) :
    ceilings_resolved (lock_blocked k m) ∧ ceiling_inv (lock_blocked k m) :=
  ceiling_inv_transfer k _ (fun j => (lock_blocked_locks k m j).1)
    (fun j => (lock_blocked_locks k m j).2.1) rfl rfl rfl h

/-- Taking a free defined mutex keeps the ceiling invariant. -/
theorem lock_acquired_ceiling (k : Kernel) (m : Nat) (hm : m < k.num_defined_locks)
    (hfree : mutex_is_locked (k.user_locks m) = false)
    (h : ceilings_resolved k ∧ ceiling_inv k) :
    ceilings_resolved
        (lock_acquired { k with user_locks := store k.user_locks m { k.user_locks m with s := 0 } } m) ∧
      ceiling_inv
        (lock_acquired { k with user_locks := store k.user_locks m { k.user_locks m with s := 0 } } m) := by
  obtain ⟨hres, h1, h2, h3⟩ := h
  have hcm := hres m hm
  by_cases hlt : (k.user_locks m).priority_ceiling < k.global_priority_ceiling
  · have hk : lock_acquired { k with user_locks := store k.user_locks m { k.user_locks m with s := 0 } } m
        = { k with user_locks := store (store k.user_locks m { k.user_locks m with s := 0 }) m
                    { k.user_locks m with s := 0, current_locker := some k.active_thread_index },
                   global_priority_ceiling := (k.user_locks m).priority_ceiling,
                   highest_priority_lock := some m } := by
      simp [lock_acquired, store, hlt]
    rw [hk]
    refine ⟨?_, ?_, ?_, ?_⟩
    · intro j hj
      by_cases hjm : j = m
      · subst hjm; simpa [store] using hcm
      · simpa [store, hjm] using hres j hj
    · intro j hj hjl
      by_cases hjm : j = m
      · subst hjm; simp [store]
      · have hjl' : mutex_is_locked (k.user_locks j) = true := by simpa [store, hjm] using hjl
        have := h1 j hj hjl'
        simp only [store, hjm, if_false]
        omega
    · intro _
      exact ⟨m, rfl, hm, by simp [store, mutex_is_locked], by simp [store]⟩
    · intro hno
      exact absurd ⟨m, hm, by simp [store, mutex_is_locked]⟩ hno
  · have hk : lock_acquired { k with user_locks := store k.user_locks m { k.user_locks m with s := 0 } } m
        = { k with user_locks := store (store k.user_locks m { k.user_locks m with s := 0 }) m
                    { k.user_locks m with s := 0, current_locker := some k.active_thread_index } } := by
      simp [lock_acquired, store, hlt]
    rw [hk]
    -- some mutex was held before, otherwise the ceiling would be 0xFFFFFFFF
    have hex : ∃ j, j < k.num_defined_locks ∧ mutex_is_locked (k.user_locks j) = true := by
      by_contra hno
      have := (h3 hno).1
      omega
    obtain ⟨x, x1, x2, x3, x4⟩ := h2 hex
    have hxm : x ≠ m := by
      intro hxm
      subst hxm
      rw [hfree] at x3
      cases x3
    refine ⟨?_, ?_, ?_, ?_⟩
    · intro j hj
      by_cases hjm : j = m
      · subst hjm; simpa [store] using hcm
      · simpa [store, hjm] using hres j hj
    · intro j hj hjl
      by_cases hjm : j = m
      · subst hjm
        simp only [store, if_true]
        omega
      · have hjl' : mutex_is_locked (k.user_locks j) = true := by simpa [store, hjm] using hjl
        simpa [store, hjm] using h1 j hj hjl'
    · intro _
      refine ⟨x, x1, x2, ?_, ?_⟩
      · simpa [store, hxm] using x3
      · simpa [store, hxm] using x4
    · intro hno
      exact absurd ⟨m, hm, by simp [store, mutex_is_locked]⟩ hno

theorem lock_attempt_ceiling (k : Kernel) (m : Nat) (hm : m < k.num_defined_locks)
    (h : ceilings_resolved k ∧ ceiling_inv k) :
    ceilings_resolved (syscall_lock_attempt k m).2 ∧ ceiling_inv (syscall_lock_attempt k m).2 := by
  unfold syscall_lock_attempt
  by_cases ht : may_try k = true
  · rw [if_pos ht]
    by_cases hs : (k.user_locks m).s = 0
    · have htry : mutex_try (k.user_locks m) = (1, k.user_locks m) := by simp [mutex_try, hs]
      simp only [htry, store_self]
      simp only [Nat.one_ne_zero, if_false]
      exact lock_blocked_ceiling k m h
    · have htry : mutex_try (k.user_locks m) = (0, { k.user_locks m with s := 0 }) := by
        simp [mutex_try, hs]
      simp only [htry, if_true]
      exact lock_acquired_ceiling k m hm (by simp [mutex_is_locked, hs]) h
  · rw [if_neg ht]
    exact lock_blocked_ceiling k m h

theorem lock_attempt_num_defined (k : Kernel) (m : Nat) :
    (syscall_lock_attempt k m).2.num_defined_locks = k.num_defined_locks := by
  unfold syscall_lock_attempt lock_acquired lock_blocked
  simp only
  split_ifs <;> rfl

/-- Where a call of `syscall_lock` leaves the kernel: as it was, as
`syscall_thread_end` leaves it, or as one evaluation of the loop leaves one of the
two. -/
theorem syscall_lock_cases (k : Kernel) (m : Nat) :
    (syscall_lock k m).2 = k ∨ (syscall_lock k m).2 = syscall_thread_end k ∨
    (syscall_lock k m).2 = (syscall_lock_attempt k m).2 ∨
    (syscall_lock k m).2 = (syscall_lock_attempt (syscall_thread_end k) m).2 := by
  unfold syscall_lock syscall_lock_entry lock_held_check
  split_ifs <;> simp

theorem lock_ceiling (k : Kernel) (m : Nat) (hm : m < k.num_defined_locks)
    (h : ceilings_resolved k ∧ ceiling_inv k) :
    ceilings_resolved (syscall_lock k m).2 ∧ ceiling_inv (syscall_lock k m).2 := by
  have hend := thread_end_ceiling k h
  rcases syscall_lock_cases k m with hc | hc | hc | hc <;> rw [hc]
  · exact h
  · exact hend.1
  · exact lock_attempt_ceiling _ m hm h
  · exact lock_attempt_ceiling _ m (by rw [hend.2]; exact hm) hend.1

theorem switch_to_frame (k : Kernel) (next_index msp frame_psp svc : Nat) :
    (switch_to k next_index msp frame_psp svc).2.user_locks = k.user_locks ∧
    (switch_to k next_index msp frame_psp svc).2.num_defined_locks = k.num_defined_locks ∧
    (switch_to k next_index msp frame_psp svc).2.global_priority_ceiling
      = k.global_priority_ceiling ∧
    (switch_to k next_index msp frame_psp svc).2.highest_priority_lock
      = k.highest_priority_lock ∧
    (switch_to k next_index msp frame_psp svc).2.num_user_threads = k.num_user_threads := by
  unfold switch_to
  split_ifs <;> exact ⟨rfl, rfl, rfl, rfl, rfl⟩

theorem schedule_rms_frame (k : Kernel) :
    (schedule_rms k).2.user_locks = k.user_locks ∧
    (schedule_rms k).2.num_defined_locks = k.num_defined_locks ∧
    (schedule_rms k).2.global_priority_ceiling = k.global_priority_ceiling ∧
    (schedule_rms k).2.highest_priority_lock = k.highest_priority_lock ∧
    (schedule_rms k).2.num_user_threads = k.num_user_threads := by
  unfold schedule_rms
  split_ifs <;> exact ⟨rfl, rfl, rfl, rfl, rfl⟩

/-- The PendSV handler touches neither the lock table nor the ceiling variables. -/
theorem pendsv_locks (k : Kernel) (msp frame_psp svc : Nat) :
    (PendSV_C_Handler k msp frame_psp svc).2.user_locks = k.user_locks ∧
    (PendSV_C_Handler k msp frame_psp svc).2.num_defined_locks = k.num_defined_locks ∧
    (PendSV_C_Handler k msp frame_psp svc).2.global_priority_ceiling = k.global_priority_ceiling ∧
    (PendSV_C_Handler k msp frame_psp svc).2.highest_priority_lock = k.highest_priority_lock ∧
    (PendSV_C_Handler k msp frame_psp svc).2.num_user_threads = k.num_user_threads := by
  unfold PendSV_C_Handler
  simp only
  by_cases hf : k.preemption_flag ≠ 0
  · rw [if_pos hf]
    obtain ⟨a1, a2, a3, a4, a5⟩ := switch_to_frame
      { (schedule_rms (charge_tick { k with pendsv := false })).2 with preemption_flag := 0 }
      (schedule_rms (charge_tick { k with pendsv := false })).1 msp frame_psp svc
    obtain ⟨b1, b2, b3, b4, b5⟩ := schedule_rms_frame (charge_tick { k with pendsv := false })
    rw [a1, a2, a3, a4, a5]
    simp only
    rw [b1, b2, b3, b4, b5]
    exact ⟨rfl, rfl, rfl, rfl, rfl⟩
  · rw [if_neg hf]
    obtain ⟨a1, a2, a3, a4, a5⟩ := switch_to_frame
      { (schedule_rms { k with pendsv := false }).2 with preemption_flag := 0 }
      (schedule_rms { k with pendsv := false }).1 msp frame_psp svc
    obtain ⟨b1, b2, b3, b4, b5⟩ := schedule_rms_frame { k with pendsv := false }
    rw [a1, a2, a3, a4, a5]
    simp only
    rw [b1, b2, b3, b4, b5]
    exact ⟨rfl, rfl, rfl, rfl, rfl⟩

/-- Every step of the running system keeps the ceiling invariant. -/
theorem kernel_step_ceiling (k k' : Kernel) (hs : kernel_step k k')
    (h : ceilings_resolved k ∧ ceiling_inv k) : ceilings_resolved k' ∧ ceiling_inv k' := by
  cases hs with
  | lock m hm => exact lock_ceiling k m hm h
  | lock_retry m hm => exact lock_attempt_ceiling k m hm h
  | unlock m hm => exact unlock_preserves_ceiling k m h
  | thread_end => exact (thread_end_ceiling k h).1
  | thread_yield =>
    exact ceiling_inv_transfer k _ (fun _ => rfl) (fun _ => rfl) rfl rfl rfl h
  | systick =>
    exact ceiling_inv_transfer k _ (fun _ => rfl) (fun _ => rfl) rfl rfl rfl h
  | pendsv msp frame_psp svc =>
    obtain ⟨p1, p2, p3, p4, _⟩ := pendsv_locks k msp frame_psp svc
    exact ceiling_inv_transfer k _ (fun j => by rw [p1]) (fun j => by rw [p1]) p2 p3 p4 h

/-- The state in which `syscall_multitask_start` pends the first switch has the
ceiling variables reset. -/
theorem start_resets_ceiling (k0 k1 : Kernel) (freq : Nat) (rv : Int)
    (hstart : syscall_multitask_start k0 freq rv = (SUCCESS, k1)) :
    k1.global_priority_ceiling = 0xFFFFFFFF ∧ k1.highest_priority_lock = none := by
  unfold syscall_multitask_start at hstart
  by_cases h1 : freq > SYSTICK_BASE_FREQUENCY
  · simp [h1, MULTITASK_START_INVALID_FREQ, SUCCESS] at hstart
  · by_cases h2 : k0.thread_define_called = 0
    · simp [h1, h2, MULTITASK_START_WITHOUT_THREAD, SUCCESS] at hstart
    · by_cases h3 : (validate_ceiling_id k0).1 = 0
      · simp [h1, h2, h3, LOCK_SPECIFIES_NONEXISTENT_HIGHEST_LOCKER, SUCCESS] at hstart
      · by_cases h4 : freq > 0 ∧ rv ≠ 0
        · rw [if_neg h1, if_neg h2] at hstart
          simp only [if_neg h3, if_pos h4, Prod.mk.injEq] at hstart
          exact absurd hstart.1 h4.2
        · rw [if_neg h1, if_neg h2] at hstart
          simp only [if_neg h3, if_neg h4, Prod.mk.injEq] at hstart
          rw [← hstart.2]
          exact ⟨rfl, rfl⟩

/-- C9.  Global ceiling invariant: from the state in which a successful
`multitask_start` pends the first switch, with every defined mutex free and every
ceiling resolved below `0xFFFFFFFF`, every state reached through lock, unlock,
thread_end, yield, SysTick and PendSV steps has `global_priority_ceiling` equal to
the least ceiling of the held defined mutexes (`0xFFFFFFFF` if none) and
`highest_priority_lock` pointing to a held mutex with that ceiling (null if none). -/
theorem C9_global_ceiling_invariant (k0 k1 k : Kernel) (freq : Nat) (rv : Int)
    (hstart : syscall_multitask_start k0 freq rv = (SUCCESS, k1))
    (hfree : ∀ m, m < k1.num_defined_locks → mutex_is_locked (k1.user_locks m) = false)
    (hres : ceilings_resolved k1)
    (hreach : Relation.ReflTransGen kernel_step k1 k) :
    ceiling_inv k := by
  have hinit : ceilings_resolved k1 ∧ ceiling_inv k1 := by
    obtain ⟨hc, hh⟩ := start_resets_ceiling k0 k1 freq rv hstart
    refine ⟨hres, ?_, ?_, ?_⟩
    · intro m hm hml
      rw [hfree m hm] at hml
      cases hml
    · rintro ⟨m, hm, hml⟩
      rw [hfree m hm] at hml
      cases hml
    · intro _
      exact ⟨hc, hh⟩
  have hall : ceilings_resolved k ∧ ceiling_inv k := by
    induction hreach with
    | refl => exact hinit
    | tail _ hstep ih => exact kernel_step_ceiling _ _ hstep ih
  exact hall.2

/-- The two priority predicates only read the priorities of the TCBs, the semaphores
and holders of the lock table and the two table sizes. -/
theorem priority_inv_transfer (k k' : Kernel)
    (hd : ∀ i, (k'.user_threads i).dynamic_priority = (k.user_threads i).dynamic_priority)
    (hst : ∀ i, (k'.user_threads i).static_priority = (k.user_threads i).static_priority)
    (hs : ∀ j, mutex_is_locked (k'.user_locks j) = mutex_is_locked (k.user_locks j))
    (hl : ∀ j, (k'.user_locks j).current_locker = (k.user_locks j).current_locker)
    (hn : k'.num_defined_locks = k.num_defined_locks)
    (hu : k'.num_user_threads = k.num_user_threads)
    (h : free_unowned k ∧ priority_inv k) : free_unowned k' ∧ priority_inv k' := by
  obtain ⟨hf, hp⟩ := h
  refine ⟨?_, ?_⟩
  · intro m hm hml
    rw [hn] at hm; rw [hs] at hml; rw [hl]
    exact hf m hm hml
  · intro i hi
    rw [hu] at hi
    rw [hd, hst]
    refine ⟨(hp i hi).1, fun hnone => (hp i hi).2 ?_⟩
    intro m hm
    rw [← hl]
    exact hnone m (by rw [hn]; exact hm)

/-- Waking the waiters changes no priority. -/
theorem wake_blocked_priority (bl : List Nat) (th : Nat → tcb_t) (i : Nat) :
    (wake_blocked th bl i).dynamic_priority = (th i).dynamic_priority ∧
    (wake_blocked th bl i).static_priority = (th i).static_priority := by
  induction bl generalizing th with
  | nil => exact ⟨rfl, rfl⟩
  | cons p bl ih =>
    unfold wake_blocked at ih ⊢
    rw [List.foldl_cons]
    obtain ⟨a1, a2⟩ := ih (wake_one th p)
    rw [a1, a2]
    unfold wake_one
    by_cases hip : i = p
    · subst hip; simp [store]
    · simp [store, hip]

/-- The innermost loop of `syscall_unlock`: only the dynamic priority of the caller
changes, and it becomes the least of its old value and the dynamic priorities of the
other TCBs of the list. -/
theorem reinherit_spec (bl : List Nat) (th : Nat → tcb_t) (a : Nat) :
    (∀ i, i ≠ a → reinherit th a bl i = th i) ∧
    (reinherit th a bl a).static_priority = (th a).static_priority ∧
    (reinherit th a bl a).dynamic_priority ≤ (th a).dynamic_priority ∧
    (∀ w, w ∈ bl → w ≠ a → (reinherit th a bl a).dynamic_priority ≤ (th w).dynamic_priority) ∧
    ((reinherit th a bl a).dynamic_priority = (th a).dynamic_priority ∨
      ∃ w, w ∈ bl ∧ w ≠ a ∧ (reinherit th a bl a).dynamic_priority = (th w).dynamic_priority) := by
  induction bl generalizing th with
  | nil =>
    refine ⟨fun _ _ => rfl, rfl, Nat.le_refl _, ?_, Or.inl rfl⟩
    intro w hw; cases hw
  | cons p bl ih =>
    have hunf : reinherit th a (p :: bl) = reinherit (inherit_from a th p) a bl := by
      unfold reinherit
      rw [List.foldl_cons]
    rw [hunf]
    obtain ⟨i1, i2, i3, i4, i5⟩ := ih (inherit_from a th p)
    have hsa : (inherit_from a th p a).dynamic_priority
        = MIN (th a).dynamic_priority (th p).dynamic_priority := by
      simp [inherit_from, store]
    have hss : (inherit_from a th p a).static_priority = (th a).static_priority := by
      simp [inherit_from, store]
    have hso : ∀ w, w ≠ a → inherit_from a th p w = th w := by
      intro w hw; simp [inherit_from, store, hw]
    have hmin1 : MIN (th a).dynamic_priority (th p).dynamic_priority ≤ (th a).dynamic_priority := by
      unfold MIN; split_ifs <;> omega
    have hmin2 : MIN (th a).dynamic_priority (th p).dynamic_priority ≤ (th p).dynamic_priority := by
      unfold MIN; split_ifs <;> omega
    have hmin3 : MIN (th a).dynamic_priority (th p).dynamic_priority = (th a).dynamic_priority ∨
        MIN (th a).dynamic_priority (th p).dynamic_priority = (th p).dynamic_priority := by
      unfold MIN; split_ifs
      · exact Or.inl rfl
      · exact Or.inr rfl
    rw [hsa] at i3 i5
    refine ⟨?_, ?_, ?_, ?_, ?_⟩
    · intro i hi
      rw [i1 i hi, hso i hi]
    · rw [i2, hss]
    · omega
    · intro w hw hwa
      rcases List.mem_cons.mp hw with hwp | hwb
      · subst hwp; omega
      · have := i4 w hwb hwa
        rw [hso w hwa] at this
        exact this
    · rcases i5 with h5 | ⟨w, hw, hwa, h5⟩
      · rcases hmin3 with h3 | h3
        · left; omega
        · by_cases hpa : p = a
          · subst hpa; left; omega
          · right
            exact ⟨p, List.mem_cons_self _ _, hpa, by omega⟩
      · right
        refine ⟨w, List.mem_cons_of_mem _ hw, hwa, ?_⟩
        rw [h5, hso w hwa]

/-- The table part of the scan of `syscall_unlock` over the first `n` locks: only the
dynamic priority of the caller `a` changes, and it becomes the least of its old
value and the dynamic priorities of the other TCBs waiting on the held mutexes whose
holder is `a`. -/
theorem unlock_scan_table (locks : Nat → mutex_t) (a : Nat) (th : Nat → tcb_t) (n : Nat) :
    (∀ i, i ≠ a → (unlock_scan locks a n th).1 i = th i) ∧
    ((unlock_scan locks a n th).1 a).static_priority = (th a).static_priority ∧
    ((unlock_scan locks a n th).1 a).dynamic_priority ≤ (th a).dynamic_priority ∧
    (∀ j, j < n → mutex_is_locked (locks j) = true → (locks j).current_locker = some a →
      ∀ w, w ∈ (locks j).blocked_threads → w ≠ a →
        ((unlock_scan locks a n th).1 a).dynamic_priority ≤ (th w).dynamic_priority) ∧
    (((unlock_scan locks a n th).1 a).dynamic_priority = (th a).dynamic_priority ∨
      ∃ j, j < n ∧ mutex_is_locked (locks j) = true ∧ (locks j).current_locker = some a ∧
        ∃ w, w ∈ (locks j).blocked_threads ∧ w ≠ a ∧
          ((unlock_scan locks a n th).1 a).dynamic_priority = (th w).dynamic_priority) := by
  induction n with
  | zero =>
    refine ⟨fun _ _ => rfl, rfl, Nat.le_refl _, ?_, Or.inl rfl⟩
    intro j hj; omega
  | succ n ih =>
    rw [unlock_scan_succ]
    generalize unlock_scan locks a n th = r at ih
    obtain ⟨t, g, h⟩ := r
    simp only at ih
    obtain ⟨i1, i2, i3, i4, i5⟩ := ih
    have htab : (unlock_scan_step locks a (t, g, h) n).1 =
        if mutex_is_locked (locks n) = true ∧ (locks n).current_locker = some a
        then reinherit t a (locks n).blocked_threads else t := by
      unfold unlock_scan_step
      simp only
      split_ifs with c1 c2 c3 c4 <;> first | rfl | (exfalso; tauto)
    rw [htab]
    by_cases hc : mutex_is_locked (locks n) = true ∧ (locks n).current_locker = some a
    · rw [if_pos hc]
      obtain ⟨r1, r2, r3, r4, r5⟩ := reinherit_spec (locks n).blocked_threads t a
      refine ⟨?_, ?_, ?_, ?_, ?_⟩
      · intro i hi; rw [r1 i hi, i1 i hi]
      · rw [r2, i2]
      · omega
      · intro j hj hjl hjo w hw hwa
        rcases Nat.lt_succ_iff_lt_or_eq.mp hj with hh | hh
        · have := i4 j hh hjl hjo w hw hwa; omega
        · subst hh
          have := r4 w hw hwa
          rw [i1 w hwa] at this
          exact this
      · rcases r5 with h5 | ⟨w, hw, hwa, h5⟩
        · rcases i5 with h6 | ⟨j, hj, hjl, hjo, w, hw, hwa, h6⟩
          · left; omega
          · right
            exact ⟨j, Nat.lt_succ_of_lt hj, hjl, hjo, w, hw, hwa, by omega⟩
        · right
          refine ⟨n, Nat.lt_succ_self n, hc.1, hc.2, w, hw, hwa, ?_⟩
          rw [h5, i1 w hwa]
    · rw [if_neg hc]
      refine ⟨i1, i2, i3, ?_, ?_⟩
      · intro j hj hjl hjo w hw hwa
        rcases Nat.lt_succ_iff_lt_or_eq.mp hj with hh | hh
        · exact i4 j hh hjl hjo w hw hwa
        · subst hh; exact absurd ⟨hjl, hjo⟩ hc
      · rcases i5 with h6 | ⟨j, hj, hjl, hjo, w, hw, hwa, h6⟩
        · exact Or.inl h6
        · exact Or.inr ⟨j, Nat.lt_succ_of_lt hj, hjl, hjo, w, hw, hwa, h6⟩

/-- The TCB table after `syscall_unlock` on a held mutex. -/
theorem unlock_threads (k : Kernel) (m : Nat) (h : mutex_is_locked (k.user_locks m) = true) :
    (syscall_unlock k m).user_threads =
      store
        (unlock_scan (store k.user_locks m (release_mutex (k.user_locks m)))
          k.active_thread_index k.num_defined_locks
          (reset_priority (wake_blocked k.user_threads (k.user_locks m).blocked_threads)
            k.active_thread_index)).1
        k.active_thread_index
        { (unlock_scan (store k.user_locks m (release_mutex (k.user_locks m)))
            k.active_thread_index k.num_defined_locks
            (reset_priority (wake_blocked k.user_threads (k.user_locks m).blocked_threads)
              k.active_thread_index)).1 k.active_thread_index with state := ThreadReady } := by
  unfold syscall_unlock
  rw [if_neg (by simp [h])]

/-- What `syscall_unlock` on a held mutex does to the priorities: those of the other
TCBs are unchanged, the static priority of the caller is unchanged, and the
dynamic priority of the caller is the least of its static priority and the dynamic
priorities of the other TCBs waiting on the mutexes it still holds. -/
theorem unlock_priorities (k : Kernel) (m : Nat) (h : mutex_is_locked (k.user_locks m) = true) :
    (∀ i, i ≠ k.active_thread_index →
      ((syscall_unlock k m).user_threads i).dynamic_priority
        = (k.user_threads i).dynamic_priority) ∧
    (∀ i, ((syscall_unlock k m).user_threads i).static_priority
        = (k.user_threads i).static_priority) ∧
    ((syscall_unlock k m).user_threads k.active_thread_index).dynamic_priority
      ≤ (k.user_threads k.active_thread_index).static_priority ∧
    (∀ j, j < k.num_defined_locks →
      mutex_is_locked ((syscall_unlock k m).user_locks j) = true →
      ((syscall_unlock k m).user_locks j).current_locker = some k.active_thread_index →
      ∀ w, w ∈ ((syscall_unlock k m).user_locks j).blocked_threads →
        ((syscall_unlock k m).user_threads k.active_thread_index).dynamic_priority
          ≤ ((syscall_unlock k m).user_threads w).dynamic_priority) ∧
    (((syscall_unlock k m).user_threads k.active_thread_index).dynamic_priority
        = (k.user_threads k.active_thread_index).static_priority ∨
      ∃ j, j < k.num_defined_locks ∧
        mutex_is_locked ((syscall_unlock k m).user_locks j) = true ∧
        ((syscall_unlock k m).user_locks j).current_locker = some k.active_thread_index ∧
        ∃ w, w ∈ ((syscall_unlock k m).user_locks j).blocked_threads ∧
          ((syscall_unlock k m).user_threads k.active_thread_index).dynamic_priority
            = ((syscall_unlock k m).user_threads w).dynamic_priority) := by
  have hth := unlock_threads k m h
  have hlk := unlock_locks k m h
  obtain ⟨t1, t2, t3, t4, t5⟩ := unlock_scan_table
    (store k.user_locks m (release_mutex (k.user_locks m))) k.active_thread_index
    (reset_priority (wake_blocked k.user_threads (k.user_locks m).blocked_threads)
      k.active_thread_index) k.num_defined_locks
  generalize unlock_scan (store k.user_locks m (release_mutex (k.user_locks m)))
    k.active_thread_index k.num_defined_locks
    (reset_priority (wake_blocked k.user_threads (k.user_locks m).blocked_threads)
      k.active_thread_index) = r at hth t1 t2 t3 t4 t5
  have hw := wake_blocked_priority (k.user_locks m).blocked_threads k.user_threads
  -- the table the scan starts from
  have hr_a_dyn : (reset_priority (wake_blocked k.user_threads (k.user_locks m).blocked_threads)
      k.active_thread_index k.active_thread_index).dynamic_priority
      = (k.user_threads k.active_thread_index).static_priority := by
    simp [reset_priority, store, (hw k.active_thread_index).2]
  have hr_a_st : (reset_priority (wake_blocked k.user_threads (k.user_locks m).blocked_threads)
      k.active_thread_index k.active_thread_index).static_priority
      = (k.user_threads k.active_thread_index).static_priority := by
    simp [reset_priority, store, (hw k.active_thread_index).2]
  have hr_o : ∀ i, i ≠ k.active_thread_index →
      (reset_priority (wake_blocked k.user_threads (k.user_locks m).blocked_threads)
        k.active_thread_index i).dynamic_priority = (k.user_threads i).dynamic_priority ∧
      (reset_priority (wake_blocked k.user_threads (k.user_locks m).blocked_threads)
        k.active_thread_index i).static_priority = (k.user_threads i).static_priority := by
    intro i hi
    simp [reset_priority, store, hi, (hw i).1, (hw i).2]
  -- the final table
  have hf_a : ((syscall_unlock k m).user_threads k.active_thread_index).dynamic_priority
      = (r.1 k.active_thread_index).dynamic_priority ∧
      ((syscall_unlock k m).user_threads k.active_thread_index).static_priority
      = (r.1 k.active_thread_index).static_priority := by
    rw [hth]; simp [store]
  have hf_o : ∀ i, i ≠ k.active_thread_index → (syscall_unlock k m).user_threads i = r.1 i := by
    intro i hi
    rw [hth]; simp [store, hi]
  have hdyn_o : ∀ i, i ≠ k.active_thread_index →
      ((syscall_unlock k m).user_threads i).dynamic_priority
        = (k.user_threads i).dynamic_priority := by
    intro i hi
    rw [hf_o i hi, t1 i hi, (hr_o i hi).1]
  rw [hr_a_dyn] at t3 t5
  rw [hr_a_st] at t2
  refine ⟨hdyn_o, ?_, ?_, ?_, ?_⟩
  · intro i
    by_cases hi : i = k.active_thread_index
    · subst hi; rw [hf_a.2, t2]
    · rw [hf_o i hi, t1 i hi, (hr_o i hi).2]
  · rw [hf_a.1]; exact t3
  · intro j hj hjl hjo w hw'
    rw [hlk] at hjl hjo hw'
    by_cases hwa : w = k.active_thread_index
    · subst hwa; exact Nat.le_refl _
    · rw [hf_a.1, hdyn_o w hwa]
      have := t4 j hj hjl hjo w hw' hwa
      rw [(hr_o w hwa).1] at this
      exact this
  · rcases t5 with h5 | ⟨j, hj, hjl, hjo, w, hw', hwa, h5⟩
    · left; rw [hf_a.1]; exact h5
    · right
      refine ⟨j, hj, by rw [hlk]; exact hjl, by rw [hlk]; exact hjo, w, by rw [hlk]; exact hw', ?_⟩
      rw [hf_a.1, hdyn_o w hwa, h5, (hr_o w hwa).1]

/-- `syscall_unlock` called by the holder keeps the priority invariant. -/
theorem unlock_owner_priority (k : Kernel) (m : Nat)
    (hown : (k.user_locks m).current_locker = some k.active_thread_index)
    (h : free_unowned k ∧ priority_inv k) :
    free_unowned (syscall_unlock k m) ∧ priority_inv (syscall_unlock k m) := by
  by_cases hl : mutex_is_locked (k.user_locks m) = true
  · obtain ⟨hf, hp⟩ := h
    have hlk := unlock_locks k m hl
    have hnd := unlock_num_defined k m
    have hnu := unlock_num_user_threads k m
    obtain ⟨p1, p2, p3, _, p5⟩ := unlock_priorities k m hl
    refine ⟨?_, ?_⟩
    · intro j hj hjl
      rw [hnd] at hj
      rw [hlk] at hjl ⊢
      by_cases hjm : j = m
      · subst hjm; simp [store, release_mutex]
      · simp only [store, hjm, if_false] at hjl ⊢
        exact hf j hj hjl
    · intro i hi
      rw [hnu] at hi
      by_cases hia : i = k.active_thread_index
      · subst hia
        rw [p2]
        refine ⟨p3, fun hnone => ?_⟩
        rcases p5 with h5 | ⟨j, hj, _, hjo, _⟩
        · exact h5
        · exact absurd hjo (hnone j (by rw [hnd]; exact hj))
      · rw [p1 i hia, p2]
        refine ⟨(hp i hi).1, fun hnone => (hp i hi).2 ?_⟩
        intro j hj
        by_cases hjm : j = m
        · subst hjm
          rw [hown]
          intro hc
          exact hia (Option.some.inj hc).symm
        · have := hnone j (by rw [hnd]; exact hj)
          rw [hlk] at this
          simpa [store, hjm] using this
  · have h' : mutex_is_locked (k.user_locks m) = false := by simpa using hl
    rw [unlock_free k m h']
    exact h

theorem thread_end_release_priority (k : Kernel) (index : Nat)
    (h : free_unowned k ∧ priority_inv k) :
    free_unowned (thread_end_release k index) ∧ priority_inv (thread_end_release k index) := by
  unfold thread_end_release
  split_ifs with hc
  · exact unlock_owner_priority k index hc h
  · exact h

theorem thread_end_fold_priority (n : Nat) (k : Kernel)
    (h : free_unowned k ∧ priority_inv k) :
    free_unowned ((List.range n).foldl thread_end_release k) ∧
      priority_inv ((List.range n).foldl thread_end_release k) := by
  induction n with
  | zero => exact h
  | succ n ih =>
    rw [List.range_succ, List.foldl_append]
    simp only [List.foldl_cons, List.foldl_nil]
    exact thread_end_release_priority _ n ih

theorem thread_end_priority (k : Kernel) (h : free_unowned k ∧ priority_inv k) :
    free_unowned (syscall_thread_end k) ∧ priority_inv (syscall_thread_end k) := by
  unfold syscall_thread_end
  split_ifs
  · exact h
  · have hf := thread_end_fold_priority k.num_user_locks k h
    refine priority_inv_transfer ((List.range k.num_user_locks).foldl thread_end_release k) _
      ?_ ?_ (fun _ => rfl) (fun _ => rfl) rfl rfl hf
    · intro i
      by_cases hi : i = ((List.range k.num_user_locks).foldl thread_end_release k).active_thread_index
      · subst hi; simp [store]
      · simp [store, hi]
    · intro i
      by_cases hi : i = ((List.range k.num_user_locks).foldl thread_end_release k).active_thread_index
      · subst hi; simp [store]
      · simp [store, hi]

theorem MIN_le_left (a b : Nat) : MIN a b ≤ a := by
  unfold MIN; split_ifs <;> omega

theorem inherit_from_priority (l : Nat) (th : Nat → tcb_t) (p i : Nat) :
    (inherit_from l th p i).static_priority = (th i).static_priority ∧
    (i ≠ l → (inherit_from l th p i).dynamic_priority = (th i).dynamic_priority) ∧
    (inherit_from l th p i).dynamic_priority ≤ (th i).dynamic_priority := by
  unfold inherit_from
  by_cases h : i = l
  · subst h
    refine ⟨by simp [store], fun hne => absurd rfl hne, ?_⟩
    simp only [store, if_true]
    exact MIN_le_left _ _
  · simp [store, h]

theorem block_caller_priority (th : Nat → tcb_t) (a i : Nat) :
    (block_caller th a i).static_priority = (th i).static_priority ∧
    (block_caller th a i).dynamic_priority = (th i).dynamic_priority := by
  unfold block_caller
  by_cases h : i = a
  · subst h; simp [store]
  · simp [store, h]

/-- The priorities after the loop body of `syscall_lock`: static priorities are
unchanged, and the only dynamic priority that may change is that of the holder of
`m`, which can only get smaller. -/
theorem lock_blocked_threads (k : Kernel) (m i : Nat) :
    ((lock_blocked k m).user_threads i).static_priority = (k.user_threads i).static_priority ∧
    ((lock_blocked k m).user_threads i).dynamic_priority ≤ (k.user_threads i).dynamic_priority ∧
    ((k.user_locks m).current_locker ≠ some i →
      ((lock_blocked k m).user_threads i).dynamic_priority
        = (k.user_threads i).dynamic_priority) := by
  have e : (lock_blocked k m).user_threads =
      match ((lock_blocked k m).user_locks m).current_locker with
      | some l => inherit_from l (block_caller k.user_threads k.active_thread_index)
          k.active_thread_index
      | none => block_caller k.user_threads k.active_thread_index := rfl
  rw [e, (lock_blocked_locks k m m).2.2]
  obtain ⟨b1, b2⟩ := block_caller_priority k.user_threads k.active_thread_index i
  cases hq : (k.user_locks m).current_locker with
  | none =>
    simp only
    exact ⟨b1, by rw [b2], fun _ => b2⟩
  | some l =>
    simp only
    obtain ⟨c1, c2, c3⟩ := inherit_from_priority l
      (block_caller k.user_threads k.active_thread_index) k.active_thread_index i
    refine ⟨by rw [c1, b1], by rw [← b2]; exact c3, fun hne => ?_⟩
    have hil : i ≠ l := by
      intro hil
      subst hil
      exact hne rfl
    rw [c2 hil, b2]

/-- The loop body of `syscall_lock` on a defined mutex keeps the priority invariant:
the only priority it lowers is that of the holder of `m`. -/
theorem lock_blocked_priority (k : Kernel) (m : Nat) (hm : m < k.num_defined_locks)
    (h : free_unowned k ∧ priority_inv k) :
    free_unowned (lock_blocked k m) ∧ priority_inv (lock_blocked k m) := by
  obtain ⟨hf, hp⟩ := h
  refine ⟨?_, ?_⟩
  · intro j hj hjl
    rw [(lock_blocked_locks k m j).1] at hjl
    rw [(lock_blocked_locks k m j).2.2]
    exact hf j hj hjl
  · intro i hi
    obtain ⟨t1, t2, t3⟩ := lock_blocked_threads k m i
    rw [t1]
    have hnone_back : holds_none (lock_blocked k m) i → holds_none k i := by
      intro hn j hj
      rw [← (lock_blocked_locks k m j).2.2]
      exact hn j hj
    refine ⟨Nat.le_trans t2 (hp i hi).1, fun hn => ?_⟩
    rw [t3 (hnone_back hn m hm)]
    exact (hp i hi).2 (hnone_back hn)

/-- Taking a free defined mutex keeps the priority invariant. -/
theorem lock_acquired_priority (k : Kernel) (m : Nat) (hm : m < k.num_defined_locks)
    (hfree : mutex_is_locked (k.user_locks m) = false)
    (h : free_unowned k ∧ priority_inv k) :
    free_unowned
        (lock_acquired { k with user_locks := store k.user_locks m { k.user_locks m with s := 0 } } m) ∧
      priority_inv
        (lock_acquired { k with user_locks := store k.user_locks m { k.user_locks m with s := 0 } } m) := by
  obtain ⟨hf, hp⟩ := h
  have hlocks : ∀ j, j ≠ m →
      (lock_acquired { k with user_locks := store k.user_locks m { k.user_locks m with s := 0 } }
        m).user_locks j = k.user_locks j := by
    intro j hj
    unfold lock_acquired
    simp only
    split_ifs <;> simp [store, hj]
  have hlockm : mutex_is_locked
      ((lock_acquired { k with user_locks := store k.user_locks m { k.user_locks m with s := 0 } }
        m).user_locks m) = true := by
    unfold lock_acquired
    simp only
    split_ifs <;> simp [store, mutex_is_locked]
  have hth : (lock_acquired { k with user_locks := store k.user_locks m { k.user_locks m with s := 0 } }
        m).user_threads = k.user_threads := by
    unfold lock_acquired
    simp only
    split_ifs <;> rfl
  have hnd : (lock_acquired { k with user_locks := store k.user_locks m { k.user_locks m with s := 0 } }
        m).num_defined_locks = k.num_defined_locks := by
    unfold lock_acquired
    simp only
    split_ifs <;> rfl
  have hnu : (lock_acquired { k with user_locks := store k.user_locks m { k.user_locks m with s := 0 } }
        m).num_user_threads = k.num_user_threads := by
    unfold lock_acquired
    simp only
    split_ifs <;> rfl
  refine ⟨?_, ?_⟩
  · intro j hj hjl
    rw [hnd] at hj
    by_cases hjm : j = m
    · subst hjm
      rw [hlockm] at hjl
      cases hjl
    · rw [hlocks j hjm] at hjl ⊢
      exact hf j hj hjl
  · intro i hi
    rw [hnu] at hi
    rw [hth]
    refine ⟨(hp i hi).1, fun hn => (hp i hi).2 ?_⟩
    intro j hj
    by_cases hjm : j = m
    · subst hjm
      rw [hf j hj hfree]
      simp
    · rw [← hlocks j hjm]
      exact hn j (by rw [hnd]; exact hj)

theorem lock_attempt_priority (k : Kernel) (m : Nat) (hm : m < k.num_defined_locks)
    (h : free_unowned k ∧ priority_inv k) :
    free_unowned (syscall_lock_attempt k m).2 ∧ priority_inv (syscall_lock_attempt k m).2 := by
  unfold syscall_lock_attempt
  by_cases ht : may_try k = true
  · rw [if_pos ht]
    by_cases hs : (k.user_locks m).s = 0
    · have htry : mutex_try (k.user_locks m) = (1, k.user_locks m) := by simp [mutex_try, hs]
      simp only [htry, store_self]
      simp only [Nat.one_ne_zero, if_false]
      exact lock_blocked_priority k m hm h
    · have htry : mutex_try (k.user_locks m) = (0, { k.user_locks m with s := 0 }) := by
        simp [mutex_try, hs]
      simp only [htry, if_true]
      exact lock_acquired_priority k m hm (by simp [mutex_is_locked, hs]) h
  · rw [if_neg ht]
    exact lock_blocked_priority k m hm h

theorem thread_end_num_defined (k : Kernel) :
    (syscall_thread_end k).num_defined_locks = k.num_defined_locks := by
  unfold syscall_thread_end
  split_ifs
  · rfl
  · have : ∀ n, ((List.range n).foldl thread_end_release k).num_defined_locks
        = k.num_defined_locks := by
      intro n
      induction n with
      | zero => rfl
      | succ n ih =>
        rw [List.range_succ, List.foldl_append]
        simp only [List.foldl_cons, List.foldl_nil]
        rw [thread_end_release_num_defined, ih]
    exact this k.num_user_locks

theorem lock_priority (k : Kernel) (m : Nat) (hm : m < k.num_defined_locks)
    (h : free_unowned k ∧ priority_inv k) :
    free_unowned (syscall_lock k m).2 ∧ priority_inv (syscall_lock k m).2 := by
  have hend := thread_end_priority k h
  rcases syscall_lock_cases k m with hc | hc | hc | hc <;> rw [hc]
  · exact h
  · exact hend
  · exact lock_attempt_priority _ m hm h
  · exact lock_attempt_priority _ m (by rw [thread_end_num_defined k]; exact hm) hend

/-- A pass of `schedule_rms` changes no priority. -/
theorem schedule_rms_fold_priority (flag : Nat) (l : List Nat)
    (acc : (Nat → tcb_t) × Nat × Nat) (i : Nat) :
    ((l.foldl (schedule_rms_step flag) acc).1 i).dynamic_priority = (acc.1 i).dynamic_priority ∧
    ((l.foldl (schedule_rms_step flag) acc).1 i).static_priority = (acc.1 i).static_priority := by
  induction l generalizing acc with
  | nil => exact ⟨rfl, rfl⟩
  | cons x l ih =>
    rw [List.foldl_cons]
    obtain ⟨a1, a2⟩ := ih (schedule_rms_step flag acc x)
    rw [a1, a2]
    unfold schedule_rms_step
    simp only
    by_cases hix : i = x
    · subst hix
      split_ifs <;> simp [store]
    · split_ifs <;> simp [store, hix]

/-- A store that keeps the two priorities of the slot keeps them everywhere. -/
theorem store_priority (th : Nat → tcb_t) (a : Nat) (v : tcb_t)
    (hd : v.dynamic_priority = (th a).dynamic_priority)
    (hs : v.static_priority = (th a).static_priority) (i : Nat) :
    (store th a v i).dynamic_priority = (th i).dynamic_priority ∧
    (store th a v i).static_priority = (th i).static_priority := by
  by_cases h : i = a
  · subst h; simp [store, hd, hs]
  · simp [store, h]

theorem charge_tick_priority (k : Kernel) (i : Nat) :
    ((charge_tick k).user_threads i).dynamic_priority = (k.user_threads i).dynamic_priority ∧
    ((charge_tick k).user_threads i).static_priority = (k.user_threads i).static_priority := by
  unfold charge_tick
  simp only
  apply store_priority
  · split_ifs <;> rfl
  · split_ifs <;> rfl

theorem schedule_rms_priority (k : Kernel) (i : Nat) :
    ((schedule_rms k).2.user_threads i).dynamic_priority = (k.user_threads i).dynamic_priority ∧
    ((schedule_rms k).2.user_threads i).static_priority = (k.user_threads i).static_priority := by
  unfold schedule_rms
  split_ifs
  · exact ⟨rfl, rfl⟩
  · exact schedule_rms_fold_priority k.preemption_flag (List.range k.num_user_threads)
      (k.user_threads, 0xFFFFFFFF, k.num_user_threads) i

theorem mark_running_priority (th : Nat → tcb_t) (a i : Nat) :
    (mark_running th a i).dynamic_priority = (th i).dynamic_priority ∧
    (mark_running th a i).static_priority = (th i).static_priority := by
  unfold mark_running
  apply store_priority <;> rfl

theorem save_context_priority (th : Nat → tcb_t) (a msp frame_psp svc i : Nat) :
    (save_context th a msp frame_psp svc i).dynamic_priority = (th i).dynamic_priority ∧
    (save_context th a msp frame_psp svc i).static_priority = (th i).static_priority := by
  unfold save_context
  apply store_priority <;> rfl

/-- The tail of `PendSV_C_Handler` after the scheduler pass changes no priority. -/
theorem switch_to_priority (k : Kernel) (next_index msp frame_psp svc i : Nat) :
    ((switch_to k next_index msp frame_psp svc).2.user_threads i).dynamic_priority
      = (k.user_threads i).dynamic_priority ∧
    ((switch_to k next_index msp frame_psp svc).2.user_threads i).static_priority
      = (k.user_threads i).static_priority := by
  unfold switch_to
  split_ifs
  · exact mark_running_priority k.user_threads k.active_thread_index i
  · obtain ⟨a1, a2⟩ := mark_running_priority
      (save_context k.user_threads k.active_thread_index msp frame_psp svc) (u8 next_index) i
    obtain ⟨b1, b2⟩ := save_context_priority k.user_threads k.active_thread_index
      msp frame_psp svc i
    exact ⟨by rw [← b1]; exact a1, by rw [← b2]; exact a2⟩

theorem pendsv_priority (k : Kernel) (msp frame_psp svc : Nat) (i : Nat) :
    ((PendSV_C_Handler k msp frame_psp svc).2.user_threads i).dynamic_priority
      = (k.user_threads i).dynamic_priority ∧
    ((PendSV_C_Handler k msp frame_psp svc).2.user_threads i).static_priority
      = (k.user_threads i).static_priority := by
  unfold PendSV_C_Handler
  simp only
  by_cases hf : k.preemption_flag ≠ 0
  · rw [if_pos hf]
    obtain ⟨t1, t2⟩ := switch_to_priority
      { (schedule_rms (charge_tick { k with pendsv := false })).2 with preemption_flag := 0 }
      (schedule_rms (charge_tick { k with pendsv := false })).1 msp frame_psp svc i
    obtain ⟨s1, s2⟩ := schedule_rms_priority (charge_tick { k with pendsv := false }) i
    obtain ⟨c1, c2⟩ := charge_tick_priority { k with pendsv := false } i
    rw [t1, t2]
    simp only
    rw [s1, s2, c1, c2]
    exact ⟨rfl, rfl⟩
  · rw [if_neg hf]
    obtain ⟨t1, t2⟩ := switch_to_priority
      { (schedule_rms { k with pendsv := false }).2 with preemption_flag := 0 }
      (schedule_rms { k with pendsv := false }).1 msp frame_psp svc i
    obtain ⟨s1, s2⟩ := schedule_rms_priority { k with pendsv := false } i
    rw [t1, t2]
    simp only
    rw [s1, s2]
    exact ⟨rfl, rfl⟩

theorem yield_priority (k : Kernel) (i : Nat) :
    ((syscall_thread_yield k).user_threads i).dynamic_priority
      = (k.user_threads i).dynamic_priority ∧
    ((syscall_thread_yield k).user_threads i).static_priority
      = (k.user_threads i).static_priority := by
  unfold syscall_thread_yield
  simp only
  split_ifs
  · apply store_priority <;> rfl
  · exact ⟨rfl, rfl⟩

/-- Every step in which `unlock` is called by the holder keeps the priority
invariant. -/
theorem owner_step_priority (k k' : Kernel) (hs : owner_step k k')
    (h : free_unowned k ∧ priority_inv k) : free_unowned k' ∧ priority_inv k' := by
  cases hs with
  | lock m hm => exact lock_priority k m hm h
  | lock_retry m hm => exact lock_attempt_priority k m hm h
  | unlock m hm hown => exact unlock_owner_priority k m hown h
  | thread_end => exact thread_end_priority k h
  | thread_yield =>
    exact priority_inv_transfer k _ (fun i => (yield_priority k i).1)
      (fun i => (yield_priority k i).2) (fun _ => rfl) (fun _ => rfl) rfl rfl h
  | systick =>
    exact priority_inv_transfer k _ (fun _ => rfl) (fun _ => rfl) (fun _ => rfl) (fun _ => rfl)
      rfl rfl h
  | pendsv msp frame_psp svc =>
    obtain ⟨p1, p2, _, _, p5⟩ := pendsv_locks k msp frame_psp svc
    exact priority_inv_transfer k _ (fun i => (pendsv_priority k msp frame_psp svc i).1)
      (fun i => (pendsv_priority k msp frame_psp svc i).2) (fun j => by rw [p1])
      (fun j => by rw [p1]) p2 p5 h

/-- C10 (amended).  From a state in which every user TCB has its dynamic priority
equal to its static priority and every free mutex has no holder, every state
reached through lock, thread_end, yield, SysTick and PendSV steps and through
`unlock` calls made by the holder of the mutex satisfies: each user TCB has
`dynamic_priority ≤ static_priority`, with equality when it is the `current_locker`
of no defined mutex.  After `unlock` of a held mutex the caller's dynamic priority
is the minimum of its static priority and the dynamic priorities of the waiters on
the mutexes it still holds. -/
theorem C10_dynamic_priority_invariant (k1 k : Kernel)
    (hfree : free_unowned k1)
    (hinit : ∀ i, i < k1.num_user_threads →
      (k1.user_threads i).dynamic_priority = (k1.user_threads i).static_priority)
    (hreach : Relation.ReflTransGen owner_step k1 k) :
    priority_inv k ∧
    (∀ m, mutex_is_locked (k.user_locks m) = true →
      ((syscall_unlock k m).user_threads k.active_thread_index).dynamic_priority
        ≤ ((syscall_unlock k m).user_threads k.active_thread_index).static_priority ∧
      (∀ j, j < k.num_defined_locks →
        mutex_is_locked ((syscall_unlock k m).user_locks j) = true →
        ((syscall_unlock k m).user_locks j).current_locker = some k.active_thread_index →
        ∀ w, w ∈ ((syscall_unlock k m).user_locks j).blocked_threads →
          ((syscall_unlock k m).user_threads k.active_thread_index).dynamic_priority
            ≤ ((syscall_unlock k m).user_threads w).dynamic_priority) ∧
      (((syscall_unlock k m).user_threads k.active_thread_index).dynamic_priority
          = ((syscall_unlock k m).user_threads k.active_thread_index).static_priority ∨
        ∃ j, j < k.num_defined_locks ∧
          mutex_is_locked ((syscall_unlock k m).user_locks j) = true ∧
          ((syscall_unlock k m).user_locks j).current_locker = some k.active_thread_index ∧
          ∃ w, w ∈ ((syscall_unlock k m).user_locks j).blocked_threads ∧
            ((syscall_unlock k m).user_threads k.active_thread_index).dynamic_priority
              = ((syscall_unlock k m).user_threads w).dynamic_priority)) := by
  have hinit' : free_unowned k1 ∧ priority_inv k1 :=
    ⟨hfree, fun i hi => ⟨Nat.le_of_eq (hinit i hi), fun _ => hinit i hi⟩⟩
  have hall : free_unowned k ∧ priority_inv k := by
    induction hreach with
    | refl => exact hinit'
    | tail _ hstep ih => exact owner_step_priority _ _ hstep ih
  refine ⟨hall.2, fun m hm => ?_⟩
  obtain ⟨_, p2, p3, p4, p5⟩ := unlock_priorities k m hm
  rw [p2]
  exact ⟨p3, p4, p5⟩

theorem reach_switch (k0 k : Kernel) (h : Relation.ReflTransGen kernel_step k0 k) :
    Relation.ReflTransGen kernel_step k0 (context_switch k) :=
  Relation.ReflTransGen.tail h (kernel_step.pendsv k 0 0 0)

theorem reach_tick (k0 k : Kernel) (h : Relation.ReflTransGen kernel_step k0 k) :
    Relation.ReflTransGen kernel_step k0 (tick k) :=
  reach_switch k0 (systick_tick k) (Relation.ReflTransGen.tail h (kernel_step.systick k))

theorem reach_lock (k0 k : Kernel) (m : Nat) (hm : m < k.num_defined_locks)
    (h : Relation.ReflTransGen kernel_step k0 k) :
    Relation.ReflTransGen kernel_step k0 (syscall_lock k m).2 :=
  Relation.ReflTransGen.tail h (kernel_step.lock k m hm)

theorem owner_reach_switch (k0 k : Kernel) (h : Relation.ReflTransGen owner_step k0 k) :
    Relation.ReflTransGen owner_step k0 (context_switch k) :=
  Relation.ReflTransGen.tail h (owner_step.pendsv k 0 0 0)

theorem owner_reach_tick (k0 k : Kernel) (h : Relation.ReflTransGen owner_step k0 k) :
    Relation.ReflTransGen owner_step k0 (tick k) :=
  owner_reach_switch k0 (systick_tick k) (Relation.ReflTransGen.tail h (owner_step.systick k))

theorem owner_reach_lock (k0 k : Kernel) (m : Nat) (hm : m < k.num_defined_locks)
    (h : Relation.ReflTransGen owner_step k0 k) :
    Relation.ReflTransGen owner_step k0 (syscall_lock k m).2 :=
  Relation.ReflTransGen.tail h (owner_step.lock k m hm)

/-- The state `ceiling_block_state` is reached from the start of `two_task_setup`. -/
theorem ceiling_block_reachable :
    Relation.ReflTransGen kernel_step (after_start two_task_setup) ceiling_block_state :=
  reach_tick _ _ (reach_lock _ _ 0 (by decide!)
    (reach_tick _ _ (reach_switch _ _ Relation.ReflTransGen.refl)))

/-- C9, witness: in `ceiling_block_state`, where L holds mutex 0 of ceiling 0, the
global ceiling is 0 and `highest_priority_lock` is mutex 0. -/
theorem C9_global_ceiling_invariant_witness :
    ceiling_inv ceiling_block_state ∧ ceiling_block_state.global_priority_ceiling = 0 ∧
    ceiling_block_state.highest_priority_lock = some 0 :=
  ⟨C9_global_ceiling_invariant two_task_setup (after_start two_task_setup) ceiling_block_state
      1 0 (Prod.ext (by decide!) rfl) (by decide!) (by unfold ceilings_resolved; decide!)
      ceiling_block_reachable,
    by decide!, by decide!⟩

/-- The state `inherit_state` is reached from `foreign_start` by steps in which no
`unlock` is called. -/
theorem inherit_state_reachable :
    Relation.ReflTransGen owner_step foreign_start inherit_state :=
  owner_reach_switch _ _ (owner_reach_lock _ _ 0 (by decide!)
    (owner_reach_tick _ _ (owner_reach_lock _ _ 0 (by decide!)
      (owner_reach_tick _ _ (owner_reach_tick _ _
        (owner_reach_switch _ _ Relation.ReflTransGen.refl))))))

theorem owner_step_kernel_step (k k' : Kernel) (h : owner_step k k') : kernel_step k k' := by
  cases h with
  | lock m hm => exact kernel_step.lock k m hm
  | lock_retry m hm => exact kernel_step.lock_retry k m hm
  | unlock m hm _ => exact kernel_step.unlock k m hm
  | thread_end => exact kernel_step.thread_end k
  | thread_yield => exact kernel_step.thread_yield k
  | systick => exact kernel_step.systick k
  | pendsv msp frame_psp svc => exact kernel_step.pendsv k msp frame_psp svc

/-- C10, witness: in `inherit_state` slot 0 holds the mutex with the inherited
dynamic priority 0 below its static priority 2. -/
theorem C10_dynamic_priority_invariant_witness :
    priority_inv inherit_state ∧
    (inherit_state.user_threads 0).dynamic_priority = 0 ∧
    (inherit_state.user_threads 0).static_priority = 2 ∧
    (inherit_state.user_locks 0).current_locker = some 0 :=
  ⟨(C10_dynamic_priority_invariant foreign_start inherit_state
      (by unfold free_unowned; decide!) (by decide!) inherit_state_reachable).1,
    by decide!, by decide!, by decide!⟩

/-- C10, counterexample: `foreign_unlock_state` is reached from `foreign_start`, where
every user TCB has equal priorities and the mutex is free, by SysTick, PendSV, lock
and unlock steps; in it the TCB of slot 0 is not Defunct and is the `current_locker`
of no mutex, yet its dynamic priority 0 differs from its static priority 2. -/
theorem C10_counterexample :
    free_unowned foreign_start ∧
    (∀ i, i < foreign_start.num_user_threads →
      (foreign_start.user_threads i).dynamic_priority
        = (foreign_start.user_threads i).static_priority) ∧
    Relation.ReflTransGen kernel_step foreign_start foreign_unlock_state ∧
    (inherit_state.user_locks 0).current_locker ≠ some inherit_state.active_thread_index ∧
    (foreign_unlock_state.user_threads 0).state ≠ ThreadDefunct ∧
    holds_none foreign_unlock_state 0 ∧
    (foreign_unlock_state.user_threads 0).dynamic_priority = 0 ∧
    (foreign_unlock_state.user_threads 0).static_priority = 2 := by
  refine ⟨by unfold free_unowned; decide!, by decide!, ?_, by decide!, by decide!,
    by unfold holds_none; decide!, by decide!, by decide!⟩
  exact Relation.ReflTransGen.tail
    (Relation.ReflTransGen.mono owner_step_kernel_step inherit_state_reachable)
    (kernel_step.unlock inherit_state 0 (by decide!))

/-! ### The count of live tasks under `admission_step` -/

theorem live_slots_succ (th : Nat → tcb_t) (n : Nat) :
    live_slots th (n + 1) =
      live_slots th n ++ (if (th n).state ≠ ThreadDefunct then [n] else []) := by
  unfold live_slots
  rw [List.range_succ, List.filter_append]
  by_cases h : (th n).state = ThreadDefunct
  · simp [h]
  · simp [h]

/-- Tables that agree below `n` on which slots are Defunct have the same live
slots. -/
theorem live_slots_congr (th th' : Nat → tcb_t) (n : Nat)
    (h : ∀ i, i < n → ((th' i).state = ThreadDefunct ↔ (th i).state = ThreadDefunct)) :
    live_slots th' n = live_slots th n := by
  induction n with
  | zero => rfl
  | succ n ih =>
    have i1 := ih (fun i hi => h i (Nat.lt_succ_of_lt hi))
    have hs := h n (Nat.lt_succ_self n)
    rw [live_slots_succ, live_slots_succ, i1]
    by_cases hd : (th n).state = ThreadDefunct
    · have hd' : (th' n).state = ThreadDefunct := hs.mpr hd
      simp only [hd, hd', ne_eq, not_true_eq_false, if_false]
    · have hd' : ¬ (th' n).state = ThreadDefunct := fun hh => hd (hs.mp hh)
      simp only [hd, hd', ne_eq, not_false_eq_true, if_true]

/-- A slot `j` that is Defunct in `th` and live in `th'`, the tables agreeing
elsewhere on which slots are Defunct: one more live slot. -/
theorem live_slots_revive (th th' : Nat → tcb_t) (n j : Nat) (hj : j < n)
    (hd : (th j).state = ThreadDefunct) (hl : (th' j).state ≠ ThreadDefunct)
    (h : ∀ i, i < n → i ≠ j →
      ((th' i).state = ThreadDefunct ↔ (th i).state = ThreadDefunct)) :
    (live_slots th' n).length = (live_slots th n).length + 1 := by
  induction n with
  | zero => omega
  | succ n ih =>
    rw [live_slots_succ, live_slots_succ]
    rcases Nat.lt_succ_iff_lt_or_eq.mp hj with hlt | heq
    · have i1 := ih hlt (fun i hi hij => h i (Nat.lt_succ_of_lt hi) hij)
      have hs := h n (Nat.lt_succ_self n) (by omega)
      by_cases hdn : (th n).state = ThreadDefunct
      · have hdn' : (th' n).state = ThreadDefunct := hs.mpr hdn
        simp only [hdn, hdn', ne_eq, not_true_eq_false, if_false, List.append_nil]
        exact i1
      · have hdn' : ¬ (th' n).state = ThreadDefunct := fun hh => hdn (hs.mp hh)
        simp only [hdn, hdn', ne_eq, not_false_eq_true, if_true, List.length_append,
          List.length_singleton]
        omega
    · subst heq
      have c1 := live_slots_congr th th' j
        (fun i hi => h i (Nat.lt_succ_of_lt hi) (by omega))
      simp only [hd, hl, ne_eq, not_true_eq_false, not_false_eq_true, if_true, if_false,
        List.append_nil, List.length_append, List.length_singleton]
      rw [c1]

theorem live_slots_length_le (th : Nat → tcb_t) (n : Nat) : (live_slots th n).length ≤ n := by
  unfold live_slots
  calc ((List.range n).filter _).length ≤ (List.range n).length := List.length_filter_le _ _
    _ = n := List.length_range n

/-- With a Defunct slot below `n` fewer than `n` slots are live. -/
theorem live_slots_length_lt (th : Nat → tcb_t) (n j : Nat) (hj : j < n)
    (hd : (th j).state = ThreadDefunct) : (live_slots th n).length < n := by
  induction n with
  | zero => omega
  | succ n ih =>
    rw [live_slots_succ]
    rcases Nat.lt_succ_iff_lt_or_eq.mp hj with hlt | heq
    · have := ih hlt
      split_ifs <;> simp <;> omega
    · subst heq
      have := live_slots_length_le th j
      simp [hd]
      omega

/-- The table is not increasing from its entry 1 on. -/
theorem util_bound_antitone (n : Nat) (hn : 1 ≤ n) (b b' : ℚ)
    (hb : util_bound[n]? = some b) (hb' : util_bound[n + 1]? = some b') : b' ≤ b := by
  rw [util_bound_values] at hb hb'
  have hlt : n + 1 < 16 := by
    by_contra hge
    have : ([0, 1, 6949123 / 8388608, 13082873 / 16777216, 12696997 / 16777216,
      3118465 / 4194304, 6163949 / 8388608, 1527985 / 2097152, 6074191 / 8388608,
      755499 / 1048576, 752563 / 1048576, 6002049 / 8388608, 11972221 / 16777216,
      2985925 / 4194304, 5960945 / 8388608, 11901757 / 16777216] : List ℚ)[n + 1]? = none := by
      apply List.getElem?_eq_none
      simp; omega
    rw [this] at hb'
    cases hb'
  have hcases : n = 1 ∨ n = 2 ∨ n = 3 ∨ n = 4 ∨ n = 5 ∨ n = 6 ∨ n = 7 ∨ n = 8 ∨ n = 9 ∨
      n = 10 ∨ n = 11 ∨ n = 12 ∨ n = 13 ∨ n = 14 := by omega
  rcases hcases with h | h | h | h | h | h | h | h | h | h | h | h | h | h <;> subst h <;>
    simp at hb hb' <;> subst hb <;> subst hb' <;> norm_num

/-- With no mutex owned the release loop of `syscall_thread_end` changes nothing. -/
theorem thread_end_fold_unowned (k : Kernel) (n : Nat)
    (hl : ∀ j, (k.user_locks j).current_locker = none) :
    (List.range n).foldl thread_end_release k = k := by
  induction n with
  | zero => rfl
  | succ n ih =>
    rw [List.range_succ, List.foldl_append, ih]
    simp [thread_end_release, hl]

theorem util_bound_some (n : Nat) (hn : n ≤ MAX_NUM_THREADS) : ∃ b, util_bound[n]? = some b := by
  have h : n < util_bound.length := by
    simp [util_bound, util_bound_literals, MAX_NUM_THREADS] at *; omega
  exact ⟨util_bound[n], List.getElem?_eq_getElem h⟩

/-- The count bookkeeping survives `thread_end` issued by the idle task or by a live
user task. -/
theorem thread_end_count (k : Kernel) (hinv : active_count_inv k)
    (ha : k.active_thread_index ≤ k.num_user_threads)
    (hs : (k.user_threads k.active_thread_index).state ≠ ThreadDefunct) :
    active_count_inv (syscall_thread_end k) := by
  obtain ⟨h2, h4, h5⟩ := hinv
  unfold syscall_thread_end
  by_cases hidle : k.active_thread_index = k.num_user_threads
  · rw [if_pos hidle]
    exact ⟨h2, h4, h5⟩
  · rw [if_neg hidle, thread_end_fold_unowned k _ h5]
    have hlt : k.active_thread_index < k.num_user_threads := lt_of_le_of_ne ha hidle
    have hcount : active_count k ≤ MAX_NUM_THREADS :=
      le_trans (live_slots_length_le _ _) h4
    unfold active_count_inv active_count at *
    simp only
    generalize hT : store k.user_threads k.active_thread_index _ = T
    have c1 := live_slots_revive T k.user_threads k.num_user_threads
      k.active_thread_index hlt (by rw [← hT, store_same]) hs
      (fun i _ hij => by rw [← hT, store_other _ _ _ _ hij])
    have hna : u8_sub k.num_active_threads 1 = k.num_active_threads - 1 := by
      unfold u8_sub
      unfold MAX_NUM_THREADS at hcount
      omega
    refine ⟨?_, h4, h5⟩
    rw [hna]; omega

/-- The count bookkeeping only reads the two counters, the locks' owners, and of each
user TCB whether it is Defunct. -/
theorem active_count_inv_transfer (k k' : Kernel) (hinv : active_count_inv k)
    (hn : k'.num_user_threads = k.num_user_threads)
    (hna : k'.num_active_threads = k.num_active_threads)
    (hl : k'.user_locks = k.user_locks)
    (ht : ∀ i, i < k.num_user_threads →
      ((k'.user_threads i).state = ThreadDefunct ↔ (k.user_threads i).state = ThreadDefunct)) :
    active_count_inv k' := by
  have c1 := live_slots_congr k.user_threads k'.user_threads k.num_user_threads ht
  unfold active_count_inv active_count at *
  rw [hn, hna, hl, c1]
  exact hinv

theorem mark_running_sched (th : Nat → tcb_t) (x i : Nat) :
    ((mark_running th x) i).c = (th i).c ∧ ((mark_running th x) i).t = (th i).t ∧
    (i ≠ x → ((mark_running th x) i).state = (th i).state) ∧
    (i = x → ((mark_running th x) i).state = ThreadRunning) := by
  unfold mark_running
  by_cases h : i = x
  · subst h
    rw [store_same]
    exact ⟨rfl, rfl, fun hh => absurd rfl hh, fun _ => rfl⟩
  · rw [store_other _ _ _ _ h]
    exact ⟨rfl, rfl, fun _ => rfl, fun hh => absurd hh h⟩

theorem save_context_sched (th : Nat → tcb_t) (a msp frame_psp svc i : Nat) :
    ((save_context th a msp frame_psp svc) i).c = (th i).c ∧
    ((save_context th a msp frame_psp svc) i).t = (th i).t ∧
    ((save_context th a msp frame_psp svc) i).state = (th i).state := by
  unfold save_context
  by_cases h : i = a
  · subst h
    rw [store_same]
    exact ⟨rfl, rfl, rfl⟩
  · rw [store_other _ _ _ _ h]
    exact ⟨rfl, rfl, rfl⟩

/-- Without `preemption_flag` the scheduler pass leaves the kernel alone and returns
the bootstrap slot, the idle slot or a user slot that is Ready. -/
theorem schedule_rms_noflag (k : Kernel) (hf : k.preemption_flag = 0) :
    (schedule_rms k).2 = k ∧
    ((schedule_rms k).1 = k.num_user_threads + 1 ∨ (schedule_rms k).1 = k.num_user_threads ∨
      ((schedule_rms k).1 < k.num_user_threads ∧
        (k.user_threads (schedule_rms k).1).state = ThreadReady)) := by
  unfold schedule_rms
  by_cases h0 : k.num_active_threads = 0
  · rw [if_pos h0]
    exact ⟨rfl, Or.inl rfl⟩
  · rw [if_neg h0]
    simp only
    have hfold : (List.range k.num_user_threads).foldl (schedule_rms_step k.preemption_flag)
        (k.user_threads, 0xFFFFFFFF, k.num_user_threads) =
        (List.range k.num_user_threads).foldl (schedule_rms_step 0)
        (k.user_threads, 0xFFFFFFFF, k.num_user_threads) := by rw [hf]
    rw [hfold, schedule_rms_fold_noflag]
    refine ⟨rfl, Or.inr ?_⟩
    obtain ⟨_, hsel⟩ := schedule_rms_fold_spec 0 k.user_threads k.num_user_threads
      k.num_user_threads
    rcases hsel with ⟨_, h⟩ | ⟨h1, h2, _⟩
    · rw [h]
      exact Or.inl rfl
    · exact Or.inr ⟨h1, h2⟩

theorem switch_to_sched (k : Kernel) (next_index msp frame_psp svc : Nat)
    (hn : k.num_user_threads ≤ MAX_NUM_THREADS)
    (hsel : next_index = k.num_user_threads + 1 ∨ next_index = k.num_user_threads ∨
      (next_index < k.num_user_threads ∧ (k.user_threads next_index).state = ThreadReady)) :
    (switch_to k next_index msp frame_psp svc).2.num_active_threads = k.num_active_threads ∧
    (switch_to k next_index msp frame_psp svc).2.total_utilization = k.total_utilization ∧
    ∀ i, i < k.num_user_threads →
      (((switch_to k next_index msp frame_psp svc).2.user_threads i).state = ThreadDefunct ↔
        (k.user_threads i).state = ThreadDefunct) ∧
      ((switch_to k next_index msp frame_psp svc).2.user_threads i).c = (k.user_threads i).c ∧
      ((switch_to k next_index msp frame_psp svc).2.user_threads i).t = (k.user_threads i).t := by
  have hu8 : u8 next_index = next_index := by
    unfold u8
    unfold MAX_NUM_THREADS at hn
    apply Nat.mod_eq_of_lt
    omega
  have hkey : ∀ (th : Nat → tcb_t), (∀ j, (th j).state = (k.user_threads j).state ∧
      (th j).c = (k.user_threads j).c ∧ (th j).t = (k.user_threads j).t) →
      ∀ i, i < k.num_user_threads →
      (((mark_running th next_index) i).state = ThreadDefunct ↔
        (k.user_threads i).state = ThreadDefunct) ∧
      ((mark_running th next_index) i).c = (k.user_threads i).c ∧
      ((mark_running th next_index) i).t = (k.user_threads i).t := by
    intro th hth i hi
    obtain ⟨m1, m2, m3, m4⟩ := mark_running_sched th next_index i
    obtain ⟨s1, s2, s3⟩ := hth i
    refine ⟨?_, by rw [m1, s2], by rw [m2, s3]⟩
    by_cases hx : i = next_index
    · rw [m4 hx]
      rcases hsel with h | h | ⟨_, h⟩
      · omega
      · omega
      · rw [hx, h]
        constructor <;> intro hh <;> cases hh
    · rw [m3 hx, s1]
  unfold switch_to
  by_cases h : next_index = k.active_thread_index
  · rw [if_pos h]
    refine ⟨rfl, rfl, ?_⟩
    simp only
    rw [← h]
    exact hkey k.user_threads (fun j => ⟨rfl, rfl, rfl⟩)
  · rw [if_neg h]
    refine ⟨rfl, rfl, ?_⟩
    simp only
    rw [hu8]
    exact hkey _ (fun j => by
      obtain ⟨a, b, c⟩ := save_context_sched k.user_threads k.active_thread_index msp
        frame_psp svc j
      exact ⟨c, a, b⟩)

/-- The count bookkeeping survives a run of the PendSV handler that was not
pended by the tick. -/
theorem pendsv_count (k : Kernel) (msp frame_psp svc : Nat)
    (hf : k.preemption_flag = 0) (hinv : active_count_inv k) :
    active_count_inv (PendSV_C_Handler k msp frame_psp svc).2 := by
  obtain ⟨l1, _, _, _, l5⟩ := pendsv_locks k msp frame_psp svc
  have hn : k.num_user_threads ≤ MAX_NUM_THREADS := hinv.2.1
  have hf' : ({ k with pendsv := false } : Kernel).preemption_flag = 0 := hf
  obtain ⟨r1, r2⟩ := schedule_rms_noflag { k with pendsv := false } hf'
  have hs := switch_to_sched
    { (schedule_rms { k with pendsv := false }).2 with preemption_flag := 0 }
    (schedule_rms { k with pendsv := false }).1 msp frame_psp svc
    (by rw [r1]; exact hn) (by rw [r1]; exact r2)
  have hP : (PendSV_C_Handler k msp frame_psp svc) = switch_to
      { (schedule_rms { k with pendsv := false }).2 with preemption_flag := 0 }
      (schedule_rms { k with pendsv := false }).1 msp frame_psp svc := by
    unfold PendSV_C_Handler
    simp only
    rw [if_neg (by simp [hf])]
  rw [hP] at l1 l5 ⊢
  rw [r1] at hs l1 l5 ⊢
  obtain ⟨s1, s2, s3⟩ := hs
  exact active_count_inv_transfer k _ hinv l5 s1 l1 (fun i hi => (s3 i hi).1)

/-- The search loop of `syscall_thread_define`: when no duplicate is reported,
`tcb_index` is its initial value or a user slot that is Defunct. -/
theorem define_search_defunct (th : Nat → tcb_t) (id N n : Nat)
    (h : ((List.range n).foldl (define_search_step th id) (false, N)).1 = false) :
    ((List.range n).foldl (define_search_step th id) (false, N)).2 = N ∨
    (((List.range n).foldl (define_search_step th id) (false, N)).2 < n ∧
      (th ((List.range n).foldl (define_search_step th id) (false, N)).2).state
        = ThreadDefunct) := by
  induction n with
  | zero => exact Or.inl rfl
  | succ n ih =>
    rw [List.range_succ, List.foldl_append] at h ⊢
    simp only [List.foldl_cons, List.foldl_nil] at h ⊢
    generalize (List.range n).foldl (define_search_step th id) (false, N) = r at h ih
    obtain ⟨r1, r2⟩ := r
    unfold define_search_step at h ⊢
    simp only at h ih ⊢
    by_cases hr : r1 = true
    · rw [if_pos hr] at h
      simp only at h
      rw [hr] at h
      cases h
    · rw [if_neg hr] at h ⊢
      have hr' : r1 = false := by simpa using hr
      by_cases hdup : (th n).id = id ∧ (th n).state ≠ ThreadDefunct
      · rw [if_pos hdup] at h
        cases h
      · rw [if_neg hdup]
        by_cases hd : (th n).state = ThreadDefunct
        · rw [if_pos hd]
          exact Or.inr ⟨Nat.lt_succ_self n, hd⟩
        · rw [if_neg hd]
          rcases ih hr' with h1 | ⟨h1, h2⟩
          · exact Or.inl h1
          · exact Or.inr ⟨Nat.lt_succ_of_lt h1, h2⟩

/-- A loop whose every iteration keeps the state, `c` and `t` of every TCB keeps
them. -/
theorem fold_sched_frame (f : (Nat → tcb_t) → Nat → (Nat → tcb_t))
    (hf : ∀ th x i, ((f th x) i).state = (th i).state ∧ ((f th x) i).c = (th i).c ∧
      ((f th x) i).t = (th i).t)
    (l : List Nat) (th : Nat → tcb_t) (i : Nat) :
    ((l.foldl f th) i).state = (th i).state ∧ ((l.foldl f th) i).c = (th i).c ∧
      ((l.foldl f th) i).t = (th i).t := by
  induction l generalizing th with
  | nil => exact ⟨rfl, rfl, rfl⟩
  | cons x l ih =>
    rw [List.foldl_cons]
    obtain ⟨a1, a2, a3⟩ := ih (f th x)
    obtain ⟨b1, b2, b3⟩ := hf th x i
    exact ⟨a1.trans b1, a2.trans b2, a3.trans b3⟩

theorem order_assign_step_sched (n : Nat) (th : Nat → tcb_t) (x i : Nat) :
    ((order_assign_step n th x) i).state = (th i).state ∧
    ((order_assign_step n th x) i).c = (th i).c ∧
    ((order_assign_step n th x) i).t = (th i).t := by
  unfold order_assign_step
  simp only
  generalize ((List.range n).foldl (order_scan_step th) (0xFFFFFFFF, 0xFFFFFFFF, 0xFFFFFFFF)).1 = j
  by_cases h : i = j
  · subst h
    rw [store_same]
    exact ⟨rfl, rfl, rfl⟩
  · rw [store_other _ _ _ _ h]
    exact ⟨rfl, rfl, rfl⟩

/-- The function `order_absolute_priorities` changes no state, `c` or `t`. -/
theorem order_absolute_priorities_sched (k : Kernel) (i : Nat) :
    (((order_absolute_priorities k).user_threads) i).state = (k.user_threads i).state ∧
    (((order_absolute_priorities k).user_threads) i).c = (k.user_threads i).c ∧
    (((order_absolute_priorities k).user_threads) i).t = (k.user_threads i).t := by
  unfold order_absolute_priorities
  simp only
  obtain ⟨a1, a2, a3⟩ := fold_sched_frame (order_assign_step k.num_user_threads)
    (order_assign_step_sched k.num_user_threads) (List.range k.num_active_threads)
    (order_clear k.num_user_threads k.user_threads) i
  have hc : ((order_clear k.num_user_threads k.user_threads) i).state = (k.user_threads i).state ∧
      ((order_clear k.num_user_threads k.user_threads) i).c = (k.user_threads i).c ∧
      ((order_clear k.num_user_threads k.user_threads) i).t = (k.user_threads i).t := by
    unfold order_clear
    apply fold_sched_frame
    intro th x j
    by_cases h : j = x
    · subst h
      rw [store_same]
      exact ⟨rfl, rfl, rfl⟩
    · rw [store_other _ _ _ _ h]
      exact ⟨rfl, rfl, rfl⟩
  exact ⟨a1.trans hc.1, a2.trans hc.2.1, a3.trans hc.2.2⟩

theorem thread_function_define_sched (th : Nat → tcb_t) (fn arg index i : Nat) :
    ((thread_function_define th fn arg index) i).state = (th i).state ∧
    ((thread_function_define th fn arg index) i).c = (th i).c ∧
    ((thread_function_define th fn arg index) i).t = (th i).t := by
  unfold thread_function_define
  by_cases h : i = index
  · subst h
    rw [store_same]
    exact ⟨rfl, rfl, rfl⟩
  · rw [store_other _ _ _ _ h]
    exact ⟨rfl, rfl, rfl⟩

theorem order_absolute_priorities_result (K k' : Kernel)
    (h : order_absolute_priorities K = k') (i : Nat) :
    (k'.user_threads i).state = (K.user_threads i).state ∧
    (k'.user_threads i).c = (K.user_threads i).c ∧
    (k'.user_threads i).t = (K.user_threads i).t := by
  rw [← h]
  exact order_absolute_priorities_sched K i

theorem order_absolute_priorities_fields (K k' : Kernel)
    (h : order_absolute_priorities K = k') :
    k'.num_user_threads = K.num_user_threads ∧ k'.num_active_threads = K.num_active_threads ∧
    k'.total_utilization = K.total_utilization ∧ k'.user_locks = K.user_locks := by
  rw [← h]
  exact ⟨rfl, rfl, rfl, rfl⟩

/-- The count bookkeeping survives every call of `thread_define`. -/
theorem define_count (k : Kernel) (id fn arg c t : Nat) (r : Int) (k' : Kernel)
    (h : syscall_thread_define k id fn arg c t = some (r, k')) (hinv : active_count_inv k) :
    active_count_inv k' := by
  unfold syscall_thread_define at h
  by_cases hargs : fn = 0 ∨ c = 0 ∨ t = 0 ∨ c > t
  · rw [if_pos hargs] at h
    cases h
    exact hinv
  rw [if_neg hargs] at h
  by_cases hreq : k.multitask_request_called = 0
  · rw [if_pos hreq] at h
    cases h
    exact hinv
  rw [if_neg hreq] at h
  simp only at h
  have hsearch := define_search_defunct k.user_threads id k.num_user_threads k.num_user_threads
  generalize (List.range k.num_user_threads).foldl (define_search_step k.user_threads id)
    (false, k.num_user_threads) = s at h hsearch
  obtain ⟨s1, j⟩ := s
  simp only at h hsearch
  by_cases hdup : s1 = true
  · rw [if_pos hdup] at h
    cases h
    exact hinv
  rw [if_neg hdup] at h
  by_cases hfull : j = k.num_user_threads
  · rw [if_pos hfull] at h
    cases h
    exact hinv
  rw [if_neg hfull] at h
  have hs1 : s1 = false := by simpa using hdup
  obtain ⟨hj, hd⟩ : j < k.num_user_threads ∧ (k.user_threads j).state = ThreadDefunct := by
    rcases hsearch hs1 with h1 | h1
    · exact absurd h1 hfull
    · exact h1
  obtain ⟨h2, h4, h5⟩ := hinv
  have hlt : active_count k < k.num_user_threads := live_slots_length_lt _ _ j hj hd
  have hna : k.num_active_threads + 1 ≤ MAX_NUM_THREADS := by rw [← h2]; omega
  obtain ⟨bound, hbound⟩ := util_bound_some (k.num_active_threads + 1) hna
  rw [hbound] at h
  simp only at h
  by_cases hadm : float_le (float_add (float_div (float_of_uint32 c) (float_of_uint32 t))
      k.total_utilization) (float.finite bound) = true
  swap
  · rw [if_neg hadm] at h
    cases h
    exact ⟨h2, h4, h5⟩
  rw [if_pos hadm] at h
  simp only [Option.some.injEq, Prod.mk.injEq] at h
  obtain ⟨_, hk'⟩ := h
  have hu8 : u8 (k.num_active_threads + 1) = k.num_active_threads + 1 := by
    unfold u8
    unfold MAX_NUM_THREADS at hna
    apply Nat.mod_eq_of_lt
    omega
  generalize hT : store k.user_threads j _ = T1 at hk'
  have hslot : ∀ i, (k'.user_threads i).state = (T1 i).state ∧
      (k'.user_threads i).c = (T1 i).c ∧ (k'.user_threads i).t = (T1 i).t := by
    intro i
    obtain ⟨a1, a2, a3⟩ := order_absolute_priorities_result _ _ hk' i
    obtain ⟨b1, b2, b3⟩ := thread_function_define_sched T1 fn arg j i
    exact ⟨a1.trans b1, a2.trans b2, a3.trans b3⟩
  obtain ⟨hn', hna', hu', hl'⟩ := order_absolute_priorities_fields _ _ hk'
  simp only at hn' hna' hu' hl'
  have hnew : (k'.user_threads j).state = ThreadReady ∧ (k'.user_threads j).c = c ∧
      (k'.user_threads j).t = t := by
    obtain ⟨a1, a2, a3⟩ := hslot j
    rw [← hT, store_same] at a1 a2 a3
    exact ⟨a1, a2, a3⟩
  have hold : ∀ i, i ≠ j → (k'.user_threads i).state = (k.user_threads i).state ∧
      (k'.user_threads i).c = (k.user_threads i).c ∧
      (k'.user_threads i).t = (k.user_threads i).t := by
    intro i hij
    obtain ⟨a1, a2, a3⟩ := hslot i
    rw [← hT, store_other _ _ _ _ hij] at a1 a2 a3
    exact ⟨a1, a2, a3⟩
  have c1 := live_slots_revive k.user_threads k'.user_threads k.num_user_threads j hj hd
    (by rw [hnew.1]; intro hh; cases hh)
    (fun i _ hij => by
      obtain ⟨a1, _, _⟩ := hold i hij
      rw [a1])
  unfold active_count_inv active_count at *
  rw [hn', hna', hl', hu8, c1, h2]
  exact ⟨rfl, h4, h5⟩

theorem live_slots_all_defunct (th : Nat → tcb_t) (n : Nat)
    (h : ∀ i, i < n → (th i).state = ThreadDefunct) : live_slots th n = [] := by
  induction n with
  | zero => rfl
  | succ n ih =>
    rw [live_slots_succ, ih (fun i hi => h i (Nat.lt_succ_of_lt hi))]
    simp [h n (Nat.lt_succ_self n)]

/-- The first loop of `syscall_multitask_request` leaves every slot it visits
Defunct. -/
theorem request_fold_defunct (junk : tcb_t) (ub kb sba : Nat) (th0 : Nat → tcb_t)
    (N i : Nat) (hi : i < N) :
    (((List.range N).foldl (fun th thread_index => store th thread_index
      (dummy_tcb junk (u32_sub ub (u32 (thread_index * sba)))
        (u32_sub kb (u32 (thread_index * sba))) sba)) th0) i).state = ThreadDefunct := by
  induction N with
  | zero => omega
  | succ N ih =>
    rw [List.range_succ, List.foldl_append]
    simp only [List.foldl_cons, List.foldl_nil]
    by_cases h : i = N
    · subst h
      rw [store_same]
      rfl
    · rw [store_other _ _ _ _ h]
      exact ih (by omega)

/-- A successful `multitask_request` on a kernel with no task admitted and no mutex
owned establishes the count bookkeeping. -/
theorem request_count (k0 : Kernel) (user_base kernel_base default_idle : Nat)
    (junk : tcb_t) (num_threads stack_bytes idle_function : Nat) (mpu_protect : mpu_mode)
    (num_locks : Nat) (k1 : Kernel)
    (h : syscall_multitask_request k0 user_base kernel_base default_idle junk num_threads
      stack_bytes idle_function mpu_protect num_locks = some (SUCCESS, k1))
    (hna : k0.num_active_threads = 0)
    (hl : ∀ j, (k0.user_locks j).current_locker = none) :
    active_count_inv k1 := by
  unfold syscall_multitask_request at h
  by_cases hc : k0.multitask_request_called ≠ 0
  · rw [if_pos hc] at h
    simp [MULTITASK_REQUEST_REPEATED, SUCCESS] at h
  rw [if_neg hc] at h
  cases hl2 : ceil_log2 stack_bytes with
  | none => rw [hl2] at h; cases h
  | some l =>
    rw [hl2] at h
    simp only at h
    by_cases hp : num_threads > MAX_NUM_THREADS ∨ num_threads = 0 ∨
        u32 (u32 (2 ^ l) * u32 (num_threads + 1)) > MAX_TOTAL_THREAD_STACK_SIZE ∨
        num_locks > MAX_USER_LOCKS
    · rw [if_pos hp] at h
      simp [MULTITASK_REQUEST_INVALID_PARAMS, SUCCESS] at h
    rw [if_neg hp] at h
    have hn : num_threads ≤ MAX_NUM_THREADS := by
      by_contra hh
      exact hp (Or.inl (by omega))
    have hn14 : num_threads ≤ 14 := hn
    have hu32 : u32 (num_threads + 1) = num_threads + 1 := by
      unfold u32
      apply Nat.mod_eq_of_lt
      omega
    have hu8 : u8 num_threads = num_threads := by
      unfold u8
      apply Nat.mod_eq_of_lt
      omega
    rw [hu32, hu8] at h
    simp only [Option.some.injEq, Prod.mk.injEq, true_and] at h
    have hfields : k1.num_user_threads = num_threads ∧
        k1.num_active_threads = k0.num_active_threads ∧
        k1.total_utilization = k0.total_utilization ∧ k1.user_locks = k0.user_locks := by
      rw [← h]
      exact ⟨rfl, rfl, rfl, rfl⟩
    have htab : ∀ i, i < num_threads → (k1.user_threads i).state = ThreadDefunct := by
      intro i hi
      rw [← h]
      simp only
      have hi1 : i ≠ num_threads := by omega
      have hi2 : i ≠ num_threads + 1 := by omega
      split_ifs <;>
      · unfold thread_function_define
        rw [store_other _ _ _ _ hi1, store_other _ _ _ _ hi1, store_other _ _ _ _ hi2]
        exact request_fold_defunct junk user_base kernel_base (u32 (2 ^ l)) k0.user_threads
          (num_threads + 1) i (by omega)
    obtain ⟨f1, f2, f3, f4⟩ := hfields
    have hempty := live_slots_all_defunct k1.user_threads num_threads htab
    unfold active_count_inv active_count
    rw [f1, f2, f4, hempty, hna]
    exact ⟨rfl, hn, hl⟩

/-- Every step of `admission_step` keeps the count bookkeeping. -/
theorem admission_step_count (k k' : Kernel) (hs : admission_step k k')
    (hinv : active_count_inv k) : active_count_inv k' := by
  cases hs with
  | define id fn arg c t r _ h => exact define_count k id fn arg c t r k' h hinv
  | thread_end ha hs => exact thread_end_count k hinv ha hs
  | pendsv msp frame_psp svc hf => exact pendsv_count k msp frame_psp svc hf hinv

/-- The count of live tasks for calls of `thread_end` issued by live tasks.  In every
state reached from a successful `multitask_request` (on a kernel with no task admitted
and no mutex owned) by `thread_define` calls, `thread_end` calls of the idle task or
of a user task that is not Defunct, and PendSV runs not pended by the tick,
`num_active_threads` is the number of user TCBs that are not Defunct. -/
theorem active_count_invariant_live_end (k0 : Kernel)
    (user_base kernel_base default_idle : Nat)
    (junk : tcb_t) (num_threads stack_bytes idle_function : Nat) (mpu_protect : mpu_mode)
    (num_locks : Nat) (k1 k : Kernel)
    (hreq : syscall_multitask_request k0 user_base kernel_base default_idle junk num_threads
      stack_bytes idle_function mpu_protect num_locks = some (SUCCESS, k1))
    (hna : k0.num_active_threads = 0)
    (hl : ∀ j, (k0.user_locks j).current_locker = none)
    (hreach : Relation.ReflTransGen admission_step k1 k) :
    active_count k = k.num_active_threads := by
  have hinv : active_count_inv k := by
    induction hreach with
    | refl =>
      exact request_count k0 user_base kernel_base default_idle junk num_threads
        stack_bytes idle_function mpu_protect num_locks k1 hreq hna hl
    | tail _ hstep ih => exact admission_step_count _ _ hstep ih
  exact hinv.1

theorem after_request_eq (n locks : Nat)
    (h : (syscall_multitask_request boot 0x20010000 0x20020000 1 tcb_zero n 256 0
      mpu_mode.THREAD_PROTECT locks).map Prod.fst = some SUCCESS) :
    syscall_multitask_request boot 0x20010000 0x20020000 1 tcb_zero n 256 0
      mpu_mode.THREAD_PROTECT locks = some (SUCCESS, after_request n locks) := by
  unfold after_request
  cases hx : syscall_multitask_request boot 0x20010000 0x20020000 1 tcb_zero n 256 0
      mpu_mode.THREAD_PROTECT locks with
  | none => rw [hx] at h; cases h
  | some r =>
    rw [hx] at h
    simp only [Option.map_some', Option.some.injEq] at h
    obtain ⟨r1, r2⟩ := r
    simp only at h
    rw [h]

theorem after_define_step (k : Kernel) (id c t : Nat)
    (h : (syscall_thread_define k id 1 0 c t).isSome = true) :
    admission_step k (after_define k id c t) := by
  unfold after_define
  cases hx : syscall_thread_define k id 1 0 c t with
  | none => rw [hx] at h; cases h
  | some r => exact admission_step.define k id 1 0 c t r.1 r.2 hx

/-- The hypotheses of `active_count_invariant_live_end` at a run in which one task is
admitted, switched to, and ends itself. -/
theorem active_count_invariant_live_end_run :
    (context_switch (after_define (after_request 1 0) 1 1 2)).active_thread_index = 0 ∧
    active_count (syscall_thread_end (context_switch (after_define (after_request 1 0) 1 1 2)))
      = (syscall_thread_end
          (context_switch (after_define (after_request 1 0) 1 1 2))).num_active_threads :=
  And.intro (by decide!) <| active_count_invariant_live_end boot 0x20010000 0x20020000 1 tcb_zero 1 256 0
    mpu_mode.THREAD_PROTECT 0 (after_request 1 0) _
    (after_request_eq 1 0 (by decide!)) rfl (fun _ => rfl)
    (Relation.ReflTransGen.tail
      (Relation.ReflTransGen.tail
        (Relation.ReflTransGen.single (after_define_step (after_request 1 0) 1 1 2 (by decide!)))
        (admission_step.pendsv (after_define (after_request 1 0) 1 1 2) 0 0 0 (by decide!)))
      (admission_step.thread_end (context_switch (after_define (after_request 1 0) 1 1 2))
        (by decide!) (by decide!)))

/-! ### Unlock, the lock round trip and the scenarios -/

/-- The wake-up loop leaves a Ready TCB Ready and makes every entry of the list
Ready. -/
theorem wake_blocked_state (bl : List Nat) (th : Nat → tcb_t) (p : Nat) :
    ((th p).state = ThreadReady → (wake_blocked th bl p).state = ThreadReady) ∧
    (p ∈ bl → (wake_blocked th bl p).state = ThreadReady) := by
  induction bl generalizing th with
  | nil => exact ⟨fun h => h, fun h => by cases h⟩
  | cons x bl ih =>
    unfold wake_blocked at ih ⊢
    rw [List.foldl_cons]
    obtain ⟨i1, i2⟩ := ih (wake_one th x)
    have hx : (th p).state = ThreadReady ∨ p = x → (wake_one th x p).state = ThreadReady := by
      intro h
      unfold wake_one
      by_cases hp : p = x
      · subst hp
        rw [store_same]
      · rw [store_other _ _ _ _ hp]
        rcases h with h | h
        · exact h
        · exact absurd h hp
    refine ⟨fun h => i1 (hx (Or.inl h)), fun h => ?_⟩
    rcases List.mem_cons.mp h with h | h
    · exact i1 (hx (Or.inr h))
    · exact i2 h

/-- C11.  `syscall_unlock` on a held mutex `m`: every TCB that was on the blocked
list of `m` is Ready afterwards, the blocked list of `m` is empty
(`num_blocked_threads = 0`), `m->current_locker` is null and the semaphore of `m`
is 1. -/
theorem C11_unlock_wakes_waiters (k : Kernel) (m : Nat)
    (h : mutex_is_locked (k.user_locks m) = true) :
    (∀ p, p ∈ (k.user_locks m).blocked_threads →
      ((syscall_unlock k m).user_threads p).state = ThreadReady) ∧
    ((syscall_unlock k m).user_locks m).blocked_threads = [] ∧
    ((syscall_unlock k m).user_locks m).num_blocked_threads = 0 ∧
    ((syscall_unlock k m).user_locks m).current_locker = none ∧
    ((syscall_unlock k m).user_locks m).s = 1 := by
  refine ⟨?_, ?_⟩
  · intro p hp
    rw [unlock_threads k m h]
    by_cases hpa : p = k.active_thread_index
    · rw [hpa, store_same]
    · rw [store_other _ _ _ _ hpa]
      obtain ⟨hframe, _⟩ := unlock_scan_table
        (store k.user_locks m (release_mutex (k.user_locks m))) k.active_thread_index
        (reset_priority (wake_blocked k.user_threads (k.user_locks m).blocked_threads)
          k.active_thread_index) k.num_defined_locks
      rw [hframe p hpa]
      unfold reset_priority
      rw [store_other _ _ _ _ hpa]
      exact (wake_blocked_state _ _ p).2 hp
  · rw [unlock_locks k m h, store_same]
    exact ⟨rfl, rfl, rfl, rfl⟩

/-- C11 at `inherit_state`: slot 0 holds mutex 0, on which slot 2 is blocked. -/
theorem C11_unlock_wakes_waiters_witness :
    mutex_is_locked (inherit_state.user_locks 0) = true ∧
    (inherit_state.user_locks 0).blocked_threads = [2] ∧
    (inherit_state.user_threads 2).state = ThreadBlocked ∧
    (∀ p, p ∈ (inherit_state.user_locks 0).blocked_threads →
      ((syscall_unlock inherit_state 0).user_threads p).state = ThreadReady) ∧
    ((syscall_unlock inherit_state 0).user_locks 0).blocked_threads = [] :=
  ⟨by decide!, by decide!, by decide!,
    (C11_unlock_wakes_waiters inherit_state 0 (by decide!)).1,
    (C11_unlock_wakes_waiters inherit_state 0 (by decide!)).2.1⟩

/-- When the caller owns no mutex the release loop of `syscall_thread_end` changes
nothing. -/
theorem thread_end_fold_holds_none (k : Kernel) (n : Nat)
    (hl : ∀ j, j < n → (k.user_locks j).current_locker ≠ some k.active_thread_index) :
    (List.range n).foldl thread_end_release k = k := by
  induction n with
  | zero => rfl
  | succ n ih =>
    rw [List.range_succ, List.foldl_append, ih (fun j hj => hl j (Nat.lt_succ_of_lt hj))]
    simp [thread_end_release, hl n (Nat.lt_succ_self n)]

/-- A call of `syscall_lock` by a task other than the idle task that ranks above the
ceiling of `m` stops in `syscall_thread_end`: the kernel is as `syscall_thread_end`
leaves it.  When the caller owns no mutex, its TCB is Defunct, the switch is pended,
and no mutex, the global ceiling and `highest_priority_lock` are as before the
call. -/
theorem lock_above_ceiling_ends (k : Kernel) (m : Nat)
    (hrank : (k.user_threads k.active_thread_index).static_priority
      < (k.user_locks m).priority_ceiling)
    (ha : k.active_thread_index ≠ k.num_user_threads) :
    syscall_lock k m = (lock_exit.Ended, syscall_thread_end k) ∧
    ((∀ j, j < k.num_user_locks →
        (k.user_locks j).current_locker ≠ some k.active_thread_index) →
      ((syscall_thread_end k).user_threads k.active_thread_index).state = ThreadDefunct ∧
      (syscall_thread_end k).pendsv = true ∧
      (syscall_thread_end k).user_locks = k.user_locks ∧
      (syscall_thread_end k).global_priority_ceiling = k.global_priority_ceiling ∧
      (syscall_thread_end k).highest_priority_lock = k.highest_priority_lock) := by
  constructor
  · unfold syscall_lock syscall_lock_entry
    simp only [if_pos hrank, if_neg ha]
  · intro hnone
    unfold syscall_thread_end
    rw [if_neg ha, thread_end_fold_holds_none k _ hnone]
    simp only [store_same]
    exact ⟨trivial, trivial, trivial, trivial, trivial⟩

/-- C13, evaluation at the failing input.  H (slot 1, static priority 0) calls `lock`
on the free mutex 0 whose ceiling is 1: `syscall_thread_end` marks H Defunct and pends
the switch, the mutex is free and the global ceiling is `0xFFFFFFFF`.  A SysTick
interrupt arrives before the switch runs: the handler charges the tick, writes Ready
into the Defunct TCB and selects H again.  H goes on in `syscall_lock` behind the call
of `syscall_thread_end`, takes the semaphore and returns as `current_locker` of the
mutex, with the global ceiling lowered to 1. -/
theorem C13_ended_caller_takes_mutex :
    ceiling_violation_state.active_thread_index = 1 ∧
    (ceiling_violation_state.user_threads 1).static_priority = 0 ∧
    (ceiling_violation_state.user_locks 0).priority_ceiling = 1 ∧
    (ceiling_violation_state.user_locks 0).s = 1 ∧
    ceiling_violation_state.global_priority_ceiling = 0xFFFFFFFF ∧
    (syscall_lock ceiling_violation_state 0).1 = lock_exit.Ended ∧
    (violation_ended_state.user_threads 1).state = ThreadDefunct ∧
    violation_ended_state.num_active_threads = 1 ∧
    violation_ended_state.pendsv = true ∧
    (violation_ended_state.user_locks 0).s = 1 ∧
    (violation_ended_state.user_locks 0).current_locker = none ∧
    (violation_ended_state.user_locks 0).blocked_threads = [] ∧
    violation_ended_state.global_priority_ceiling = 0xFFFFFFFF ∧
    violation_revived_state.active_thread_index = 1 ∧
    (violation_revived_state.user_threads 1).state = ThreadRunning ∧
    (syscall_lock_resume violation_revived_state 0).1 = lock_exit.Acquired ∧
    ((syscall_lock_resume violation_revived_state 0).2.user_locks 0).s = 0 ∧
    ((syscall_lock_resume violation_revived_state 0).2.user_locks 0).current_locker
      = some 1 ∧
    (syscall_lock_resume violation_revived_state 0).2.global_priority_ceiling = 1 ∧
    (syscall_lock_resume violation_revived_state 0).2.highest_priority_lock = some 0 := by
  decide!

/-- C14, evaluation at the failing input: a single task with `c = t = 2` (slot 0; the
idle task is slot 1) is selected in timeslots 0, 1, 2 and the idle task in timeslot
3, inside the period window `[2, 4)`, and so on every fourth timeslot; with
`c = t = 1` the idle task is selected from timeslot 1 on. -/
theorem C14_full_budget_task_loses_ticks :
    (List.range 8).map (selected_slot (single_task_start 2 2)) = [0, 0, 0, 1, 0, 0, 0, 1] ∧
    (single_task_start 2 2).num_user_threads = 1 ∧
    (List.range 6).map (selected_slot (single_task_start 1 1)) = [0, 1, 1, 1, 1, 1] := by
  decide!

/-- C15 (amended).  Scenario S1 over the first 15 timeslots: A (id 7) is selected
exactly in timeslots 0, 3, 6, 9, 12, B (id 2) exactly in timeslots 1, 5, 10, and the
idle task (id `0xFFFFFFFF`) in all the others; timeslot `i` is the one in which
`global_timeslot_counter` is `i`. -/
theorem C15_scenario_S1_schedule :
    (List.range 15).map (selected_id scenario_S1) =
      [7, 2, 0xFFFFFFFF, 7, 0xFFFFFFFF, 2, 7, 0xFFFFFFFF, 0xFFFFFFFF, 7, 2, 0xFFFFFFFF, 7,
        0xFFFFFFFF, 0xFFFFFFFF] ∧
    (List.range 15).map (fun i => (run_ticks scenario_S1 i).global_timeslot_counter) =
      List.range 15 := by
  decide!

/-- C15 as stated fails: B (id 2) is the selected task in timeslot 5, and in
timeslots 6 and 11 the selected task is not B. -/
theorem C15_counterexample :
    ¬ (∀ i, i < 15 → (selected_id scenario_S1 i = 2 ↔ i ∈ [1, 6, 11])) := by
  intro h
  have h5 := (h 5 (by decide)).mp (by decide!)
  revert h5
  decide

/-- C17 as stated fails: in scenario S5 (active user task with process-stack band
`[0x20010000, 0x20010400)`, faulting stack pointer `0x2000FFFC`) the handler leaves
through `syscall_exit` with status -15; it does not return and no TCB is marked
Defunct. -/
theorem C17_counterexample :
    scenario_S5.active_thread_index = 0 ∧ scenario_S5.num_user_threads = 2 ∧
    (scenario_S5.user_threads 0).limit_process_stack = 0x20010000 ∧
    (scenario_S5.user_threads 0).base_process_stack = 0x20010400 ∧
    (scenario_S5.user_threads 1).state = ThreadReady ∧
    (MemFault_C_Handler scenario_S5 0x2000FFFC 0x20008000 0x20000000).status
      = some THREAD_MEMORY_OUT_OF_BOUNDS_ACCESS ∧
    (MemFault_C_Handler scenario_S5 0x2000FFFC 0x20008000 0x20000000).kernel.isNone = true := by
  decide!

/-- C18 as stated fails: H (rank 0) and L (rank 1) are live, H calls `thread_end`;
afterwards L is the only live user TCB, `num_active_threads` is 1 and the static
priority of L is still 1, not 0. -/
theorem C18_counterexample :
    rank_gap_start.active_thread_index = 1 ∧
    ((syscall_thread_end rank_gap_start).user_threads 1).state = ThreadDefunct ∧
    ((syscall_thread_end rank_gap_start).user_threads 0).state = ThreadReady ∧
    (syscall_thread_end rank_gap_start).num_active_threads = 1 ∧
    ((syscall_thread_end rank_gap_start).user_threads 0).static_priority = 1 := by
  decide!

/-- C19, evaluation at the failing input: in `tie_state` the TCBs in slot 0 (id 9)
and slot 1 (id 1) are both Ready with dynamic priority 0, the least there is, and
`schedule_rms` returns slot 0, the one with the larger id. -/
theorem C19_tie_goes_to_lower_slot :
    tie_state.num_user_threads = 2 ∧
    (tie_state.user_threads 0).state = ThreadReady ∧
    (tie_state.user_threads 1).state = ThreadReady ∧
    (tie_state.user_threads 0).dynamic_priority = 0 ∧
    (tie_state.user_threads 1).dynamic_priority = 0 ∧
    (tie_state.user_threads 0).id = 9 ∧ (tie_state.user_threads 1).id = 1 ∧
    (schedule_rms tie_state).1 = 0 := by
  decide!

/-- C12 as stated fails: the running task holds mutexes 1 and 0 of equal ceiling and
`highest_priority_lock` points to mutex 1; it takes the free mutex 2 at once (same
ceiling) and releases it; the global ceiling is 0 as before, but
`highest_priority_lock` now points to mutex 0. -/
theorem C12_counterexample :
    equal_ceiling_state.global_priority_ceiling = 0 ∧
    equal_ceiling_state.highest_priority_lock = some 1 ∧
    (equal_ceiling_state.user_locks 0).current_locker
      = some equal_ceiling_state.active_thread_index ∧
    (equal_ceiling_state.user_locks 1).current_locker
      = some equal_ceiling_state.active_thread_index ∧
    (syscall_lock equal_ceiling_state 2).1 = lock_exit.Acquired ∧
    (syscall_unlock (syscall_lock equal_ceiling_state 2).2 2).global_priority_ceiling = 0 ∧
    (syscall_unlock (syscall_lock equal_ceiling_state 2).2 2).highest_priority_lock
      = some 0 := by
  decide!

/-- The scan of `syscall_unlock` selects the first held mutex of least ceiling: every
held mutex in a lower slot has a larger ceiling. -/
theorem unlock_scan_first (locks : Nat → mutex_t) (a : Nat) (th : Nat → tcb_t) (n : Nat) :
    ∀ h, (unlock_scan locks a n th).2.2 = some h →
      ∀ j, j < h → mutex_is_locked (locks j) = true →
        (unlock_scan locks a n th).2.1 < (locks j).priority_ceiling := by
  induction n with
  | zero => simp [unlock_scan]
  | succ n ih =>
    obtain ⟨h1, _, h3⟩ := unlock_scan_sel locks a th n
    rw [unlock_scan_succ]
    generalize unlock_scan locks a n th = r at ih h1 h3
    obtain ⟨t, g, h⟩ := r
    simp only at ih h1 h3
    have hsel : (unlock_scan_step locks a (t, g, h) n).2 =
        if mutex_is_locked (locks n) = true then
          (if (locks n).priority_ceiling < g then ((locks n).priority_ceiling, some n) else (g, h))
        else (g, h) := by
      unfold unlock_scan_step
      simp only
      split_ifs <;> rfl
    rw [hsel]
    by_cases hl : mutex_is_locked (locks n) = true
    · rw [if_pos hl]
      by_cases hc : (locks n).priority_ceiling < g
      · rw [if_pos hc]
        intro x hx j hj hjl
        simp only [Option.some.injEq] at hx
        subst hx
        have := h1 j hj hjl
        simp only
        omega
      · rw [if_neg hc]
        exact ih
    · rw [if_neg hl]
      exact ih

/-- A call of `syscall_lock` by a task that does not rank above the ceiling of `m`
leaves with the mutex only if `m` was free, and then the state is the one
`lock_acquired` builds once `mutex_try` has taken the semaphore. -/
theorem lock_acquired_form (k : Kernel) (m : Nat)
    (hrank : ¬ (k.user_threads k.active_thread_index).static_priority
      < (k.user_locks m).priority_ceiling)
    (hacq : (syscall_lock k m).1 = lock_exit.Acquired) :
    mutex_is_locked (k.user_locks m) = false ∧
    (syscall_lock k m).2 =
      lock_acquired { k with user_locks := store k.user_locks m { k.user_locks m with s := 0 } }
        m := by
  unfold syscall_lock syscall_lock_entry lock_held_check at hacq ⊢
  simp only [if_neg hrank] at hacq ⊢
  by_cases hheld : (k.user_locks m).current_locker = some k.active_thread_index
  · simp [hheld] at hacq
  · simp only [if_neg hheld] at hacq ⊢
    unfold syscall_lock_attempt at hacq ⊢
    by_cases hmay : may_try k = true
    · rw [if_pos hmay] at hacq ⊢
      unfold mutex_try at hacq ⊢
      by_cases hs : (k.user_locks m).s = 0
      · simp [hs] at hacq
      · simp only [if_neg hs, if_true] at hacq ⊢
        refine ⟨?_, trivial⟩
        unfold mutex_is_locked
        simpa using hs
    · rw [if_neg hmay] at hacq
      simp at hacq

theorem lock_acquired_fields (K : Kernel) (m : Nat) :
    (lock_acquired K m).user_locks = store K.user_locks m
      { K.user_locks m with current_locker := some K.active_thread_index } ∧
    (lock_acquired K m).active_thread_index = K.active_thread_index ∧
    (lock_acquired K m).num_defined_locks = K.num_defined_locks := by
  unfold lock_acquired
  dsimp only
  split_ifs <;> exact ⟨rfl, rfl, rfl⟩

/-- The lock table after taking the free mutex `m` and releasing it again: the same
semaphores are held and the ceilings are the same as before. -/
theorem round_trip_locks (k : Kernel) (m : Nat)
    (hfree : mutex_is_locked (k.user_locks m) = false) :
    mutex_is_locked ((lock_acquired
      { k with user_locks := store k.user_locks m { k.user_locks m with s := 0 } } m).user_locks m)
      = true ∧
    ((lock_acquired
      { k with user_locks := store k.user_locks m { k.user_locks m with s := 0 } } m).user_locks
      m).current_locker = some k.active_thread_index ∧
    (lock_acquired
      { k with user_locks := store k.user_locks m { k.user_locks m with s := 0 } }
      m).active_thread_index = k.active_thread_index ∧
    (lock_acquired
      { k with user_locks := store k.user_locks m { k.user_locks m with s := 0 } }
      m).num_defined_locks = k.num_defined_locks ∧
    ∀ j, mutex_is_locked ((syscall_unlock (lock_acquired
        { k with user_locks := store k.user_locks m { k.user_locks m with s := 0 } } m)
        m).user_locks j) = mutex_is_locked (k.user_locks j) ∧
      ((syscall_unlock (lock_acquired
        { k with user_locks := store k.user_locks m { k.user_locks m with s := 0 } } m)
        m).user_locks j).priority_ceiling = (k.user_locks j).priority_ceiling := by
  obtain ⟨f1, f2, f3⟩ := lock_acquired_fields
    { k with user_locks := store k.user_locks m { k.user_locks m with s := 0 } } m
  generalize lock_acquired
    { k with user_locks := store k.user_locks m { k.user_locks m with s := 0 } } m = kA
    at f1 f2 f3
  simp only [store_same] at f1 f2 f3
  have hlocks := f1
  have hact := f2
  have hnd := f3
  have hheld : mutex_is_locked (kA.user_locks m) = true := by
    rw [hlocks, store_same]
    rfl
  refine ⟨hheld, by rw [hlocks, store_same], hact, hnd, ?_⟩
  intro j
  rw [unlock_locks kA m hheld]
  by_cases hj : j = m
  · subst hj
    rw [store_same, hfree]
    refine ⟨rfl, ?_⟩
    rw [hlocks, store_same]
    rfl
  · rw [store_other _ _ _ _ hj, hlocks, store_other _ _ _ _ hj, store_other _ _ _ _ hj]
    exact ⟨rfl, rfl⟩

/-- C12 (amended).  In a state that satisfies the ceiling invariant, a task that does
not rank above the ceiling of the mutex `m` calls `lock(m)` and leaves with
the mutex at once.  Then `m` is held with the caller as holder (so `unlock(m)` does
not take its diagnostic branch), and after `unlock(m)` by the same task the global
ceiling is what it was before the lock; `highest_priority_lock` is null when no mutex
is held and otherwise points to the held mutex of that ceiling in the lowest slot;
it equals its value before the lock whenever that value was the held mutex of that
ceiling in the lowest slot (in particular when no two held mutexes share the least
ceiling). -/
theorem C12_lock_unlock_round_trip (k : Kernel) (m : Nat)
    (hinv : ceiling_inv k) (hres : ceilings_resolved k)
    (hrank : ¬ (k.user_threads k.active_thread_index).static_priority
      < (k.user_locks m).priority_ceiling)
    (hacq : (syscall_lock k m).1 = lock_exit.Acquired) :
    mutex_is_locked ((syscall_lock k m).2.user_locks m) = true ∧
    ((syscall_lock k m).2.user_locks m).current_locker = some k.active_thread_index ∧
    (syscall_lock k m).2.active_thread_index = k.active_thread_index ∧
    (syscall_unlock (syscall_lock k m).2 m).global_priority_ceiling
      = k.global_priority_ceiling ∧
    ((∀ j, j < k.num_defined_locks → mutex_is_locked (k.user_locks j) = false) →
      (syscall_unlock (syscall_lock k m).2 m).highest_priority_lock = none ∧
      k.highest_priority_lock = none) ∧
    (∀ h, (syscall_unlock (syscall_lock k m).2 m).highest_priority_lock = some h →
      h < k.num_defined_locks ∧ mutex_is_locked (k.user_locks h) = true ∧
      (k.user_locks h).priority_ceiling = k.global_priority_ceiling ∧
      ∀ j, j < h → mutex_is_locked (k.user_locks j) = true →
        k.global_priority_ceiling < (k.user_locks j).priority_ceiling) ∧
    ((∀ h, k.highest_priority_lock = some h →
        ∀ j, j < h → mutex_is_locked (k.user_locks j) = true →
          k.global_priority_ceiling < (k.user_locks j).priority_ceiling) →
      (syscall_unlock (syscall_lock k m).2 m).highest_priority_lock
        = k.highest_priority_lock) := by
  obtain ⟨hfree, hform⟩ := lock_acquired_form k m hrank hacq
  obtain ⟨r1, r2, r3, r4, r5⟩ := round_trip_locks k m hfree
  rw [hform]
  generalize lock_acquired
    { k with user_locks := store k.user_locks m { k.user_locks m with s := 0 } } m = kA
    at r1 r2 r3 r4 r5
  obtain ⟨th, hg, hh⟩ := unlock_ceiling_vars kA m r1
  have hlocks := unlock_locks kA m r1
  obtain ⟨s1, s2, s3⟩ := unlock_scan_sel
    (store kA.user_locks m (release_mutex (kA.user_locks m)))
    kA.active_thread_index th kA.num_defined_locks
  have s4 := unlock_scan_first
    (store kA.user_locks m (release_mutex (kA.user_locks m)))
    kA.active_thread_index th kA.num_defined_locks
  rw [← hlocks] at hg hh s1 s2 s3 s4
  simp only [← hg, ← hh] at s1 s2 s3 s4
  rw [r4] at s1 s2 s3
  generalize syscall_unlock kA m = kB at r5 hg hh hlocks s1 s2 s3 s4
  -- the scan, read on the lock table before the lock
  have t1 : ∀ j, j < k.num_defined_locks → mutex_is_locked (k.user_locks j) = true →
      kB.global_priority_ceiling ≤ (k.user_locks j).priority_ceiling := by
    intro j hj hjl
    have := s1 j hj (by rw [(r5 j).1]; exact hjl)
    rw [(r5 j).2] at this
    exact this
  have t3 : ∀ h, kB.highest_priority_lock = some h →
      h < k.num_defined_locks ∧ mutex_is_locked (k.user_locks h) = true ∧
      (k.user_locks h).priority_ceiling = kB.global_priority_ceiling ∧
      ∀ j, j < h → mutex_is_locked (k.user_locks j) = true →
        kB.global_priority_ceiling < (k.user_locks j).priority_ceiling := by
    intro h hq
    obtain ⟨x1, x2, x3⟩ := s3 h hq
    rw [(r5 h).1] at x2
    rw [(r5 h).2] at x3
    refine ⟨x1, x2, x3, ?_⟩
    intro j hj hjl
    have := s4 h hq j hj (by rw [(r5 j).1]; exact hjl)
    rw [(r5 j).2] at this
    exact this
  obtain ⟨i1, i2, i3⟩ := hinv
  -- the two ceilings agree
  have hgpc : kB.global_priority_ceiling = k.global_priority_ceiling ∧
      ((∀ j, j < k.num_defined_locks → mutex_is_locked (k.user_locks j) = false) →
        kB.highest_priority_lock = none ∧ k.highest_priority_lock = none) := by
    by_cases hex : ∃ j, j < k.num_defined_locks ∧ mutex_is_locked (k.user_locks j) = true
    · obtain ⟨h0, hp0, hlt0, hl0, hc0⟩ := i2 hex
      refine ⟨?_, ?_⟩
      · cases hq : kB.highest_priority_lock with
        | none =>
          obtain ⟨_, hall⟩ := s2 hq
          have hr := hres h0 hlt0
          have := hall h0 hlt0 (by rw [(r5 h0).1]; exact hl0)
          rw [(r5 h0).2] at this
          exact absurd hr this
        | some h' =>
          obtain ⟨y1, y2, y3, _⟩ := t3 h' hq
          have a1 := t1 h0 hlt0 hl0
          have a2 := i1 h' y1 y2
          omega
      · intro hnone
        obtain ⟨j, hj, hjl⟩ := hex
        rw [hnone j hj] at hjl
        cases hjl
    · obtain ⟨g0, p0⟩ := i3 hex
      have hB : kB.highest_priority_lock = none := by
        cases hq : kB.highest_priority_lock with
        | none => rfl
        | some h' =>
          obtain ⟨y1, y2, _, _⟩ := t3 h' hq
          exact absurd ⟨h', y1, y2⟩ hex
      refine ⟨?_, fun _ => ⟨hB, p0⟩⟩
      rw [g0]
      exact (s2 hB).1
  obtain ⟨hgeq, hnone⟩ := hgpc
  refine ⟨r1, r2, r3, hgeq, hnone, ?_, ?_⟩
  · intro h hq
    obtain ⟨y1, y2, y3, y4⟩ := t3 h hq
    rw [hgeq] at y3 y4
    exact ⟨y1, y2, y3, y4⟩
  · intro hfirst
    by_cases hex : ∃ j, j < k.num_defined_locks ∧ mutex_is_locked (k.user_locks j) = true
    · obtain ⟨h0, hp0, hlt0, hl0, hc0⟩ := i2 hex
      cases hq : kB.highest_priority_lock with
      | none =>
        obtain ⟨_, hall⟩ := s2 hq
        have hr := hres h0 hlt0
        have := hall h0 hlt0 (by rw [(r5 h0).1]; exact hl0)
        rw [(r5 h0).2] at this
        exact absurd hr this
      | some h' =>
        obtain ⟨y1, y2, y3, y4⟩ := t3 h' hq
        rw [hgeq] at y3 y4
        rw [hp0]
        have e : h' = h0 := by
          rcases Nat.lt_trichotomy h' h0 with hlt | heq | hgt
          · have := hfirst h0 hp0 h' hlt y2
            omega
          · exact heq
          · have := y4 h0 hgt hl0
            omega
        rw [e]
    · have hall : ∀ j, j < k.num_defined_locks → mutex_is_locked (k.user_locks j) = false := by
        intro j hj
        by_contra hh
        exact hex ⟨j, hj, by simpa using hh⟩
      obtain ⟨a, b⟩ := hnone hall
      rw [a, b]

/-- The state `one_lock_state` satisfies the ceiling invariant. -/
theorem one_lock_state_ceiling : ceiling_inv one_lock_state :=
  ⟨by decide!, fun _ => ⟨1, by decide!, by decide!, by decide!, by decide!⟩,
    fun h => absurd (by decide!) h⟩

theorem one_lock_state_resolved : ceilings_resolved one_lock_state := by
  unfold ceilings_resolved
  decide!

/-- C12 at `one_lock_state`: the task holds mutex 1, takes mutex 0 at once and
releases it; the ceiling and `highest_priority_lock` are as before the lock. -/
theorem C12_lock_unlock_round_trip_witness :
    (syscall_lock one_lock_state 0).1 = lock_exit.Acquired ∧
    mutex_is_locked ((syscall_lock one_lock_state 0).2.user_locks 0) = true ∧
    (syscall_unlock (syscall_lock one_lock_state 0).2 0).global_priority_ceiling
      = one_lock_state.global_priority_ceiling ∧
    (syscall_unlock (syscall_lock one_lock_state 0).2 0).highest_priority_lock
      = one_lock_state.highest_priority_lock :=
  ⟨by decide!,
    (C12_lock_unlock_round_trip one_lock_state 0 one_lock_state_ceiling
      one_lock_state_resolved (by decide!) (by decide!)).1,
    (C12_lock_unlock_round_trip one_lock_state 0 one_lock_state_ceiling
      one_lock_state_resolved (by decide!) (by decide!)).2.2.2.1,
    (C12_lock_unlock_round_trip one_lock_state 0 one_lock_state_ceiling
      one_lock_state_resolved (by decide!) (by decide!)).2.2.2.2.2.2 (by decide!)⟩

/-- C17 (amended).  `MemFault_C_Handler` run for an active user or idle task: when the
faulting stack pointer is outside the process-stack band `[limit, base)` of the task
the handler leaves through `syscall_exit` with
`THREAD_MEMORY_OUT_OF_BOUNDS_ACCESS`, so that it never returns and no kernel variable
is written; when the pointer is inside the band the handler returns after
`syscall_thread_end`. -/
theorem C17_stack_fault_exits_application (k : Kernel)
    (psp user_process_stack_base user_process_stack_limit : Nat)
    (ha : k.active_thread_index < k.num_user_threads + 1) :
    ((psp < (k.user_threads k.active_thread_index).limit_process_stack ∨
        (k.user_threads k.active_thread_index).base_process_stack ≤ psp) →
      MemFault_C_Handler k psp user_process_stack_base user_process_stack_limit
        = fault_outcome.Exited THREAD_MEMORY_OUT_OF_BOUNDS_ACCESS) ∧
    (((k.user_threads k.active_thread_index).limit_process_stack ≤ psp ∧
        psp < (k.user_threads k.active_thread_index).base_process_stack) →
      MemFault_C_Handler k psp user_process_stack_base user_process_stack_limit
        = fault_outcome.Ended (syscall_thread_end k)) := by
  unfold MemFault_C_Handler syscall_exit
  simp only
  refine ⟨?_, ?_⟩
  · intro h
    by_cases hb : psp ≥ (k.user_threads k.active_thread_index).base_process_stack
    · rw [if_pos ⟨ha, hb⟩]
    · rw [if_neg (fun hh => hb hh.2)]
      have hl : psp < (k.user_threads k.active_thread_index).limit_process_stack := by
        rcases h with h | h
        · exact h
        · exact absurd h hb
      rw [if_pos ⟨ha, hl⟩]
  · rintro ⟨h1, h2⟩
    rw [if_neg (fun hh => by have := hh.2; omega), if_neg (fun hh => by have := hh.2; omega),
      if_neg (fun hh => by have := hh.1; omega), if_neg (fun hh => by have := hh.1; omega)]

/-- C17 at scenario S5, and at a fault of the same task inside its band. -/
theorem C17_stack_fault_exits_application_witness :
    scenario_S5.active_thread_index < scenario_S5.num_user_threads + 1 ∧
    MemFault_C_Handler scenario_S5 0x2000FFFC 0x20008000 0x20000000
      = fault_outcome.Exited THREAD_MEMORY_OUT_OF_BOUNDS_ACCESS ∧
    MemFault_C_Handler scenario_S5 0x20010200 0x20008000 0x20000000
      = fault_outcome.Ended (syscall_thread_end scenario_S5) :=
  ⟨by decide!,
    (C17_stack_fault_exits_application scenario_S5 0x2000FFFC 0x20008000 0x20000000
      (by decide!)).1 (Or.inl (by decide!)),
    (C17_stack_fault_exits_application scenario_S5 0x20010200 0x20008000 0x20000000
      (by decide!)).2 ⟨by decide!, by decide!⟩⟩

/-- A loop whose every iteration keeps the id, `t` and static priority of every TCB
keeps them. -/
theorem fold_rank_frame (f : (Nat → tcb_t) → Nat → (Nat → tcb_t))
    (hf : ∀ th x i, ((f th x) i).id = (th i).id ∧ ((f th x) i).t = (th i).t ∧
      ((f th x) i).static_priority = (th i).static_priority)
    (l : List Nat) (th : Nat → tcb_t) (i : Nat) :
    ((l.foldl f th) i).id = (th i).id ∧ ((l.foldl f th) i).t = (th i).t ∧
      ((l.foldl f th) i).static_priority = (th i).static_priority := by
  induction l generalizing th with
  | nil => exact ⟨rfl, rfl, rfl⟩
  | cons x l ih =>
    rw [List.foldl_cons]
    obtain ⟨a1, a2, a3⟩ := ih (f th x)
    obtain ⟨b1, b2, b3⟩ := hf th x i
    exact ⟨a1.trans b1, a2.trans b2, a3.trans b3⟩

theorem wake_one_rank (th : Nat → tcb_t) (x i : Nat) :
    ((wake_one th x) i).id = (th i).id ∧ ((wake_one th x) i).t = (th i).t ∧
      ((wake_one th x) i).static_priority = (th i).static_priority := by
  unfold wake_one
  by_cases h : i = x
  · subst h
    rw [store_same]
    exact ⟨rfl, rfl, rfl⟩
  · rw [store_other _ _ _ _ h]
    exact ⟨rfl, rfl, rfl⟩

theorem inherit_from_rank (a : Nat) (th : Nat → tcb_t) (x i : Nat) :
    ((inherit_from a th x) i).id = (th i).id ∧ ((inherit_from a th x) i).t = (th i).t ∧
      ((inherit_from a th x) i).static_priority = (th i).static_priority := by
  unfold inherit_from
  by_cases h : i = a
  · subst h
    rw [store_same]
    exact ⟨rfl, rfl, rfl⟩
  · rw [store_other _ _ _ _ h]
    exact ⟨rfl, rfl, rfl⟩

theorem reset_priority_rank (th : Nat → tcb_t) (a i : Nat) :
    ((reset_priority th a) i).id = (th i).id ∧ ((reset_priority th a) i).t = (th i).t ∧
      ((reset_priority th a) i).static_priority = (th i).static_priority := by
  unfold reset_priority
  by_cases h : i = a
  · subst h
    rw [store_same]
    exact ⟨rfl, rfl, rfl⟩
  · rw [store_other _ _ _ _ h]
    exact ⟨rfl, rfl, rfl⟩

theorem unlock_scan_rank (locks : Nat → mutex_t) (a : Nat) (th : Nat → tcb_t) (n i : Nat) :
    (((unlock_scan locks a n th).1) i).id = (th i).id ∧
    (((unlock_scan locks a n th).1) i).t = (th i).t ∧
    (((unlock_scan locks a n th).1) i).static_priority = (th i).static_priority := by
  induction n with
  | zero => exact ⟨rfl, rfl, rfl⟩
  | succ n ih =>
    rw [unlock_scan_succ]
    generalize unlock_scan locks a n th = r at ih
    obtain ⟨tb, g, h⟩ := r
    simp only at ih
    unfold unlock_scan_step
    simp only
    by_cases hl : mutex_is_locked (locks n) = true
    · rw [if_pos hl]
      by_cases hc : (locks n).current_locker = some a
      · rw [if_pos hc]
        simp only
        obtain ⟨b1, b2, b3⟩ := fold_rank_frame (inherit_from a) (inherit_from_rank a)
          (locks n).blocked_threads tb i
        unfold reinherit
        exact ⟨b1.trans ih.1, b2.trans ih.2.1, b3.trans ih.2.2⟩
      · rw [if_neg hc]
        exact ih
    · rw [if_neg hl]
      exact ih

/-- `syscall_unlock` changes no id, no `t` and no static priority. -/
theorem unlock_rank (k : Kernel) (m i : Nat) :
    ((syscall_unlock k m).user_threads i).id = (k.user_threads i).id ∧
    ((syscall_unlock k m).user_threads i).t = (k.user_threads i).t ∧
    ((syscall_unlock k m).user_threads i).static_priority
      = (k.user_threads i).static_priority := by
  by_cases h : mutex_is_locked (k.user_locks m) = true
  · rw [unlock_threads k m h]
    obtain ⟨a1, a2, a3⟩ := unlock_scan_rank
      (store k.user_locks m (release_mutex (k.user_locks m))) k.active_thread_index
      (reset_priority (wake_blocked k.user_threads (k.user_locks m).blocked_threads)
        k.active_thread_index) k.num_defined_locks i
    obtain ⟨b1, b2, b3⟩ := reset_priority_rank
      (wake_blocked k.user_threads (k.user_locks m).blocked_threads) k.active_thread_index i
    obtain ⟨c1, c2, c3⟩ := fold_rank_frame wake_one wake_one_rank
      (k.user_locks m).blocked_threads k.user_threads i
    have d1 := (a1.trans b1).trans c1
    have d2 := (a2.trans b2).trans c2
    have d3 := (a3.trans b3).trans c3
    by_cases hi : i = k.active_thread_index
    · rw [hi, store_same]
      rw [hi] at d1 d2 d3
      exact ⟨d1, d2, d3⟩
    · rw [store_other _ _ _ _ hi]
      exact ⟨d1, d2, d3⟩
  · have hf : mutex_is_locked (k.user_locks m) = false := by simpa using h
    rw [unlock_free k m hf]
    exact ⟨rfl, rfl, rfl⟩

theorem thread_end_fold_rank (n : Nat) (k : Kernel) (i : Nat) :
    (((List.range n).foldl thread_end_release k).user_threads i).id = (k.user_threads i).id ∧
    (((List.range n).foldl thread_end_release k).user_threads i).t = (k.user_threads i).t ∧
    (((List.range n).foldl thread_end_release k).user_threads i).static_priority
      = (k.user_threads i).static_priority := by
  induction n with
  | zero => exact ⟨rfl, rfl, rfl⟩
  | succ n ih =>
    rw [List.range_succ, List.foldl_append]
    simp only [List.foldl_cons, List.foldl_nil]
    generalize (List.range n).foldl thread_end_release k = k1 at ih
    unfold thread_end_release
    split_ifs
    · obtain ⟨a1, a2, a3⟩ := unlock_rank k1 n i
      exact ⟨a1.trans ih.1, a2.trans ih.2.1, a3.trans ih.2.2⟩
    · exact ih

/-- `syscall_thread_end` changes no id, no `t` and no static priority. -/
theorem thread_end_rank (k : Kernel) (i : Nat) :
    ((syscall_thread_end k).user_threads i).id = (k.user_threads i).id ∧
    ((syscall_thread_end k).user_threads i).t = (k.user_threads i).t ∧
    ((syscall_thread_end k).user_threads i).static_priority
      = (k.user_threads i).static_priority := by
  unfold syscall_thread_end
  by_cases h : k.active_thread_index = k.num_user_threads
  · rw [if_pos h]
    exact ⟨rfl, rfl, rfl⟩
  · rw [if_neg h]
    simp only
    obtain ⟨a1, a2, a3⟩ := thread_end_fold_rank k.num_user_locks k i
    generalize (List.range k.num_user_locks).foldl thread_end_release k = k1 at a1 a2 a3
    by_cases hi : i = k1.active_thread_index
    · rw [hi, store_same]
      rw [hi] at a1 a2 a3
      exact ⟨a1, a2, a3⟩
    · rw [store_other _ _ _ _ hi]
      exact ⟨a1, a2, a3⟩

/-- C18 (amended).  `syscall_thread_end` does not re-rank: the id, the period `t` and
the static priority of every TCB are what they were before the call, so two TCBs
whose static priorities were ordered by `(t, id)` before the call still are after
it. -/
theorem C18_thread_end_keeps_ranks (k : Kernel) (i j : Nat)
    (h : (k.user_threads i).static_priority < (k.user_threads j).static_priority ↔
      ((k.user_threads i).t < (k.user_threads j).t ∨
        ((k.user_threads i).t = (k.user_threads j).t ∧
          (k.user_threads i).id < (k.user_threads j).id))) :
    ((syscall_thread_end k).user_threads i).static_priority
      = (k.user_threads i).static_priority ∧
    ((syscall_thread_end k).user_threads i).t = (k.user_threads i).t ∧
    ((syscall_thread_end k).user_threads i).id = (k.user_threads i).id ∧
    (((syscall_thread_end k).user_threads i).static_priority
        < ((syscall_thread_end k).user_threads j).static_priority ↔
      (((syscall_thread_end k).user_threads i).t < ((syscall_thread_end k).user_threads j).t ∨
        (((syscall_thread_end k).user_threads i).t = ((syscall_thread_end k).user_threads j).t ∧
          ((syscall_thread_end k).user_threads i).id
            < ((syscall_thread_end k).user_threads j).id))) := by
  obtain ⟨a1, a2, a3⟩ := thread_end_rank k i
  obtain ⟨b1, b2, b3⟩ := thread_end_rank k j
  rw [a1, a2, a3, b1, b2, b3]
  exact ⟨rfl, rfl, rfl, h⟩

/-- C18 at `rank_gap_start`, where H (slot 1) ends and L (slot 0) stays: L keeps
static priority 1. -/
theorem C18_thread_end_keeps_ranks_witness :
    ((syscall_thread_end rank_gap_start).user_threads 0).static_priority = 1 ∧
    ((syscall_thread_end rank_gap_start).user_threads 1).static_priority = 0 :=
  ⟨(C18_thread_end_keeps_ranks rank_gap_start 0 1 (by decide!)).1.trans (by decide!),
    (C18_thread_end_keeps_ranks rank_gap_start 1 0 (by decide!)).1.trans (by decide!)⟩

/-- The search loop of `syscall_thread_define` reports a duplicate as soon as a live
user TCB carries `id`. -/
theorem define_search_dup (th : Nat → tcb_t) (id N n : Nat) (b : Bool)
    (h : b = true ∨ ∃ i, i < n ∧ (th i).id = id ∧ (th i).state ≠ ThreadDefunct) :
    ((List.range n).foldl (define_search_step th id) (b, N)).1 = true := by
  induction n with
  | zero =>
    rcases h with h | ⟨i, hi, _⟩
    · simpa using h
    · omega
  | succ n ih =>
    rw [List.range_succ, List.foldl_append]
    simp only [List.foldl_cons, List.foldl_nil]
    by_cases hprev : b = true ∨ ∃ i, i < n ∧ (th i).id = id ∧ (th i).state ≠ ThreadDefunct
    · have := ih hprev
      generalize (List.range n).foldl (define_search_step th id) (b, N) = r at this
      unfold define_search_step
      rw [if_pos this]
      exact this
    · have hn : (th n).id = id ∧ (th n).state ≠ ThreadDefunct := by
        rcases h with h | ⟨i, hi, h1, h2⟩
        · exact absurd (Or.inl h) hprev
        · rcases Nat.lt_succ_iff_lt_or_eq.mp hi with hlt | heq
          · exact absurd (Or.inr ⟨i, hlt, h1, h2⟩) hprev
          · subst heq; exact ⟨h1, h2⟩
      generalize (List.range n).foldl (define_search_step th id) (b, N) = r
      unfold define_search_step
      by_cases hr : r.1 = true
      · rw [if_pos hr]
        exact hr
      · rw [if_neg hr, if_pos hn]

/-- C20.  The error codes of `syscall_thread_define`, in the order of the checks:
`THREAD_DEFINE_INVALID_ARGS` for a null `fn`, `c = 0`, `t = 0` or `c > t`; otherwise
`THREAD_DEFINE_NO_TCB` when no `multitask_request` has succeeded; otherwise
`THREAD_DEFINE_DUPLICATE` when a user TCB that is not Defunct has this id; otherwise
`THREAD_DEFINE_NO_TCB` when no user slot is Defunct.  In each case the kernel state
is returned unchanged.  When every user TCB with this id is Defunct the call does not
return `THREAD_DEFINE_DUPLICATE`. -/
theorem C20_thread_define_error_codes (k : Kernel) (id fn arg c t : Nat) :
    ((fn = 0 ∨ c = 0 ∨ t = 0 ∨ c > t) →
      syscall_thread_define k id fn arg c t = some (THREAD_DEFINE_INVALID_ARGS, k)) ∧
    (¬ (fn = 0 ∨ c = 0 ∨ t = 0 ∨ c > t) → k.multitask_request_called = 0 →
      syscall_thread_define k id fn arg c t = some (THREAD_DEFINE_NO_TCB, k)) ∧
    (¬ (fn = 0 ∨ c = 0 ∨ t = 0 ∨ c > t) → k.multitask_request_called ≠ 0 →
      (∃ i, i < k.num_user_threads ∧ (k.user_threads i).id = id ∧
        (k.user_threads i).state ≠ ThreadDefunct) →
      syscall_thread_define k id fn arg c t = some (THREAD_DEFINE_DUPLICATE, k)) ∧
    (¬ (fn = 0 ∨ c = 0 ∨ t = 0 ∨ c > t) → k.multitask_request_called ≠ 0 →
      (¬ ∃ i, i < k.num_user_threads ∧ (k.user_threads i).id = id ∧
        (k.user_threads i).state ≠ ThreadDefunct) →
      (∀ i, i < k.num_user_threads → (k.user_threads i).state ≠ ThreadDefunct) →
      syscall_thread_define k id fn arg c t = some (THREAD_DEFINE_NO_TCB, k)) ∧
    (¬ (fn = 0 ∨ c = 0 ∨ t = 0 ∨ c > t) → k.multitask_request_called ≠ 0 →
      (¬ ∃ i, i < k.num_user_threads ∧ (k.user_threads i).id = id ∧
        (k.user_threads i).state ≠ ThreadDefunct) →
      ∀ k', syscall_thread_define k id fn arg c t ≠ some (THREAD_DEFINE_DUPLICATE, k')) := by
  refine ⟨?_, ?_, ?_, ?_, ?_⟩
  · intro h
    unfold syscall_thread_define
    rw [if_pos h]
  · intro h h0
    unfold syscall_thread_define
    rw [if_neg h, if_pos h0]
  · intro h h0 hdup
    unfold syscall_thread_define
    rw [if_neg h, if_neg h0]
    simp only
    rw [if_pos (define_search_dup k.user_threads id k.num_user_threads k.num_user_threads false
      (Or.inr hdup))]
  · intro h h0 hnodup hfull
    have hid : ∀ i < k.num_user_threads, (k.user_threads i).state ≠ ThreadDefunct →
        (k.user_threads i).id ≠ id := fun i hi hs he => hnodup ⟨i, hi, he, hs⟩
    obtain ⟨s1, _, s3⟩ := define_search_spec k.user_threads id k.num_user_threads
      k.num_user_threads hid
    have s3' := s3 (fun ⟨i, hi, hd⟩ => hfull i hi hd)
    unfold syscall_thread_define
    rw [if_neg h, if_neg h0]
    simp only
    rw [s1, s3']
    simp
  · intro h h0 hnodup k' heq
    have hid : ∀ i < k.num_user_threads, (k.user_threads i).state ≠ ThreadDefunct →
        (k.user_threads i).id ≠ id := fun i hi hs he => hnodup ⟨i, hi, he, hs⟩
    obtain ⟨s1, _, _⟩ := define_search_spec k.user_threads id k.num_user_threads
      k.num_user_threads hid
    unfold syscall_thread_define at heq
    rw [if_neg h, if_neg h0] at heq
    simp only at heq
    rw [s1] at heq
    simp only [Bool.false_eq_true, if_false] at heq
    split at heq
    · simp [THREAD_DEFINE_NO_TCB, THREAD_DEFINE_DUPLICATE] at heq
    · split at heq
      · cases heq
      · split at heq
        · simp [SUCCESS, THREAD_DEFINE_DUPLICATE] at heq
        · simp [THREAD_DEFINE_UNSAFE_ADMISSION, THREAD_DEFINE_DUPLICATE] at heq

/-- C20 at concrete calls: a null `fn`; a call before `multitask_request`; the id 2
of a live task of scenario S2; a new id with the only slot taken; and the id 1 of the
task that has ended in `rank_gap_start`. -/
theorem C20_thread_define_error_codes_witness :
    syscall_thread_define boot 1 0 0 1 2 = some (THREAD_DEFINE_INVALID_ARGS, boot) ∧
    syscall_thread_define boot 1 1 0 1 2 = some (THREAD_DEFINE_NO_TCB, boot) ∧
    syscall_thread_define scenario_S2 2 1 0 1 2
      = some (THREAD_DEFINE_DUPLICATE, scenario_S2) ∧
    syscall_thread_define (after_define (after_request 1 0) 1 1 2) 5 1 0 1 2
      = some (THREAD_DEFINE_NO_TCB, after_define (after_request 1 0) 1 1 2) ∧
    ((syscall_thread_end rank_gap_start).user_threads 1).id = 1 ∧
    ∀ k', syscall_thread_define (syscall_thread_end rank_gap_start) 1 1 0 1 2
      ≠ some (THREAD_DEFINE_DUPLICATE, k') :=
  ⟨(C20_thread_define_error_codes boot 1 0 0 1 2).1 (Or.inl rfl),
    (C20_thread_define_error_codes boot 1 1 0 1 2).2.1 (by decide) rfl,
    (C20_thread_define_error_codes scenario_S2 2 1 0 1 2).2.2.1 (by decide) (by decide!)
      (by decide!),
    (C20_thread_define_error_codes (after_define (after_request 1 0) 1 1 2) 5 1 0 1 2).2.2.2.1
      (by decide) (by decide!) (by decide!) (by decide!),
    by decide!,
    (C20_thread_define_error_codes (syscall_thread_end rank_gap_start) 1 1 0 1 2).2.2.2.2
      (by decide) (by decide!) (by decide!)⟩

/-- With `num_active_threads` not 0, `schedule_rms` returns the slot `i` of a Ready
user TCB whose dynamic priority (below `0xFFFFFFFF`) is at most that of every Ready
user TCB and less than that of every Ready user TCB in a lower slot. -/
theorem schedule_rms_least (k : Kernel) (hna : k.num_active_threads ≠ 0) (i : Nat)
    (hi : i < k.num_user_threads) (hr : (k.user_threads i).state = ThreadReady)
    (hd : (k.user_threads i).dynamic_priority < 0xFFFFFFFF)
    (hmin : ∀ j, j < k.num_user_threads → (k.user_threads j).state = ThreadReady →
      (k.user_threads i).dynamic_priority ≤ (k.user_threads j).dynamic_priority ∧
      (j < i → (k.user_threads i).dynamic_priority < (k.user_threads j).dynamic_priority)) :
    (schedule_rms k).1 = i := by
  unfold schedule_rms
  rw [if_neg hna]
  simp only
  obtain ⟨_, hsel⟩ := schedule_rms_fold_spec k.preemption_flag k.user_threads
    k.num_user_threads k.num_user_threads
  generalize (List.range k.num_user_threads).foldl (schedule_rms_step k.preemption_flag)
    (k.user_threads, 0xFFFFFFFF, k.num_user_threads) = r at hsel
  rcases hsel with ⟨hnone, _⟩ | ⟨h1, h2, h3, h4, h5⟩
  · exact absurd ⟨hr, hd⟩ (hnone i hi)
  · obtain ⟨a1, a2⟩ := h5 i hi hr
    obtain ⟨b1, b2⟩ := hmin r.2.2 h1 h2
    rcases Nat.lt_trichotomy r.2.2 i with hlt | heq | hgt
    · have := b2 hlt
      omega
    · exact heq
    · have := a2 hgt
      omega

theorem s4_lock (k : Kernel)
    (ha : k.active_thread_index = 2)
    (hH : (k.user_threads 2).static_priority = 0 ∧ (k.user_threads 2).dynamic_priority = 0)
    (hK : (k.user_locks 0).priority_ceiling = 0 ∧ (k.user_locks 0).s = 0 ∧
      (k.user_locks 0).current_locker = some 0 ∧ (k.user_locks 0).blocked_threads = [])
    (hg : k.global_priority_ceiling = 0 ∧ k.highest_priority_lock = some 0) :
    syscall_lock k 0 = (lock_exit.Pended, lock_blocked k 0) := by
  obtain ⟨hH1, hH2⟩ := hH
  obtain ⟨hK1, hK2, hK3, hK4⟩ := hK
  obtain ⟨hg1, hg2⟩ := hg
  simp [syscall_lock, syscall_lock_entry, lock_held_check, syscall_lock_attempt, may_try,
    ceiling_holder, ha, hH1, hH2, hK1, hK3, hg1, hg2]

theorem s4_blocked (k : Kernel)
    (ha : k.active_thread_index = 2)
    (hH : (k.user_threads 2).static_priority = 0 ∧ (k.user_threads 2).dynamic_priority = 0)
    (hM : (k.user_threads 1).dynamic_priority = 1 ∧ (k.user_threads 1).state = ThreadReady)
    (hL : (k.user_threads 0).static_priority = 2 ∧ (k.user_threads 0).dynamic_priority = 2 ∧
      (k.user_threads 0).state = ThreadReady)
    (hK : (k.user_locks 0).priority_ceiling = 0 ∧ (k.user_locks 0).s = 0 ∧
      (k.user_locks 0).current_locker = some 0 ∧ (k.user_locks 0).blocked_threads = []) :
    ((lock_blocked k 0).user_threads 0).dynamic_priority = 0 ∧
    ((lock_blocked k 0).user_threads 0).static_priority = 2 ∧
    ((lock_blocked k 0).user_threads 0).state = ThreadReady ∧
    ((lock_blocked k 0).user_threads 1).dynamic_priority = 1 ∧
    ((lock_blocked k 0).user_threads 1).state = ThreadReady ∧
    ((lock_blocked k 0).user_threads 2).dynamic_priority = 0 ∧
    ((lock_blocked k 0).user_threads 2).state = ThreadBlocked ∧
    ((lock_blocked k 0).user_locks 0).blocked_threads = [2] ∧
    ((lock_blocked k 0).user_locks 0).s = 0 ∧
    ((lock_blocked k 0).user_locks 0).current_locker = some 0 ∧
    (lock_blocked k 0).active_thread_index = 2 ∧
    (lock_blocked k 0).num_user_threads = k.num_user_threads ∧
    (lock_blocked k 0).num_active_threads = k.num_active_threads ∧
    (lock_blocked k 0).num_defined_locks = k.num_defined_locks ∧
    (lock_blocked k 0).preemption_flag = k.preemption_flag := by
  obtain ⟨hH1, hH2⟩ := hH
  obtain ⟨hM1, hM2⟩ := hM
  obtain ⟨hL1, hL2, hL3⟩ := hL
  obtain ⟨hK1, hK2, hK3, hK4⟩ := hK
  simp [lock_blocked, mutex_is_locked, enqueue, block_caller, inherit_from, store, MIN,
    ha, hH1, hH2, hM1, hM2, hL1, hL2, hL3, hK1, hK2, hK3, hK4]

/-- A run of the PendSV handler that was not pended by the tick and whose scheduler
pass selects a slot `i` other than the active one: the context of the active slot is
saved and slot `i` is marked Running and becomes the active slot. -/
theorem context_switch_to (k : Kernel) (hf : k.preemption_flag = 0) (i : Nat)
    (hsel : (schedule_rms k).1 = i) (hne : i ≠ k.active_thread_index) (hi : i < 256) :
    (context_switch k).active_thread_index = i ∧
    (context_switch k).user_threads
      = mark_running (save_context k.user_threads k.active_thread_index 0 0 0) i ∧
    (context_switch k).user_locks = k.user_locks ∧
    (context_switch k).num_defined_locks = k.num_defined_locks ∧
    (context_switch k).num_user_threads = k.num_user_threads ∧
    (context_switch k).num_active_threads = k.num_active_threads := by
  have hf' : ({ k with pendsv := false } : Kernel).preemption_flag = 0 := hf
  obtain ⟨r1, _⟩ := schedule_rms_noflag { k with pendsv := false } hf'
  have hsel' : (schedule_rms { k with pendsv := false }).1 = i := by
    rw [← hsel]
    unfold schedule_rms
    split_ifs <;> rfl
  have hu8 : u8 i = i := by
    unfold u8
    exact Nat.mod_eq_of_lt (by omega)
  unfold context_switch PendSV_C_Handler
  simp only
  rw [if_neg (by simp [hf]), r1, hsel']
  unfold switch_to
  simp only
  rw [if_neg hne, hu8]
  exact ⟨rfl, rfl, rfl, rfl, rfl, rfl⟩

/-- The unlock stage of scenario S4: L (slot 0, static priority 2, inherited priority
0) is the active task and releases K (mutex 0, the only defined mutex), on which H
(slot 2) is blocked. -/
theorem s4_unlock (k : Kernel)
    (ha : k.active_thread_index = 0) (hnd : k.num_defined_locks = 1)
    (hL : (k.user_threads 0).static_priority = 2)
    (hM : (k.user_threads 1).dynamic_priority = 1 ∧ (k.user_threads 1).state = ThreadReady)
    (hH : (k.user_threads 2).dynamic_priority = 0)
    (hK : (k.user_locks 0).s = 0 ∧ (k.user_locks 0).blocked_threads = [2]) :
    ((syscall_unlock k 0).user_threads 0).dynamic_priority = 2 ∧
    ((syscall_unlock k 0).user_threads 0).state = ThreadReady ∧
    ((syscall_unlock k 0).user_threads 1).dynamic_priority = 1 ∧
    ((syscall_unlock k 0).user_threads 1).state = ThreadReady ∧
    ((syscall_unlock k 0).user_threads 2).dynamic_priority = 0 ∧
    ((syscall_unlock k 0).user_threads 2).state = ThreadReady ∧
    (syscall_unlock k 0).global_priority_ceiling = 0xFFFFFFFF ∧
    (syscall_unlock k 0).highest_priority_lock = none ∧
    (syscall_unlock k 0).num_user_threads = k.num_user_threads ∧
    (syscall_unlock k 0).num_active_threads = k.num_active_threads := by
  obtain ⟨hM1, hM2⟩ := hM
  obtain ⟨hK1, hK2⟩ := hK
  simp [syscall_unlock, mutex_is_locked, wake_blocked, wake_one, release_mutex, mutex_unlock,
    reset_priority, unlock_scan, unlock_scan_step, store, List.range_succ,
    ha, hnd, hL, hM1, hM2, hH, hK1, hK2]

/-- C16.  Scenario S4 on every kernel state that matches it: three user slots with H
in slot 2, M in slot 1, L in slot 0 (static priorities 0, 1, 2), one defined mutex K
with ceiling 0 held by L with no waiter, H the active task, M and L Ready, no tick
pending.  `lock(K)` by H pends inside the loop: H is Blocked and on the blocked list
of K, and the dynamic priority of L is 0; the scheduler returns the slot of L, not
that of M, and the PendSV handler makes L the active task; `unlock(K)` by L puts the
dynamic priority of L back to 2, makes H Ready and the global ceiling `0xFFFFFFFF`
with a null `highest_priority_lock`, and the scheduler returns the slot of H. -/
theorem C16_scenario_S4 (k : Kernel)
    (hn : k.num_user_threads = 3) (hna : k.num_active_threads ≠ 0)
    (hnd : k.num_defined_locks = 1) (ha : k.active_thread_index = 2)
    (hf : k.preemption_flag = 0)
    (hH : (k.user_threads 2).static_priority = 0 ∧ (k.user_threads 2).dynamic_priority = 0)
    (hM : (k.user_threads 1).dynamic_priority = 1 ∧ (k.user_threads 1).state = ThreadReady)
    (hL : (k.user_threads 0).static_priority = 2 ∧ (k.user_threads 0).dynamic_priority = 2 ∧
      (k.user_threads 0).state = ThreadReady)
    (hK : (k.user_locks 0).priority_ceiling = 0 ∧ (k.user_locks 0).s = 0 ∧
      (k.user_locks 0).current_locker = some 0 ∧ (k.user_locks 0).blocked_threads = [])
    (hg : k.global_priority_ceiling = 0 ∧ k.highest_priority_lock = some 0) :
    (syscall_lock k 0).1 = lock_exit.Pended ∧
    ((syscall_lock k 0).2.user_threads 2).state = ThreadBlocked ∧
    ((syscall_lock k 0).2.user_locks 0).blocked_threads = [2] ∧
    ((syscall_lock k 0).2.user_threads 0).dynamic_priority = 0 ∧
    (schedule_rms (syscall_lock k 0).2).1 = 0 ∧
    (context_switch (syscall_lock k 0).2).active_thread_index = 0 ∧
    ((syscall_unlock (context_switch (syscall_lock k 0).2) 0).user_threads 0).dynamic_priority
      = 2 ∧
    ((syscall_unlock (context_switch (syscall_lock k 0).2) 0).user_threads 2).state
      = ThreadReady ∧
    (syscall_unlock (context_switch (syscall_lock k 0).2) 0).global_priority_ceiling
      = 0xFFFFFFFF ∧
    (syscall_unlock (context_switch (syscall_lock k 0).2) 0).highest_priority_lock = none ∧
    (schedule_rms (syscall_unlock (context_switch (syscall_lock k 0).2) 0)).1 = 2 := by
  rw [s4_lock k ha hH hK hg]
  obtain ⟨b1, b2, b3, b4, b5, b6, b7, b8, b9, b10, b11, b12, b13, b14, b15⟩ :=
    s4_blocked k ha hH hM hL hK
  simp only
  generalize lock_blocked k 0 = k1 at b1 b2 b3 b4 b5 b6 b7 b8 b9 b10 b11 b12 b13 b14 b15 ⊢
  rw [hn] at b12
  rw [hnd] at b14
  rw [hf] at b15
  have hsel1 : (schedule_rms k1).1 = 0 := by
    apply schedule_rms_least k1 (by rw [b13]; exact hna) 0 (by rw [b12]; omega) b3
      (by rw [b1]; decide)
    intro j hj hjr
    rw [b12] at hj
    have hcases : j = 0 ∨ j = 1 ∨ j = 2 := by omega
    rcases hcases with h | h | h <;> subst h
    · exact ⟨Nat.le_refl _, fun hh => absurd hh (by omega)⟩
    · rw [b1, b4]; exact ⟨by omega, fun hh => absurd hh (by omega)⟩
    · rw [b7] at hjr; cases hjr
  obtain ⟨c1, c2, c3, c4, c5, c6⟩ := context_switch_to k1 b15 0 hsel1 (by rw [b11]; decide)
    (by decide)
  rw [b11] at c2
  generalize context_switch k1 = k2 at c1 c2 c3 c4 c5 c6 ⊢
  have d0 : (k2.user_threads 0).static_priority = 2 := by
    rw [c2]; simp [mark_running, save_context, store, b2]
  have d1 : (k2.user_threads 1).dynamic_priority = 1 ∧ (k2.user_threads 1).state = ThreadReady := by
    rw [c2]; simp [mark_running, save_context, store, b4, b5]
  have d2 : (k2.user_threads 2).dynamic_priority = 0 := by
    rw [c2]; simp [mark_running, save_context, store, b6]
  have dK : (k2.user_locks 0).s = 0 ∧ (k2.user_locks 0).blocked_threads = [2] := by
    rw [c3]; exact ⟨b9, b8⟩
  obtain ⟨e1, e2, e3, e4, e5, e6, e7, e8, e9, e10⟩ :=
    s4_unlock k2 c1 (by rw [c4]; exact b14) d0 d1 d2 dK
  generalize syscall_unlock k2 0 = k3 at e1 e2 e3 e4 e5 e6 e7 e8 e9 e10 ⊢
  have hsel3 : (schedule_rms k3).1 = 2 := by
    apply schedule_rms_least k3 (by rw [e10, c6, b13]; exact hna) 2
      (by rw [e9, c5, b12]; omega) e6 (by rw [e5]; decide)
    intro j hj hjr
    rw [e9, c5, b12] at hj
    have hcases : j = 0 ∨ j = 1 ∨ j = 2 := by omega
    rcases hcases with h | h | h <;> subst h
    · rw [e5, e1]; exact ⟨by omega, fun _ => by omega⟩
    · rw [e5, e3]; exact ⟨by omega, fun _ => by omega⟩
    · exact ⟨Nat.le_refl _, fun hh => absurd hh (by omega)⟩
  exact ⟨trivial, b7, b8, b1, hsel1, c1, e1, e6, e7, e8, hsel3⟩

/-- C16 at `scenario_S4`, a state reached by the tasks H `(id 1, c 1, t 3)`, M
`(id 2, c 1, t 5)` and L `(id 3, c 1, t 8)` in timeslot 24. -/
theorem C16_scenario_S4_witness :
    scenario_S4.global_timeslot_counter = 24 ∧
    (syscall_lock scenario_S4 0).1 = lock_exit.Pended ∧
    ((syscall_lock scenario_S4 0).2.user_threads 2).state = ThreadBlocked ∧
    ((syscall_lock scenario_S4 0).2.user_locks 0).blocked_threads = [2] ∧
    ((syscall_lock scenario_S4 0).2.user_threads 0).dynamic_priority = 0 ∧
    (schedule_rms (syscall_lock scenario_S4 0).2).1 = 0 ∧
    (context_switch (syscall_lock scenario_S4 0).2).active_thread_index = 0 ∧
    ((syscall_unlock (context_switch (syscall_lock scenario_S4 0).2) 0).user_threads
      0).dynamic_priority = 2 ∧
    ((syscall_unlock (context_switch (syscall_lock scenario_S4 0).2) 0).user_threads 2).state
      = ThreadReady ∧
    (syscall_unlock (context_switch (syscall_lock scenario_S4 0).2) 0).global_priority_ceiling
      = 0xFFFFFFFF ∧
    (syscall_unlock (context_switch (syscall_lock scenario_S4 0).2) 0).highest_priority_lock
      = none ∧
    (schedule_rms (syscall_unlock (context_switch (syscall_lock scenario_S4 0).2) 0)).1 = 2 :=
  ⟨by decide!,
    C16_scenario_S4 scenario_S4 (by decide!) (by decide!) (by decide!) (by decide!)
      (by decide!) (by decide!) (by decide!) (by decide!) (by decide!) (by decide!)⟩

/-! ### Setup checks, counters and blocked lists at concrete inputs -/

/-- C21, evaluation at the failing input: `multitask_request(3, 2^30, ...)` on the
kernel as booted returns 0, although the stack size is a power of two and the exact
product `2^30 * (3 + 1)` exceeds 32768: the `uint32_t` product is 0. -/
theorem C21_wrapped_product_accepted :
    boot.multitask_request_called = 0 ∧
    ceil_log2 (2 ^ 30) = some 30 ∧
    2 ^ 30 * (3 + 1) > MAX_TOTAL_THREAD_STACK_SIZE ∧
    u32 (u32 (2 ^ 30) * u32 (3 + 1)) = 0 ∧
    huge_stack_request = some SUCCESS := by
  decide!

/-- C22, evaluation at the failing input: mutex 0 names the defined task 1, mutex 1
the undefined task 5.  `multitask_start` returns
`LOCK_SPECIFIES_NONEXISTENT_HIGHEST_LOCKER`, and the `priority_ceiling` of mutex 0,
`0xFFFFFFFF` before the call, is 0 after it. -/
theorem C22_failed_start_writes_ceiling :
    partial_validate_setup.num_defined_locks = 2 ∧
    (partial_validate_setup.user_locks 0).priority_ceiling = 0xFFFFFFFF ∧
    (syscall_multitask_start partial_validate_setup 1 0).1
      = LOCK_SPECIFIES_NONEXISTENT_HIGHEST_LOCKER ∧
    ((syscall_multitask_start partial_validate_setup 1 0).2.user_locks 0).priority_ceiling
      = 0 := by
  decide!

/-- C25, evaluation at the failing input: a single task with `c = t = 1`; after the
first tick its TCB is Waiting (not Defunct) with `time_until_release = 0xFFFFFFFF`,
above `t = 1`. -/
theorem C25_period_one_wraps :
    (syscall_thread_define (after_request 1 0) 1 1 0 1 1).map Prod.fst = some SUCCESS ∧
    ((single_task_start 1 1).user_threads 0).time_until_release = 0 ∧
    ((run_ticks (single_task_start 1 1) 1).user_threads 0).state = ThreadWaiting ∧
    ((run_ticks (single_task_start 1 1) 1).user_threads 0).t = 1 ∧
    ((run_ticks (single_task_start 1 1) 1).user_threads 0).time_until_release
      = 0xFFFFFFFF := by
  decide!

/-- C26, evaluation at the failing input: after `multitask_start` and the first run of
the PendSV handler the task in slot 0 is active and Running, and the TCB of the
bootstrap task in slot 2 is Running as well. -/
theorem C26_bootstrap_stays_running :
    (single_task_start 1 2).active_thread_index = 2 ∧
    ((single_task_start 1 2).user_threads 2).state = ThreadRunning ∧
    (run_ticks (single_task_start 1 2) 0).active_thread_index = 0 ∧
    ((run_ticks (single_task_start 1 2) 0).user_threads 0).state = ThreadRunning ∧
    ((run_ticks (single_task_start 1 2) 0).user_threads 2).state = ThreadRunning := by
  decide!

/-- C28, evaluation at the failing inputs.  The task of `yield_state` is Waiting after
`thread_yield`; the handler run with a tick pending charges the tick, marks it Ready
and selects it again: the same slot is active and Running, and the tick was not its
release (`time_until_release` goes from 2 to 1).  The caller of `block_state` is
Blocked inside `lock`; the handler run with a tick pending returns with the same slot
active and Running, and the tick was not its release either. -/
theorem C28_tick_reselects_caller :
    yield_state.active_thread_index = 0 ∧
    (yield_state.user_threads 0).state = ThreadWaiting ∧
    (yield_state.user_threads 0).time_until_release = 2 ∧
    (tick yield_state).active_thread_index = 0 ∧
    ((tick yield_state).user_threads 0).state = ThreadRunning ∧
    ((tick yield_state).user_threads 0).time_until_release = 1 ∧
    block_state.active_thread_index = 1 ∧
    (block_state.user_threads 1).state = ThreadBlocked ∧
    (block_state.user_locks 0).blocked_threads = [1] ∧
    (block_state.user_threads 1).time_until_release = 3 ∧
    (tick block_state).active_thread_index = 1 ∧
    ((tick block_state).user_threads 1).state = ThreadRunning ∧
    ((tick block_state).user_threads 1).time_until_release = 2 := by
  decide!

/-- C29, evaluation at the failing input: `multitask_request(1, 0, ...)` succeeds with
bands of one byte; the frames of the idle slot (slot 1) and of the task defined in
slot 0 start 32 and 40 bytes below the bases, below the limits of the bands, and
the process-stack frame of slot 0 starts below the base of the band of slot 1. -/
theorem C29_frames_below_limits :
    zero_stack_state.multitask_request_called = 1 ∧
    zero_stack_state.num_user_threads = 1 ∧
    (zero_stack_state.user_threads 0).state = ThreadReady ∧
    (zero_stack_state.user_threads 0).base_process_stack = 0x20010000 ∧
    (zero_stack_state.user_threads 0).limit_process_stack = 0x2000FFFF ∧
    (zero_stack_state.user_threads 0).psp = 0x2000FFE0 ∧
    (zero_stack_state.user_threads 0).limit_main_stack = 0x2001FFFF ∧
    (zero_stack_state.user_threads 0).msp = 0x2001FFD8 ∧
    (zero_stack_state.user_threads 1).base_process_stack = 0x2000FFFF ∧
    (zero_stack_state.user_threads 1).limit_process_stack = 0x2000FFFE ∧
    (zero_stack_state.user_threads 1).psp = 0x2000FFDF ∧
    (zero_stack_state.user_threads 1).msp = 0x2001FFD7 := by
  decide!

/-- C30, evaluation at the failing input.  H is on the blocked list of the mutex that
L holds; every third tick H, released again, runs and evaluates the loop condition of
`syscall_lock` once more, and is appended once more: after one round H is twice on the
list, after 14 rounds the list has 15 entries, one more than `blocked_threads` can
hold.  In every round the attempt is made by H (slot 1) while L (slot 0) is the
holder. -/
theorem C30_blocked_list_overflows :
    (waiting_state.user_locks 0).blocked_threads = [1] ∧
    ((retry_rounds waiting_state 1).user_locks 0).blocked_threads = [1, 1] ∧
    (List.range 15).map
        (fun n => ((retry_rounds waiting_state n).user_locks 0).num_blocked_threads)
      = [1, 2, 3, 4, 5, 6, 7, 8, 9, 10, 11, 12, 13, 14, 15] ∧
    (List.range 14).map
        (fun n => (ticks (context_switch (retry_rounds waiting_state n)) 3).active_thread_index)
      = List.replicate 14 1 ∧
    (List.range 14).map
        (fun n => ((ticks (context_switch (retry_rounds waiting_state n)) 3).user_locks
          0).current_locker) = List.replicate 14 (some 0) ∧
    MAX_NUM_THREADS < ((retry_rounds waiting_state 14).user_locks 0).num_blocked_threads := by
  decide!

/-! ### The heap break and the trace rings -/

/-- C23.  `syscall_sbrk` with `heap_base ≤ break ≤ heap_limit < 2^31` and `incr` an
`int`: it returns `(void *)-1` and leaves the break unchanged exactly when
`incr < 0` or `break + incr > heap_limit`; otherwise it returns the old break and the
new break is `old + incr`.  `sbrk(0)` returns the break and leaves it; after a
successful `sbrk(incr)`, `sbrk(0)` returns `old + incr` and leaves the break; the
break never decreases and stays within `[heap_base, heap_limit]`. -/
theorem C23_sbrk_contract (heap_base heap_limit current_system_break : Nat) (incr : Int)
    (hb : heap_base ≤ current_system_break) (hl : current_system_break ≤ heap_limit)
    (hlim : heap_limit < 2 ^ 31) (hi : -(2 ^ 31) ≤ incr ∧ incr < 2 ^ 31) :
    (((syscall_sbrk current_system_break heap_limit incr).1 = 0xFFFFFFFF ∧
        (syscall_sbrk current_system_break heap_limit incr).2 = current_system_break) ↔
      (incr < 0 ∨ (current_system_break : Int) + incr > heap_limit)) ∧
    (¬ (incr < 0 ∨ (current_system_break : Int) + incr > heap_limit) →
      (syscall_sbrk current_system_break heap_limit incr).1 = current_system_break ∧
      ((syscall_sbrk current_system_break heap_limit incr).2 : Int)
        = current_system_break + incr ∧
      syscall_sbrk (syscall_sbrk current_system_break heap_limit incr).2 heap_limit 0
        = ((syscall_sbrk current_system_break heap_limit incr).2,
           (syscall_sbrk current_system_break heap_limit incr).2)) ∧
    syscall_sbrk current_system_break heap_limit 0
      = (current_system_break, current_system_break) ∧
    current_system_break ≤ (syscall_sbrk current_system_break heap_limit incr).2 ∧
    heap_base ≤ (syscall_sbrk current_system_break heap_limit incr).2 ∧
    (syscall_sbrk current_system_break heap_limit incr).2 ≤ heap_limit := by
  obtain ⟨hi1, hi2⟩ := hi
  have hzero : ∀ b, b ≤ heap_limit → syscall_sbrk b heap_limit 0 = (b, b) := by
    intro b hb'
    have h1 : u32 (b + ((0 : Int) % 2 ^ 32).toNat) = b := by
      unfold u32
      simp
      omega
    unfold syscall_sbrk
    rw [if_neg (by decide)]
    simp only [h1]
    rw [if_neg (by omega)]
  by_cases hneg : incr < 0
  · have hs : syscall_sbrk current_system_break heap_limit incr
        = (0xFFFFFFFF, current_system_break) := by
      unfold syscall_sbrk
      rw [if_pos hneg]
    rw [hs]
    refine ⟨⟨fun _ => Or.inl hneg, fun _ => ⟨rfl, rfl⟩⟩, fun h => absurd (Or.inl hneg) h,
      hzero _ hl, Nat.le_refl _, hb, hl⟩
  · obtain ⟨n, hn⟩ : ∃ n : Nat, incr = (n : Int) := ⟨incr.toNat, by omega⟩
    subst hn
    have hn31 : n < 2 ^ 31 := by omega
    have hmod : (((n : Int) % 2 ^ 32).toNat) = n := by
      have : ((n : Int) % 2 ^ 32) = (n : Int) := Int.emod_eq_of_lt (by omega) (by omega)
      rw [this]
      simp
    have hu : u32 (current_system_break + n) = current_system_break + n := by
      unfold u32
      exact Nat.mod_eq_of_lt (by omega)
    by_cases hover : current_system_break + n > heap_limit
    · have hs : syscall_sbrk current_system_break heap_limit (n : Int)
          = (0xFFFFFFFF, current_system_break) := by
        unfold syscall_sbrk
        rw [if_neg hneg]
        simp only [hmod, hu]
        rw [if_pos hover]
      rw [hs]
      refine ⟨⟨fun _ => Or.inr (by omega), fun _ => ⟨rfl, rfl⟩⟩,
        fun h => absurd (Or.inr (by omega)) h, hzero _ hl, Nat.le_refl _, hb, hl⟩
    · have hs : syscall_sbrk current_system_break heap_limit (n : Int)
          = (current_system_break, current_system_break + n) := by
        unfold syscall_sbrk
        rw [if_neg hneg]
        simp only [hmod, hu]
        rw [if_neg hover]
      rw [hs]
      refine ⟨⟨fun h => ?_, fun h => ?_⟩, fun _ => ⟨rfl, by push_cast; rfl, ?_⟩, hzero _ hl,
        by simp, by simp only; omega, by simp only; omega⟩
      · obtain ⟨h1, _⟩ := h
        simp only at h1
        omega
      · rcases h with h | h
        · exact absurd h hneg
        · omega
      · exact hzero _ (by omega)

/-- C23 at a heap `[0x20001000, 0x20003000]` with the break at `0x20002000`: a
request of 16 bytes succeeds, a request of `0x2000` bytes and a negative request
fail. -/
theorem C23_sbrk_contract_witness :
    syscall_sbrk 0x20002000 0x20003000 16 = (0x20002000, 0x20002010) ∧
    syscall_sbrk 0x20002000 0x20003000 0x2000 = (0xFFFFFFFF, 0x20002000) ∧
    syscall_sbrk 0x20002000 0x20003000 (-4) = (0xFFFFFFFF, 0x20002000) ∧
    0x20002000 ≤ (syscall_sbrk 0x20002000 0x20003000 16).2 :=
  ⟨by decide, by decide, by decide,
    (C23_sbrk_contract 0x20001000 0x20003000 0x20002000 16 (by decide) (by decide)
      (by decide) ⟨by decide, by decide⟩).2.2.2.1⟩

theorem next_index_mod (N i : Nat) (hi : i < N) : next_index N i = (i + 1) % N := by
  unfold next_index
  by_cases h : i + 1 ≥ N
  · rw [if_pos h]
    have : i + 1 = N := by omega
    rw [this, Nat.mod_self]
  · rw [if_neg h]
    exact (Nat.mod_eq_of_lt (by omega)).symm

/-- Offsets below `N` from the same index land on different slots of the ring. -/
theorem ring_offset_inj (N r x y : Nat) (hx : x < N) (hy : y < N)
    (h : (r + x) % N = (r + y) % N) : x = y := by
  have h1 : r + x ≡ r + y [MOD N] := h
  have h2 : x ≡ y [MOD N] := Nat.ModEq.add_left_cancel' r h1
  have h3 : x % N = y % N := h2
  rw [Nat.mod_eq_of_lt hx, Nat.mod_eq_of_lt hy] at h3
  exact h3

theorem ring_offset_succ (N r d : Nat) : ((r + d) % N + 1) % N = (r + (d + 1)) % N := by
  rw [Nat.add_mod ((r + d) % N) 1 N, Nat.mod_mod, ← Nat.add_mod]
  rfl

/-- The loop of `rtt_write` on a ring that holds `d` bytes, for `src` with
`d + src.length < buffer_size`: it never spins, the read index is untouched, the `d`
bytes are untouched and the bytes of `src` follow them in order. -/
theorem rtt_write_spec (src : List Nat) :
    ∀ (rb : rtt_buffer) (d : Nat), rb.r_idx < rb.buffer_size →
      rb.w_idx = (rb.r_idx + d) % rb.buffer_size → d + src.length < rb.buffer_size →
      ∃ rb1, rtt_write rb src = some rb1 ∧ rb1.buffer_size = rb.buffer_size ∧
        rb1.r_idx = rb.r_idx ∧
        rb1.w_idx = (rb.r_idx + (d + src.length)) % rb.buffer_size ∧
        (∀ j, j < d → rb1.p ((rb.r_idx + j) % rb.buffer_size)
          = rb.p ((rb.r_idx + j) % rb.buffer_size)) ∧
        (∀ j, j < src.length →
          src[j]? = some (rb1.p ((rb.r_idx + (d + j)) % rb.buffer_size))) := by
  induction src with
  | nil =>
    intro rb d _ hw _
    exact ⟨rb, rfl, rfl, rfl, by simpa using hw, fun _ _ => rfl,
      fun j hj => absurd hj (by simp)⟩
  | cons b src ih =>
    intro rb d hr hw hlen
    simp only [List.length_cons] at hlen
    have hwlt : rb.w_idx < rb.buffer_size := by
      rw [hw]; exact Nat.mod_lt _ (by omega)
    have hnext : next_index rb.buffer_size rb.w_idx = (rb.r_idx + (d + 1)) % rb.buffer_size := by
      rw [next_index_mod _ _ hwlt, hw, ring_offset_succ]
    have hne : rb.r_idx ≠ next_index rb.buffer_size rb.w_idx := by
      rw [hnext]
      intro h
      have h' : (rb.r_idx + 0) % rb.buffer_size = (rb.r_idx + (d + 1)) % rb.buffer_size := by
        rw [Nat.add_zero, Nat.mod_eq_of_lt hr]; exact h
      have := ring_offset_inj _ _ 0 (d + 1) (by omega) (by omega) h'
      omega
    have hstep : rtt_write_step rb b = some
        { rb with p := store rb.p rb.w_idx b,
                  w_idx := next_index rb.buffer_size rb.w_idx } := by
      unfold rtt_write_step
      simp only
      rw [if_neg hne]
    obtain ⟨rb1, h1, h2, h3, h4, h5, h6⟩ := ih
      { rb with p := store rb.p rb.w_idx b, w_idx := next_index rb.buffer_size rb.w_idx }
      (d + 1) hr hnext (by simp only; omega)
    simp only at h2 h3 h4 h5 h6
    refine ⟨rb1, ?_, h2, h3, ?_, ?_, ?_⟩
    · unfold rtt_write
      rw [hstep]
      exact h1
    · rw [h4]
      simp only [List.length_cons]
      congr 1
      omega
    · intro j hj
      rw [h5 j (by omega)]
      have hjw : (rb.r_idx + j) % rb.buffer_size ≠ rb.w_idx := by
        rw [hw]
        intro h
        have := ring_offset_inj _ _ j d (by omega) (by omega) h
        omega
      rw [store_other _ _ _ _ hjw]
    · intro j hj
      cases j with
      | zero =>
        simp only [List.getElem?_cons_zero, Nat.add_zero, Option.some.injEq]
        rw [h5 d (by omega), ← hw, store_same]
      | succ j =>
        simp only [List.length_cons] at hj
        rw [List.getElem?_cons_succ, h6 j (by omega)]
        congr 3
        omega

/-- The loop of `rtt_read` for `len` bytes on a ring that holds `d ≥ len` bytes: it
never spins and copies the first `len` of them in order. -/
theorem rtt_read_spec (len : Nat) :
    ∀ (rb : rtt_buffer) (d : Nat), rb.r_idx < rb.buffer_size →
      rb.w_idx = (rb.r_idx + d) % rb.buffer_size → len ≤ d → d < rb.buffer_size →
      ∃ rb2, rtt_read rb len
          = some ((List.range len).map (fun j => rb.p ((rb.r_idx + j) % rb.buffer_size)), rb2) ∧
        rb2.r_idx = (rb.r_idx + len) % rb.buffer_size ∧ rb2.w_idx = rb.w_idx ∧
        rb2.buffer_size = rb.buffer_size := by
  induction len with
  | zero =>
    intro rb d hr _ _ _
    exact ⟨rb, rfl, by rw [Nat.add_zero, Nat.mod_eq_of_lt hr], rfl, rfl⟩
  | succ len ih =>
    intro rb d hr hw hlen hd
    have hne : rb.w_idx ≠ rb.r_idx := by
      rw [hw]
      intro h
      have h' : (rb.r_idx + d) % rb.buffer_size = (rb.r_idx + 0) % rb.buffer_size := by
        rw [Nat.add_zero, Nat.mod_eq_of_lt hr]; exact h
      have := ring_offset_inj _ _ d 0 hd (by omega) h'
      omega
    have hnext : next_index rb.buffer_size rb.r_idx = (rb.r_idx + 1) % rb.buffer_size :=
      next_index_mod _ _ hr
    have hstep : rtt_read_step rb = some (rb.p rb.r_idx,
        { rb with r_idx := next_index rb.buffer_size rb.r_idx }) := by
      unfold rtt_read_step
      rw [if_neg hne]
    have hoff : ∀ x, ((rb.r_idx + 1) % rb.buffer_size + x) % rb.buffer_size
        = (rb.r_idx + (x + 1)) % rb.buffer_size := by
      intro x
      rw [Nat.add_mod ((rb.r_idx + 1) % rb.buffer_size) x, Nat.mod_mod, ← Nat.add_mod]
      congr 1
      omega
    obtain ⟨rb2, h1, h2, h3, h4⟩ := ih
      { rb with r_idx := next_index rb.buffer_size rb.r_idx } (d - 1)
      (by simp only; rw [hnext]; exact Nat.mod_lt _ (by omega))
      (by simp only; rw [hnext, hoff, hw]; congr 1; omega)
      (by omega) (by simp only; omega)
    simp only at h1 h2 h3 h4
    refine ⟨rb2, ?_, ?_, h3, h4⟩
    · unfold rtt_read
      rw [hstep]
      simp only
      rw [h1]
      simp only [Option.some.injEq, Prod.mk.injEq, and_true]
      rw [List.range_succ_eq_map, List.map_cons, List.map_map]
      congr 1
      · rw [Nat.add_zero, Nat.mod_eq_of_lt hr]
      · apply List.map_congr_left
        intro j _
        simp only [Function.comp]
        rw [hnext, hoff]
    · rw [h2, hnext, hoff]

/-- The function `rtt_peek` on a ring that holds `d` bytes returns `d`. -/
theorem rtt_peek_spec (rb : rtt_buffer) (d : Nat) (hN : rb.buffer_size < 2 ^ 32)
    (hr : rb.r_idx < rb.buffer_size) (hw : rb.w_idx = (rb.r_idx + d) % rb.buffer_size)
    (hd : d < rb.buffer_size) : rtt_peek rb = d := by
  unfold rtt_peek
  by_cases hwrap : rb.r_idx + d < rb.buffer_size
  · rw [Nat.mod_eq_of_lt hwrap] at hw
    rw [if_pos (by omega), hw]
    unfold u32_sub
    omega
  · have hw' : rb.w_idx = rb.r_idx + d - rb.buffer_size := by
      rw [hw, Nat.mod_eq_sub_mod (by omega)]
      exact Nat.mod_eq_of_lt (by omega)
    by_cases hge : rb.w_idx ≥ rb.r_idx
    · omega
    · rw [if_neg hge, hw']
      unfold u32 u32_sub
      omega

/-- C24.  A ring of size `buffer_size` (of `uint32_t` range) that is empty
(`w_idx = r_idx`, below the size): the loop of `rtt_write` for `src` with at most
`buffer_size - 1` bytes never spins; afterwards the wrapping difference of
`rtt_peek` is the number of bytes written, the loop of `rtt_read` for that many
bytes never spins, copies exactly `src` in order and leaves the ring empty, and all
indices stay below the size.  No step of `rtt_write` moves `w_idx` onto `r_idx`: on
a full ring the step spins. -/
theorem C24_ring_round_trip (rb : rtt_buffer) (src : List Nat)
    (hN : rb.buffer_size < 2 ^ 32) (hr : rb.r_idx < rb.buffer_size)
    (hempty : rb.w_idx = rb.r_idx) (hk : src.length + 1 ≤ rb.buffer_size) :
    (∃ rb1, rtt_write rb src = some rb1 ∧ rtt_peek rb1 = src.length ∧
      rb1.w_idx < rb.buffer_size ∧ rb1.r_idx < rb.buffer_size ∧
      (src ≠ [] → rb1.w_idx ≠ rb1.r_idx) ∧
      ∃ rb2, rtt_read rb1 src.length = some (src, rb2) ∧ rb2.w_idx = rb2.r_idx ∧
        rb2.r_idx < rb.buffer_size ∧ rb2.w_idx < rb.buffer_size) ∧
    (∀ (x : rtt_buffer) (b : Nat) (x' : rtt_buffer),
      rtt_write_step x b = some x' → x'.w_idx ≠ x'.r_idx) ∧
    (∀ (x : rtt_buffer) (b : Nat),
      x.r_idx = next_index x.buffer_size x.w_idx → rtt_write_step x b = none) := by
  refine ⟨?_, ?_, ?_⟩
  · obtain ⟨rb1, w1, w2, w3, w4, _, w6⟩ := rtt_write_spec src rb 0 hr
      (by rw [Nat.add_zero, Nat.mod_eq_of_lt hr]; exact hempty) (by omega)
    simp only [Nat.zero_add] at w4 w6
    have hw1 : rb1.w_idx = (rb1.r_idx + src.length) % rb1.buffer_size := by
      rw [w3, w2]; exact w4
    have hr1 : rb1.r_idx < rb1.buffer_size := by rw [w3, w2]; exact hr
    have hpeek := rtt_peek_spec rb1 src.length (by rw [w2]; exact hN) hr1 hw1
      (by rw [w2]; omega)
    obtain ⟨rb2, r1, r2, r3, r4⟩ := rtt_read_spec src.length rb1 src.length hr1 hw1
      (Nat.le_refl _) (by rw [w2]; omega)
    have hsrc : (List.range src.length).map
        (fun j => rb1.p ((rb1.r_idx + j) % rb1.buffer_size)) = src := by
      apply List.ext_getElem?
      intro j
      by_cases hj : j < src.length
      · rw [w6 j hj, w3, w2]
        simp [hj]
      · have h1 : src[j]? = none := List.getElem?_eq_none (by omega)
        rw [h1]
        apply List.getElem?_eq_none
        simp
        omega
    rw [hsrc] at r1
    have hlt : rb1.w_idx < rb.buffer_size := by
      rw [w4]; exact Nat.mod_lt _ (by omega)
    refine ⟨rb1, w1, hpeek, hlt, by rw [w3]; exact hr, ?_, rb2, r1, ?_, ?_, ?_⟩
    · intro hne
      have hpos : 0 < src.length := List.length_pos.mpr hne
      rw [hw1]
      intro h
      have h' : (rb1.r_idx + src.length) % rb1.buffer_size
          = (rb1.r_idx + 0) % rb1.buffer_size := by
        rw [Nat.add_zero, Nat.mod_eq_of_lt hr1]; exact h
      have := ring_offset_inj _ _ src.length 0 (by rw [w2]; omega) (by rw [w2]; omega) h'
      omega
    · rw [r3, r2, hw1]
    · rw [r2, w2]; exact Nat.mod_lt _ (by omega)
    · rw [r3]; exact hlt
  · intro x b x' h
    unfold rtt_write_step at h
    simp only at h
    by_cases hc : x.r_idx = next_index x.buffer_size x.w_idx
    · rw [if_pos hc] at h
      cases h
    · rw [if_neg hc] at h
      simp only [Option.some.injEq] at h
      rw [← h]
      exact fun hh => hc hh.symm
  · intro x b h
    unfold rtt_write_step
    simp only
    rw [if_pos h]

/-- C24 on the down ring (16 bytes), empty at index 14: three bytes are written
across the wrap and read back. -/
theorem C24_ring_round_trip_witness :
    ∃ rb1, rtt_write down_ring_at_14 [7, 8, 9] = some rb1 ∧ rtt_peek rb1 = 3 ∧
      rb1.w_idx < 16 ∧
      ∃ rb2, rtt_read rb1 3 = some ([7, 8, 9], rb2) ∧ rb2.w_idx = rb2.r_idx :=
  match (C24_ring_round_trip down_ring_at_14 [7, 8, 9] (by decide) (by decide) rfl
      (by decide)).1 with
  | ⟨rb1, h1, h2, h3, _, _, rb2, h6, h7, _⟩ => ⟨rb1, h1, h2, h3, rb2, h6, h7⟩

/-! ### Tick accounting in the PendSV handler -/

/-- The bookkeeping of one pass of `schedule_rms` with `preemption_flag` set, over the
first `n` slots: a Defunct slot and every slot from `n` on are untouched; a live slot
has `time_until_release` decremented and, when that reaches 0, reloaded with `t`,
`remaining_work` reloaded with `c` and the state set to Ready; nothing else
changes. -/
theorem schedule_rms_fold_table (flag : Nat) (hflag : flag ≠ 0) (th0 : Nat → tcb_t)
    (hp N n : Nat) :
    (∀ i, n ≤ i → ((List.range n).foldl (schedule_rms_step flag) (th0, hp, N)).1 i = th0 i) ∧
    (∀ i, (th0 i).state = ThreadDefunct →
      ((List.range n).foldl (schedule_rms_step flag) (th0, hp, N)).1 i = th0 i) ∧
    (∀ i, (((List.range n).foldl (schedule_rms_step flag) (th0, hp, N)).1 i).active_time
      = (th0 i).active_time) ∧
    (∀ i, i < n → (th0 i).state ≠ ThreadDefunct →
      (((List.range n).foldl (schedule_rms_step flag) (th0, hp, N)).1 i).time_until_release
        = (if u32_sub (th0 i).time_until_release 1 = 0 then (th0 i).t
           else u32_sub (th0 i).time_until_release 1) ∧
      (((List.range n).foldl (schedule_rms_step flag) (th0, hp, N)).1 i).remaining_work
        = (if u32_sub (th0 i).time_until_release 1 = 0 then (th0 i).c
           else (th0 i).remaining_work) ∧
      (((List.range n).foldl (schedule_rms_step flag) (th0, hp, N)).1 i).state
        = (if u32_sub (th0 i).time_until_release 1 = 0 then ThreadReady
           else (th0 i).state)) := by
  induction n generalizing hp N with
  | zero =>
    exact ⟨fun _ _ => rfl, fun _ _ => rfl, fun _ => rfl, fun i hi => absurd hi (by omega)⟩
  | succ n ih =>
    obtain ⟨f1, f2, f3, f4⟩ := ih hp N
    rw [List.range_succ, List.foldl_append]
    simp only [List.foldl_cons, List.foldl_nil]
    generalize (List.range n).foldl (schedule_rms_step flag) (th0, hp, N) = r at f1 f2 f3 f4
    obtain ⟨th, hpr, nx⟩ := r
    simp only at f1 f2 f3 f4
    have hn : th n = th0 n := f1 n (Nat.le_refl n)
    by_cases hd : (th0 n).state = ThreadDefunct
    · have hstep : schedule_rms_step flag (th, hpr, nx) n = (th, hpr, nx) := by
        unfold schedule_rms_step
        simp only [hn, hd, if_true]
      rw [hstep]
      refine ⟨fun i hi => f1 i (by omega), f2, f3, ?_⟩
      intro i hi hli
      rcases Nat.lt_succ_iff_lt_or_eq.mp hi with hlt | heq
      · exact f4 i hlt hli
      · subst heq; exact absurd hd hli
    · by_cases hrel : u32_sub (th0 n).time_until_release 1 = 0
      · have hstep : (schedule_rms_step flag (th, hpr, nx) n).1 =
            store th n { th0 n with time_until_release := (th0 n).t,
                                    remaining_work := (th0 n).c, state := ThreadReady } := by
          unfold schedule_rms_step
          simp only [hn, hd, if_false, hflag, ne_eq, not_false_eq_true, if_true, hrel]
        rw [hstep]
        refine ⟨?_, ?_, ?_, ?_⟩
        · intro i hi
          rw [store_other _ _ _ _ (by omega)]
          exact f1 i (by omega)
        · intro i hdi
          have hne : i ≠ n := fun h => hd (h ▸ hdi)
          rw [store_other _ _ _ _ hne]
          exact f2 i hdi
        · intro i
          by_cases hi : i = n
          · subst hi; rw [store_same]
          · rw [store_other _ _ _ _ hi]; exact f3 i
        · intro i hi hli
          by_cases hin : i = n
          · subst hin
            rw [store_same]
            simp only [hrel, if_true]
            exact ⟨trivial, trivial, trivial⟩
          · rw [store_other _ _ _ _ hin]
            exact f4 i (by omega) hli
      · have hstep : (schedule_rms_step flag (th, hpr, nx) n).1 =
            store th n { th0 n with
              time_until_release := u32_sub (th0 n).time_until_release 1 } := by
          unfold schedule_rms_step
          simp only [hn, hd, if_false, hflag, ne_eq, not_false_eq_true, if_true, hrel]
        rw [hstep]
        refine ⟨?_, ?_, ?_, ?_⟩
        · intro i hi
          rw [store_other _ _ _ _ (by omega)]
          exact f1 i (by omega)
        · intro i hdi
          have hne : i ≠ n := fun h => hd (h ▸ hdi)
          rw [store_other _ _ _ _ hne]
          exact f2 i hdi
        · intro i
          by_cases hi : i = n
          · subst hi; rw [store_same]
          · rw [store_other _ _ _ _ hi]; exact f3 i
        · intro i hi hli
          by_cases hin : i = n
          · subst hin
            rw [store_same]
            simp only [hrel, if_false]
            exact ⟨trivial, trivial, trivial⟩
          · rw [store_other _ _ _ _ hin]
            exact f4 i (by omega) hli

/-- The tick accounting at the head of the PendSV handler, field by field. -/
theorem charge_tick_table (k : Kernel) :
    (charge_tick k).global_timeslot_counter = u32 (k.global_timeslot_counter + 1) ∧
    (charge_tick k).num_user_threads = k.num_user_threads ∧
    (charge_tick k).num_active_threads = k.num_active_threads ∧
    (charge_tick k).active_thread_index = k.active_thread_index ∧
    (charge_tick k).preemption_flag = k.preemption_flag ∧
    (∀ i, i ≠ k.active_thread_index → (charge_tick k).user_threads i = k.user_threads i) ∧
    ((charge_tick k).user_threads k.active_thread_index).active_time
      = u32 ((k.user_threads k.active_thread_index).active_time + 1) ∧
    ((charge_tick k).user_threads k.active_thread_index).remaining_work
      = (if k.active_thread_index ≠ k.num_user_threads
         then u32_sub (k.user_threads k.active_thread_index).remaining_work 1
         else (k.user_threads k.active_thread_index).remaining_work) ∧
    ((charge_tick k).user_threads k.active_thread_index).time_until_release
      = (k.user_threads k.active_thread_index).time_until_release ∧
    ((charge_tick k).user_threads k.active_thread_index).c
      = (k.user_threads k.active_thread_index).c ∧
    ((charge_tick k).user_threads k.active_thread_index).t
      = (k.user_threads k.active_thread_index).t ∧
    ((charge_tick k).user_threads k.active_thread_index).state ≠ ThreadDefunct := by
  unfold charge_tick
  simp only
  refine ⟨trivial, trivial, trivial, trivial, trivial,
    fun i hi => by rw [store_other _ _ _ _ hi], ?_⟩
  rw [store_same]
  by_cases ha : k.active_thread_index ≠ k.num_user_threads
  · simp only [ha, ne_eq, not_false_eq_true, if_true]
    split_ifs <;> simp
  · simp only [ha, if_false]
    split_ifs <;> simp

/-- The part of the PendSV handler after the scheduler pass writes no counter, and the
only state it writes is that of the slot it makes active, which becomes Running. -/
theorem switch_to_counters (k : Kernel) (next_index msp frame_psp svc : Nat) :
    (switch_to k next_index msp frame_psp svc).2.global_timeslot_counter
      = k.global_timeslot_counter ∧
    (switch_to k next_index msp frame_psp svc).2.preemption_flag = k.preemption_flag ∧
    ∀ i,
      ((switch_to k next_index msp frame_psp svc).2.user_threads i).active_time
        = (k.user_threads i).active_time ∧
      ((switch_to k next_index msp frame_psp svc).2.user_threads i).remaining_work
        = (k.user_threads i).remaining_work ∧
      ((switch_to k next_index msp frame_psp svc).2.user_threads i).time_until_release
        = (k.user_threads i).time_until_release ∧
      (((switch_to k next_index msp frame_psp svc).2.user_threads i).state
          = (k.user_threads i).state ∨
        (i = (switch_to k next_index msp frame_psp svc).2.active_thread_index ∧
          ((switch_to k next_index msp frame_psp svc).2.user_threads i).state
            = ThreadRunning)) := by
  have hkey : ∀ (th : Nat → tcb_t) (x i : Nat),
      ((mark_running th x) i).active_time = (th i).active_time ∧
      ((mark_running th x) i).remaining_work = (th i).remaining_work ∧
      ((mark_running th x) i).time_until_release = (th i).time_until_release ∧
      (((mark_running th x) i).state = (th i).state ∨
        (i = x ∧ ((mark_running th x) i).state = ThreadRunning)) := by
    intro th x i
    unfold mark_running
    by_cases h : i = x
    · subst h
      rw [store_same]
      exact ⟨rfl, rfl, rfl, Or.inr ⟨rfl, rfl⟩⟩
    · rw [store_other _ _ _ _ h]
      exact ⟨rfl, rfl, rfl, Or.inl rfl⟩
  have hsave : ∀ (th : Nat → tcb_t) (a i : Nat),
      ((save_context th a msp frame_psp svc) i).active_time = (th i).active_time ∧
      ((save_context th a msp frame_psp svc) i).remaining_work = (th i).remaining_work ∧
      ((save_context th a msp frame_psp svc) i).time_until_release
        = (th i).time_until_release ∧
      ((save_context th a msp frame_psp svc) i).state = (th i).state := by
    intro th a i
    unfold save_context
    by_cases h : i = a
    · subst h
      rw [store_same]
      exact ⟨rfl, rfl, rfl, rfl⟩
    · rw [store_other _ _ _ _ h]
      exact ⟨rfl, rfl, rfl, rfl⟩
  unfold switch_to
  by_cases h : next_index = k.active_thread_index
  · rw [if_pos h]
    exact ⟨rfl, rfl, fun i => hkey k.user_threads k.active_thread_index i⟩
  · rw [if_neg h]
    refine ⟨rfl, rfl, fun i => ?_⟩
    simp only
    obtain ⟨a1, a2, a3, a4⟩ := hkey
      (save_context k.user_threads k.active_thread_index msp frame_psp svc) (u8 next_index) i
    obtain ⟨b1, b2, b3, b4⟩ := hsave k.user_threads k.active_thread_index i
    refine ⟨a1.trans b1, a2.trans b2, a3.trans b3, ?_⟩
    rcases a4 with a4 | a4
    · exact Or.inl (a4.trans b4)
    · exact Or.inr a4

/-- The function `schedule_rms` with `preemption_flag` set, field by field. -/
theorem schedule_rms_table (k : Kernel) (hflag : k.preemption_flag ≠ 0) :
    (schedule_rms k).2.global_timeslot_counter = k.global_timeslot_counter ∧
    (∀ i, k.num_user_threads ≤ i → (schedule_rms k).2.user_threads i = k.user_threads i) ∧
    (∀ i, ((schedule_rms k).2.user_threads i).active_time = (k.user_threads i).active_time) ∧
    (k.num_active_threads ≠ 0 → ∀ i, i < k.num_user_threads →
      (k.user_threads i).state ≠ ThreadDefunct →
      ((schedule_rms k).2.user_threads i).time_until_release
        = (if u32_sub (k.user_threads i).time_until_release 1 = 0 then (k.user_threads i).t
           else u32_sub (k.user_threads i).time_until_release 1) ∧
      ((schedule_rms k).2.user_threads i).remaining_work
        = (if u32_sub (k.user_threads i).time_until_release 1 = 0 then (k.user_threads i).c
           else (k.user_threads i).remaining_work) ∧
      ((schedule_rms k).2.user_threads i).state
        = (if u32_sub (k.user_threads i).time_until_release 1 = 0 then ThreadReady
           else (k.user_threads i).state)) := by
  unfold schedule_rms
  by_cases h0 : k.num_active_threads = 0
  · rw [if_pos h0]
    exact ⟨rfl, fun _ _ => rfl, fun _ => rfl, fun h => absurd h0 h⟩
  · rw [if_neg h0]
    obtain ⟨f1, _, f3, f4⟩ := schedule_rms_fold_table k.preemption_flag hflag k.user_threads
      0xFFFFFFFF k.num_user_threads k.num_user_threads
    exact ⟨rfl, f1, f3, fun _ => f4⟩

/-- One invocation of `PendSV_C_Handler`.  With `preemption_flag` clear it leaves
`global_timeslot_counter` and the `active_time`, `remaining_work` and
`time_until_release` of every TCB unchanged.  With the flag set (in a state where
`num_active_threads` is 0 only if every user TCB is Defunct) it adds 1 to
`global_timeslot_counter` and to the `active_time` of the active TCB and to no other
`active_time`, subtracts 1 from the `remaining_work` of the active TCB unless that is
the idle task, and subtracts 1 from the `time_until_release` of every user TCB that
is not Defunct; where that reaches 0, `time_until_release` is `t`, `remaining_work`
is `c` and the state is Ready (Running if the TCB is the one made active).  All
arithmetic is that of `uint32_t`.  In both cases `preemption_flag` is clear on
return. -/
theorem tick_accounting (k : Kernel) (msp frame_psp svc : Nat) :
    (k.preemption_flag = 0 →
      (PendSV_C_Handler k msp frame_psp svc).2.global_timeslot_counter
        = k.global_timeslot_counter ∧
      (PendSV_C_Handler k msp frame_psp svc).2.preemption_flag = 0 ∧
      ∀ i,
        ((PendSV_C_Handler k msp frame_psp svc).2.user_threads i).active_time
          = (k.user_threads i).active_time ∧
        ((PendSV_C_Handler k msp frame_psp svc).2.user_threads i).remaining_work
          = (k.user_threads i).remaining_work ∧
        ((PendSV_C_Handler k msp frame_psp svc).2.user_threads i).time_until_release
          = (k.user_threads i).time_until_release) ∧
    (k.preemption_flag ≠ 0 →
      (k.num_active_threads = 0 →
        ∀ i, i < k.num_user_threads → (k.user_threads i).state = ThreadDefunct) →
      (PendSV_C_Handler k msp frame_psp svc).2.global_timeslot_counter
        = u32 (k.global_timeslot_counter + 1) ∧
      (PendSV_C_Handler k msp frame_psp svc).2.preemption_flag = 0 ∧
      ((PendSV_C_Handler k msp frame_psp svc).2.user_threads k.active_thread_index).active_time
        = u32 ((k.user_threads k.active_thread_index).active_time + 1) ∧
      (∀ i, i ≠ k.active_thread_index →
        ((PendSV_C_Handler k msp frame_psp svc).2.user_threads i).active_time
          = (k.user_threads i).active_time) ∧
      (k.active_thread_index = k.num_user_threads →
        ((PendSV_C_Handler k msp frame_psp svc).2.user_threads
            k.active_thread_index).remaining_work
          = (k.user_threads k.active_thread_index).remaining_work) ∧
      (k.num_user_threads < k.active_thread_index →
        ((PendSV_C_Handler k msp frame_psp svc).2.user_threads
            k.active_thread_index).remaining_work
          = u32_sub (k.user_threads k.active_thread_index).remaining_work 1) ∧
      (∀ i, i < k.num_user_threads → (k.user_threads i).state ≠ ThreadDefunct →
        ((PendSV_C_Handler k msp frame_psp svc).2.user_threads i).time_until_release
          = (if u32_sub (k.user_threads i).time_until_release 1 = 0 then (k.user_threads i).t
             else u32_sub (k.user_threads i).time_until_release 1) ∧
        ((PendSV_C_Handler k msp frame_psp svc).2.user_threads i).remaining_work
          = (if u32_sub (k.user_threads i).time_until_release 1 = 0 then (k.user_threads i).c
             else if i = k.active_thread_index
               then u32_sub (k.user_threads i).remaining_work 1
               else (k.user_threads i).remaining_work) ∧
        (u32_sub (k.user_threads i).time_until_release 1 = 0 →
          ((PendSV_C_Handler k msp frame_psp svc).2.user_threads i).state = ThreadReady ∨
          (i = (PendSV_C_Handler k msp frame_psp svc).2.active_thread_index ∧
            ((PendSV_C_Handler k msp frame_psp svc).2.user_threads i).state
              = ThreadRunning)))) := by
  refine ⟨fun hf => ?_, fun hf hcons => ?_⟩
  · have hf' : ({ k with pendsv := false } : Kernel).preemption_flag = 0 := hf
    obtain ⟨r1, _⟩ := schedule_rms_noflag { k with pendsv := false } hf'
    have hP : (PendSV_C_Handler k msp frame_psp svc) = switch_to
        { (schedule_rms { k with pendsv := false }).2 with preemption_flag := 0 }
        (schedule_rms { k with pendsv := false }).1 msp frame_psp svc := by
      unfold PendSV_C_Handler
      simp only
      rw [if_neg (by simp [hf])]
    obtain ⟨s1, s2, s3⟩ := switch_to_counters
      { (schedule_rms { k with pendsv := false }).2 with preemption_flag := 0 }
      (schedule_rms { k with pendsv := false }).1 msp frame_psp svc
    rw [← hP] at s1 s2 s3
    rw [r1] at s1 s2 s3
    refine ⟨s1, s2, fun i => ?_⟩
    obtain ⟨a1, a2, a3, _⟩ := s3 i
    exact ⟨a1, a2, a3⟩
  · have hf' : ({ k with pendsv := false } : Kernel).preemption_flag ≠ 0 := hf
    have hP : (PendSV_C_Handler k msp frame_psp svc) = switch_to
        { (schedule_rms (charge_tick { k with pendsv := false })).2 with preemption_flag := 0 }
        (schedule_rms (charge_tick { k with pendsv := false })).1 msp frame_psp svc := by
      unfold PendSV_C_Handler
      simp only
      rw [if_pos (by simpa using hf)]
    obtain ⟨s1, s2, s3⟩ := switch_to_counters
      { (schedule_rms (charge_tick { k with pendsv := false })).2 with preemption_flag := 0 }
      (schedule_rms (charge_tick { k with pendsv := false })).1 msp frame_psp svc
    rw [← hP] at s1 s2 s3
    obtain ⟨c1, c2, c3, c4, c5, c6, c7, c8, c9, c10, c11, c12⟩ :=
      charge_tick_table { k with pendsv := false }
    simp only at c1 c2 c3 c4 c5 c6 c7 c8 c9 c10 c11 c12
    obtain ⟨t1, t2, t3, t4⟩ := schedule_rms_table (charge_tick { k with pendsv := false })
      (by rw [c5]; exact hf)
    rw [c2] at t2 t4
    rw [c3] at t4
    generalize PendSV_C_Handler k msp frame_psp svc = R at s1 s2 s3
    generalize charge_tick { k with pendsv := false } = k1 at *
    generalize schedule_rms k1 = r at *
    simp only at s1 s2 s3
    refine ⟨by rw [s1, t1, c1], s2, ?_, ?_, ?_, ?_, ?_⟩
    · rw [(s3 _).1, t3, c7]
    · intro i hi
      rw [(s3 i).1, t3, c6 i hi]
    · intro ha
      rw [(s3 _).2.1, t2 _ (by omega), c8, if_neg (by simp [ha])]
    · intro ha
      have hne : k.active_thread_index ≠ k.num_user_threads := by omega
      rw [(s3 _).2.1, t2 _ (by omega), c8, if_pos hne]
    · intro i hi hli
      have hna : k.num_active_threads ≠ 0 := fun h0 => hli (hcons h0 i hi)
      by_cases hia : i = k.active_thread_index
      · subst hia
        obtain ⟨u1, u2, u3⟩ := t4 hna _ hi c12
        rw [c9, c11] at u1
        have hne : k.active_thread_index ≠ k.num_user_threads := by omega
        rw [c9, c10, c8, if_pos hne] at u2
        rw [c9] at u3
        refine ⟨by rw [(s3 _).2.2.1, u1], ?_, ?_⟩
        · rw [(s3 _).2.1, u2]
          simp
        · intro hrel
          rcases (s3 k.active_thread_index).2.2.2 with h | h
          · left
            rw [h, u3, if_pos hrel]
          · exact Or.inr h
      · have hk1 : k1.user_threads i = k.user_threads i := c6 i hia
        obtain ⟨u1, u2, u3⟩ := t4 hna i hi (by rw [hk1]; exact hli)
        rw [hk1] at u1 u2 u3
        refine ⟨by rw [(s3 _).2.2.1, u1], ?_, ?_⟩
        · rw [(s3 _).2.1, u2]
          simp [hia]
        · intro hrel
          rcases (s3 i).2.2.2 with h | h
          · left
            rw [h, u3, if_pos hrel]
          · exact Or.inr h

/-- The tick accounting at concrete states: the switch pended by `multitask_start` in scenario S1
(flag clear) and the tick that ends timeslot 4 there (flag set). -/
theorem tick_accounting_at_S1 :
    scenario_S1.preemption_flag = 0 ∧
    (PendSV_C_Handler scenario_S1 0 0 0).2.global_timeslot_counter
      = scenario_S1.global_timeslot_counter ∧
    (systick_tick (run_ticks scenario_S1 4)).preemption_flag ≠ 0 ∧
    ((systick_tick (run_ticks scenario_S1 4)).num_active_threads = 0 →
      ∀ i, i < (systick_tick (run_ticks scenario_S1 4)).num_user_threads →
        ((systick_tick (run_ticks scenario_S1 4)).user_threads i).state = ThreadDefunct) ∧
    (PendSV_C_Handler (systick_tick (run_ticks scenario_S1 4)) 0 0 0).2.global_timeslot_counter
      = u32 ((systick_tick (run_ticks scenario_S1 4)).global_timeslot_counter + 1) ∧
    (PendSV_C_Handler (systick_tick (run_ticks scenario_S1 4)) 0 0 0).2.preemption_flag = 0 :=
  ⟨by decide!,
   ((tick_accounting scenario_S1 0 0 0).1 (by decide!)).1,
   by decide!,
   fun h => absurd h (by decide!),
   ((tick_accounting (systick_tick (run_ticks scenario_S1 4)) 0 0 0).2 (by decide!)
      (fun h => absurd h (by decide!))).1,
   ((tick_accounting (systick_tick (run_ticks scenario_S1 4)) 0 0 0).2 (by decide!)
      (fun h => absurd h (by decide!))).2.1⟩

/-- C27.  A `PendSV_C_Handler` invocation with `preemption_flag` set that leaves the
`time_until_release` of a user TCB that is not Defunct unchanged.  The single task
`(id 1, c 2, t 3)` calls `thread_end` in timeslot 0 (its TCB is Defunct,
`num_active_threads` is 0) and a tick is pending when the handler runs: the handler
charges the tick and writes Ready into the Defunct TCB.  At the next tick the handler
sees `num_active_threads = 0`, so `schedule_rms` returns before its loop and the TCB,
Ready with `time_until_release = 2`, is not decremented, while
`global_timeslot_counter` goes from 1 to 2. -/
theorem C27_revived_task_not_counted :
    (ended_state.user_threads 0).state = ThreadDefunct ∧
    ended_state.num_active_threads = 0 ∧
    revived_state.preemption_flag = 1 ∧
    revived_state.num_active_threads = 0 ∧
    revived_state.num_user_threads = 1 ∧
    revived_state.active_thread_index = 2 ∧
    revived_state.global_timeslot_counter = 1 ∧
    (revived_state.user_threads 0).state = ThreadReady ∧
    (revived_state.user_threads 0).time_until_release = 2 ∧
    (PendSV_C_Handler revived_state 0 0 0).2.global_timeslot_counter = 2 ∧
    ((PendSV_C_Handler revived_state 0 0 0).2.user_threads 0).state = ThreadReady ∧
    ((PendSV_C_Handler revived_state 0 0 0).2.user_threads 0).time_until_release = 2 := by
  decide!

/-! ### The parameter check and the error returns of the setup calls -/

/-- The loop of `ceil_log2` started at `cl2n` with enough fuel returns the least
exponent `l` with `n ≤ 2^l`. -/
theorem ceil_log2_loop_spec (fuel n cl2n : Nat) (hfuel : 0 < fuel)
    (hn : n ≤ 2 ^ (cl2n + fuel - 1)) (hlow : ∀ j, j < cl2n → 2 ^ j < n) :
    ∃ l, ceil_log2_loop fuel n cl2n = some l ∧ l ≤ cl2n + fuel - 1 ∧ n ≤ 2 ^ l ∧
      ∀ j, j < l → 2 ^ j < n := by
  induction fuel generalizing cl2n with
  | zero => omega
  | succ f ih =>
    unfold ceil_log2_loop
    by_cases h : n > 2 ^ cl2n
    · rw [if_pos h]
      have hf : 0 < f := by
        rcases Nat.eq_zero_or_pos f with h0 | h0
        · subst h0
          simp at hn
          omega
        · exact h0
      have hn2 : n ≤ 2 ^ (cl2n + 1 + f - 1) := by
        have : cl2n + 1 + f - 1 = cl2n + (f + 1) - 1 := by omega
        rw [this]
        exact hn
      have hlow2 : ∀ j, j < cl2n + 1 → 2 ^ j < n := by
        intro j hj
        rcases Nat.lt_succ_iff_lt_or_eq.mp hj with h1 | h1
        · exact hlow j h1
        · subst h1
          exact h
      obtain ⟨l, e1, e2, e3, e4⟩ := ih (cl2n + 1) hf hn2 hlow2
      exact ⟨l, e1, by omega, e3, e4⟩
    · rw [if_neg h]
      exact ⟨cl2n, rfl, by omega, by omega, hlow⟩

/-- For `n ≤ 2^31` the function `ceil_log2` returns the least `l` with `n ≤ 2^l`; `l`
is at most 31. -/
theorem ceil_log2_spec (n : Nat) (hn : n ≤ 2 ^ 31) :
    ∃ l, ceil_log2 n = some l ∧ l ≤ 31 ∧ n ≤ 2 ^ l ∧ ∀ j, j < l → 2 ^ j < n := by
  obtain ⟨l, e1, e2, e3, e4⟩ := ceil_log2_loop_spec 32 n 0 (by decide) (by simpa using hn)
    (fun j hj => absurd hj (by omega))
  exact ⟨l, e1, by omega, e3, e4⟩

/-- The parameter check of `syscall_multitask_request` for `stack_bytes ≤ 2^28`: with
`2^l` the least power of two not below `stack_bytes`, the call returns
`MULTITASK_REQUEST_REPEATED` after a successful call, and otherwise
`MULTITASK_REQUEST_INVALID_PARAMS` exactly when `num_threads` is 0 or above 14,
`num_locks` is above 32, or the product `2^l * (num_threads + 1)` of the integers is
above 32768, and 0 in the remaining case. -/
theorem request_param_check (k : Kernel) (user_base kernel_base default_idle : Nat)
    (junk : tcb_t) (num_threads stack_bytes idle_function : Nat) (mpu_protect : mpu_mode)
    (num_locks : Nat) (hs : stack_bytes ≤ 2 ^ 28) :
    ∃ l, l ≤ 28 ∧ stack_bytes ≤ 2 ^ l ∧ (∀ j, j < l → 2 ^ j < stack_bytes) ∧
      (syscall_multitask_request k user_base kernel_base default_idle junk num_threads
          stack_bytes idle_function mpu_protect num_locks).map Prod.fst
        = some (if k.multitask_request_called ≠ 0 then MULTITASK_REQUEST_REPEATED
            else if num_threads = 0 ∨ num_threads > 14 ∨ num_locks > 32 ∨
                2 ^ l * (num_threads + 1) > 32768
              then MULTITASK_REQUEST_INVALID_PARAMS else SUCCESS) := by
  obtain ⟨l, e1, _, e3, e4⟩ := ceil_log2_spec stack_bytes
    (le_trans hs (Nat.pow_le_pow_right (by decide) (by decide)))
  have hl : l ≤ 28 := by
    by_contra hcon
    have h28 : 2 ^ 28 < stack_bytes := e4 28 (by omega)
    omega
  refine ⟨l, hl, e3, e4, ?_⟩
  unfold syscall_multitask_request
  by_cases h1 : k.multitask_request_called ≠ 0
  · rw [if_pos h1, if_pos h1]
    rfl
  · rw [if_neg h1, if_neg h1, e1]
    dsimp only
    have hpow : 2 ^ l ≤ 2 ^ 28 := Nat.pow_le_pow_right (by decide) hl
    have hu : u32 (2 ^ l) = 2 ^ l := by
      unfold u32
      exact Nat.mod_eq_of_lt (by omega)
    by_cases hbig : num_threads > 14
    · rw [if_pos (Or.inl (by simpa [MAX_NUM_THREADS] using hbig)),
        if_pos (Or.inr (Or.inl hbig))]
      rfl
    · have hu2 : u32 (num_threads + 1) = num_threads + 1 := by
        unfold u32
        exact Nat.mod_eq_of_lt (by omega)
      have hprod : 2 ^ l * (num_threads + 1) ≤ 2 ^ 28 * 15 :=
        Nat.mul_le_mul hpow (by omega)
      have hu3 : u32 (2 ^ l * (num_threads + 1)) = 2 ^ l * (num_threads + 1) := by
        unfold u32
        exact Nat.mod_eq_of_lt (by omega)
      rw [hu, hu2, hu3]
      by_cases hc : num_threads = 0 ∨ num_threads > 14 ∨ num_locks > 32 ∨
          2 ^ l * (num_threads + 1) > 32768
      · rw [if_pos hc, if_pos]
        · rfl
        · simp only [MAX_NUM_THREADS, MAX_TOTAL_THREAD_STACK_SIZE, MAX_USER_LOCKS]
          tauto
      · rw [if_neg hc, if_neg]
        · rfl
        · simp only [MAX_NUM_THREADS, MAX_TOTAL_THREAD_STACK_SIZE, MAX_USER_LOCKS]
          tauto

/-- The error returns of `syscall_multitask_request` and `syscall_thread_define`, and
the two returns of `syscall_multitask_start` that precede `validate_ceiling_id`,
leave every kernel variable as it was. -/
theorem setup_error_keeps_state (k : Kernel) :
    (∀ user_base kernel_base default_idle junk num_threads stack_bytes idle_function
        mpu_protect num_locks r,
      syscall_multitask_request k user_base kernel_base default_idle junk num_threads
        stack_bytes idle_function mpu_protect num_locks = some r →
      r.1 ≠ SUCCESS → r.2 = k) ∧
    (∀ id fn arg c t r, syscall_thread_define k id fn arg c t = some r →
      r.1 ≠ SUCCESS → r.2 = k) ∧
    (∀ freq systick_rv, freq > SYSTICK_BASE_FREQUENCY ∨ k.thread_define_called = 0 →
      (syscall_multitask_start k freq systick_rv).2 = k) := by
  refine ⟨?_, ?_, ?_⟩
  · intro user_base kernel_base default_idle junk num_threads stack_bytes idle_function
      mpu_protect num_locks r h hr
    unfold syscall_multitask_request at h
    by_cases h1 : k.multitask_request_called ≠ 0
    · rw [if_pos h1] at h
      cases h; rfl
    · rw [if_neg h1] at h
      cases hc : ceil_log2 stack_bytes with
      | none => rw [hc] at h; cases h
      | some l =>
        rw [hc] at h
        dsimp only at h
        by_cases h2 : num_threads > MAX_NUM_THREADS ∨ num_threads = 0 ∨
            u32 (u32 (2 ^ l) * u32 (num_threads + 1)) > MAX_TOTAL_THREAD_STACK_SIZE ∨
            num_locks > MAX_USER_LOCKS
        · rw [if_pos h2] at h
          cases h; rfl
        · rw [if_neg h2] at h
          cases h; exact absurd rfl hr
  · intro id fn arg c t r h hr
    unfold syscall_thread_define at h
    dsimp only at h
    split_ifs at h with h1 h2 h3 h4
    · cases h; rfl
    · cases h; rfl
    · cases h; rfl
    · cases h; rfl
    · split at h
      · cases h
      · split_ifs at h with h5
        · cases h; exact absurd rfl hr
        · cases h; rfl
  · intro freq systick_rv h
    unfold syscall_multitask_start
    rcases h with h | h
    · rw [if_pos h]
    · by_cases h1 : freq > SYSTICK_BASE_FREQUENCY
      · rw [if_pos h1]
      · rw [if_neg h1, if_pos h]

end Nrf52840
